import Mathlib

/-!
# Smart update of the Percona Server for MongoDB operator

A shallow embedding of `pkg/controller/perconaservermongodb/smart.go` and the
properties of its rolling-update pass.

* Kubernetes objects are records with the fields the code reads.  A Go
  `map[string]string` is an association list; `m[k]` is `LabelMap.get`
  (the empty string for a missing key) and `_, ok := m[k]` is `LabelMap.has`.
* `int32`/`int` values are `Int`; the code only compares them.
* A Go `error` is its message (`String`); `errors.Wrap(err, msg)` is `wrap`.
* Every call that leaves the function (API server, MongoDB, backup subsystem,
  logger) is answered by a field of `Env`.  Each answer may depend on the whole
  history of the pass so far, so an `Env` stands for an arbitrary behaviour of
  the collaborators.  A function of the embedding receives the history and
  returns its result together with the events it appended to the history.
-/

namespace perconaservermongodb

deriving instance DecidableEq for Except

/-- Go `map[string]string`. -/
abbrev LabelMap := List (String × String)

/-- Go `m[k]` on a string map: the stored value, the empty string when absent. -/
def LabelMap.get (m : LabelMap) (k : String) : String :=
  (m.lookup k).getD ""

/-- Go `_, ok := m[k]`. -/
def LabelMap.has (m : LabelMap) (k : String) : Bool :=
  (m.lookup k).isSome

/-- The fields of `corev1.ContainerStatus` read by the code. -/
structure ContainerStatus where
  Name : String
  Ready : Bool
deriving DecidableEq

/-- The fields of `corev1.PodStatus` read by the code; `Phase` is a Go string type. -/
structure PodStatus where
  Phase : String
  ContainerStatuses : List ContainerStatus
deriving DecidableEq

/-- The fields of `corev1.Pod` read by the code. -/
structure Pod where
  Name : String
  Namespace : String
  Labels : LabelMap
  Status : PodStatus
deriving DecidableEq

/-- The fields of `appsv1.StatefulSetStatus` read by the code. -/
structure StatefulSetStatus where
  Replicas : Int
  ReadyReplicas : Int
  UpdatedReplicas : Int
  UpdateRevision : String
deriving DecidableEq

/-- The fields of `appsv1.StatefulSet` read by the code. -/
structure StatefulSet where
  Name : String
  Labels : LabelMap
  Annotations : LabelMap
  Status : StatefulSetStatus
deriving DecidableEq

/-- The probe field read by the code. -/
structure LivenessProbe where
  InitialDelaySeconds : Int
deriving DecidableEq

/-- The field `replset.Expose.Enabled`. -/
structure Expose where
  Enabled : Bool
deriving DecidableEq

/-- The fields of `api.ReplsetSpec` read by the code. -/
structure ReplsetSpec where
  Size : Int
  Name : String
  LivenessProbe : LivenessProbe
  Expose : Expose
deriving DecidableEq

/-- The fields `cr.Spec.Sharding.Mongos.*` read by the code. -/
structure MongosSpec where
  Size : Int
  LivenessProbe : LivenessProbe
deriving DecidableEq

/-- The fields `cr.Spec.Sharding.*` read by the code. -/
structure Sharding where
  Enabled : Bool
  Mongos : MongosSpec
deriving DecidableEq

/-- The fields `cr.Spec.*` read by the code. -/
structure PerconaServerMongoDBSpec where
  UpdateStrategy : String
  Sharding : Sharding
deriving DecidableEq

/-- The fields of `api.PerconaServerMongoDB` read by the code. -/
structure PerconaServerMongoDB where
  Name : String
  Namespace : String
  Spec : PerconaServerMongoDBSpec
deriving DecidableEq

/-- Outcome of `r.client.Get` on a pod: the object, a not-found error
(`k8sErrors.IsNotFound`), or any other error. -/
inductive GetResult where
  | found (pod : Pod)
  | notFound (err : String)
  | failed (err : String)
deriving DecidableEq

/-- One step of the history of a pass: a call that left the operator together
with its answer, a log line, or a mark at the entry or exit of `isPodPrimary`
and `applyNWait` (the marks stand for no call; they let ordering properties
speak about these two functions). -/
inductive Event where
  | ListPods (ns : String) (selector : LabelMap) (r : Except String (List Pod))
  | GetStatefulSet (name ns : String) (r : Except String StatefulSet)
  | GetRSPods (rsName : String) (r : Except String (List Pod))
  | getMongosPods (r : Except String (List Pod))
  | isBackupRunning (r : Except String Bool)
  | HasActiveJobs (r : Except String Bool)
  | disableBalancer (r : Except String Unit)
  | MongoHost (pod : Pod) (r : Except String String)
  | standaloneClientWithRole (host : String) (r : Except String Unit)
  | IsMaster (host : String) (r : Except String Bool)
  | Disconnect (r : Except String Unit)
  | getArbiterStatefulset (rsName : String) (r : Except String StatefulSet)
  | mongoClientWithRole (r : Except String Unit)
  | StepDown (force : Bool) (r : Except String Unit)
  | Delete (pod : Pod) (r : Except String Unit)
  | Sleep
  | GetPod (name ns : String) (r : GetResult)
  | updateStatus (r : Except String Unit)
  | log (msg : String) (keysAndValues : List (String × String))
  | logError (err msg : String)
  | isPodPrimaryReturn (pod : Pod) (r : Except String Bool)
  | applyNWaitCall (pod : Pod) (updateRevision : String) (waitLimit : Int)
  | applyNWaitReturn (pod : Pod) (r : Except String Unit)
deriving DecidableEq

/-- The history of a pass, oldest event first. -/
abbrev Trace := List Event

/-- The collaborators of the pass.  The three strings are constants of the
`api` package and `CompareVersion` is a method of the custom resource; they are
declared outside `smart.go` and are left arbitrary.  Every other field answers
one external call, given the history up to the call. -/
structure Env where
  SmartUpdateStatefulSetStrategyType : String
  ConfigReplSetName : String
  AnnotationRestoreInProgress : String
  CompareVersion : PerconaServerMongoDB → String → Int
  ListPods : Trace → String → LabelMap → Except String (List Pod)
  GetStatefulSet : Trace → String → String → Except String StatefulSet
  GetRSPods : Trace → String → Except String (List Pod)
  getMongosPods : Trace → Except String (List Pod)
  isBackupRunning : Trace → Except String Bool
  HasActiveJobs : Trace → Except String Bool
  disableBalancer : Trace → Except String Unit
  MongoHost : Trace → Pod → Except String String
  standaloneClientWithRole : Trace → String → Except String Unit
  IsMaster : Trace → String → Except String Bool
  Disconnect : Trace → Except String Unit
  getArbiterStatefulset : Trace → String → Except String StatefulSet
  mongoClientWithRole : Trace → Except String Unit
  StepDown : Trace → Bool → Except String Unit
  Delete : Trace → Pod → Except String Unit
  GetPod : Trace → String → String → GetResult
  updateStatus : Trace → Except String Unit

/-- Message of `errors.Wrap(err, msg)`. -/
def wrap (err msg : String) : String :=
  msg ++ ": " ++ err

/-- Put the events `ev`, emitted earlier, in front of the events of `r`. -/
def after {α : Type} (ev : Trace) (r : α × Trace) : α × Trace :=
  (r.1, ev ++ r.2)

/-- The zero value of `corev1.Pod` (`var primaryPod corev1.Pod`). -/
def zeroPod : Pod :=
  { Name := "", Namespace := "", Labels := [], Status := { Phase := "", ContainerStatuses := [] } }

/-! ## isSfsChanged (smart.go 349-363) -/

/-- The `for` loop of `isSfsChanged`. -/
def isSfsChangedLoop (sfs : StatefulSet) : List Pod → Bool
  | [] => false
  | pod :: rest =>
    if pod.Labels.get "app.kubernetes.io/component" ≠ sfs.Labels.get "app.kubernetes.io/component" then
      isSfsChangedLoop sfs rest
    else if pod.Labels.get "controller-revision-hash" ≠ sfs.Status.UpdateRevision then
      true
    else
      isSfsChangedLoop sfs rest

/-- Go `isSfsChanged(sfs, podList)`. -/
def isSfsChanged (sfs : StatefulSet) (podList : List Pod) : Bool :=
  if sfs.Status.UpdateRevision = "" then false
  else isSfsChangedLoop sfs podList

/-! ## waitPodRestart (smart.go 318-347) -/

/-- The names of the `switch` in `waitPodRestart`. -/
def isDesignated (name : String) : Bool :=
  name = "mongod" || name = "mongod-arbiter" || name = "mongod-nv" || name = "mongos"

/-- The inner loop of `waitPodRestart`: `ready` starts false and is overwritten
by every container status with a designated name. -/
def containerReady (statuses : List ContainerStatus) : Bool :=
  statuses.foldl (fun ready container => if isDesignated container.Name then container.Ready else ready) false

/-- The condition under which `waitPodRestart` returns nil (line 340). -/
def podStarted (updateRevision : String) (pod : Pod) : Bool :=
  pod.Status.Phase = "Running" && pod.Labels.get "controller-revision-hash" = updateRevision
    && containerReady pod.Status.ContainerStatuses

/-- The pod object after `r.client.Get(..., pod)`: overwritten when found, left
as it was when the read reports not-found (or fails). -/
def reread (g : GetResult) (pod : Pod) : Pod :=
  match g with
  | .found p => p
  | _ => pod

/-- One iteration of the loop of `waitPodRestart` (lines 320-343).  `some r`:
the iteration executes `return r`; `none`: it falls through to the next one.
The second component is the pod object as written through the pointer. -/
def waitPodRestartBody (env : Env) (updateRevision : String) (pod : Pod) (tr : Trace) :
    Option (Except String Unit) × Pod × Trace :=
  let g := env.GetPod (tr ++ [Event.Sleep]) pod.Name pod.Namespace
  let ev1 := [Event.Sleep, Event.GetPod pod.Name pod.Namespace g]
  match g with
  | .failed e => (some (.error (wrap e "get pod")), pod, ev1)
  | _ =>
    let pod1 := reread g pod
    let u := env.updateStatus (tr ++ ev1)
    let ev2 := ev1 ++ [Event.updateStatus u]
    match u with
    | .error e => (some (.error (wrap e "update status")), pod1, ev2)
    | .ok _ =>
      if podStarted updateRevision pod1 then
        (some (.ok ()), pod1, ev2 ++ [Event.log "Pod started" [("pod", pod1.Name)]])
      else (none, pod1, ev2)

/-- The loop of `waitPodRestart` with `n` iterations left.  Returns the error
value, the pod object as last written through the pointer, and the events. -/
def waitPodRestartLoop (env : Env) (updateRevision : String) : Nat → Pod → Trace → Except String Unit × Pod × Trace
  | 0, pod, _ => (.error "reach pod wait limit", pod, [])
  | n + 1, pod, tr =>
    match waitPodRestartBody env updateRevision pod tr with
    | (some r, pod1, ev) => (r, pod1, ev)
    | (none, pod1, ev) =>
      let r := waitPodRestartLoop env updateRevision n pod1 (tr ++ ev)
      (r.1, r.2.1, ev ++ r.2.2)

/-- Go `waitPodRestart`: `for i := 0; i < waitLimit; i++` runs `waitLimit.toNat` times. -/
def waitPodRestart (env : Env) (updateRevision : String) (pod : Pod) (waitLimit : Int) (tr : Trace) :
    Except String Unit × Pod × Trace :=
  waitPodRestartLoop env updateRevision waitLimit.toNat pod tr

/-! ## applyNWait (smart.go 302-316) -/

/-- The pattern `if err != nil { return errors.Wrap(err, msg) }; return nil`. -/
def wrapResult {α : Type} (msg : String) : Except String α → Except String α
  | .error e => .error (wrap e msg)
  | .ok a => .ok a

/-- The body of `applyNWait`. -/
def applyNWaitBody (env : Env) (updateRevision : String) (pod : Pod) (waitLimit : Int) (tr : Trace) :
    Except String Unit × Pod × Trace :=
  if pod.Labels.get "controller-revision-hash" = updateRevision then
    let ev1 := [Event.log "Pod already updated" [("pod", pod.Name)]]
    let r := waitPodRestart env updateRevision pod waitLimit (tr ++ ev1)
    (wrapResult "wait pod restart" r.1, r.2.1, ev1 ++ r.2.2)
  else
    let d := env.Delete tr pod
    let ev1 := [Event.Delete pod d]
    match d with
    | .error e => (.error (wrap e "delete pod"), pod, ev1)
    | .ok _ =>
      let r := waitPodRestart env updateRevision pod waitLimit (tr ++ ev1)
      (wrapResult "wait pod restart" r.1, r.2.1, ev1 ++ r.2.2)

/-- Go `applyNWait`, with a mark at entry and at exit. -/
def applyNWait (env : Env) (updateRevision : String) (pod : Pod) (waitLimit : Int) (tr : Trace) :
    Except String Unit × Pod × Trace :=
  let ev0 := [Event.applyNWaitCall pod updateRevision waitLimit]
  let r := applyNWaitBody env updateRevision pod waitLimit (tr ++ ev0)
  (r.1, r.2.1, ev0 ++ r.2.2 ++ [Event.applyNWaitReturn pod r.1])

/-! ## isPodPrimary (smart.go 184-208) -/

/-- The deferred `Disconnect` of a MongoDB client: a failure is only logged. -/
def deferredDisconnect (env : Env) (tr : Trace) : Trace :=
  match env.Disconnect tr with
  | .error e => [Event.Disconnect (.error e), Event.logError e "failed to close connection"]
  | .ok u => [Event.Disconnect (.ok u)]

/-- The body of `isPodPrimary`. -/
def isPodPrimaryBody (env : Env) (pod : Pod) (tr : Trace) : Except String Bool × Trace :=
  let h := env.MongoHost tr pod
  let ev1 := [Event.MongoHost pod h]
  match h with
  | .error e => (.error (wrap e "failed to get mongo host"), ev1)
  | .ok host =>
    let c := env.standaloneClientWithRole (tr ++ ev1) host
    let ev2 := ev1 ++ [Event.standaloneClientWithRole host c]
    match c with
    | .error e => (.error (wrap e "failed to create standalone client"), ev2)
    | .ok _ =>
      let m := env.IsMaster (tr ++ ev2) host
      let ev3 := ev2 ++ [Event.IsMaster host m]
      let ev4 := ev3 ++ deferredDisconnect env (tr ++ ev3)
      match m with
      | .error e => (.error (wrap e "is master"), ev4)
      | .ok isMaster => (.ok isMaster, ev4)

/-- Go `isPodPrimary`, with a mark carrying its answer. -/
def isPodPrimary (env : Env) (pod : Pod) (tr : Trace) : Except String Bool × Trace :=
  let r := isPodPrimaryBody env pod tr
  (r.1, r.2 ++ [Event.isPodPrimaryReturn pod r.1])

/-! ## smartUpdate (smart.go 23-182) -/

/-- The label selector built at lines 35-46. -/
def matchLabels (cr : PerconaServerMongoDB) (sfs : StatefulSet) (replset : ReplsetSpec) : LabelMap :=
  let base : LabelMap :=
    [ ("app.kubernetes.io/name", "percona-server-mongodb"),
      ("app.kubernetes.io/instance", cr.Name),
      ("app.kubernetes.io/replset", replset.Name),
      ("app.kubernetes.io/managed-by", "percona-server-mongodb-operator"),
      ("app.kubernetes.io/part-of", "percona-server-mongodb") ]
  match sfs.Labels.lookup "app.kubernetes.io/component" with
  | some label => base ++ [("app.kubernetes.io/component", label)]
  | none => base

/-- The name `cr.Name + "-" + api.ConfigReplSetName`. -/
def configSfsName (env : Env) (cr : PerconaServerMongoDB) : String :=
  cr.Name ++ "-" ++ env.ConfigReplSetName

/-- Lines 67-81 of `smartUpdate`.  `ok true`: the config replica set is stale and
the pass returns nil; `ok false`: the pass goes on. -/
def configCheck (env : Env) (cr : PerconaServerMongoDB) (sfs : StatefulSet) (tr : Trace) :
    Except String Bool × Trace :=
  if cr.Spec.Sharding.Enabled = true ∧ sfs.Name ≠ configSfsName env cr then
    let g := env.GetStatefulSet tr (configSfsName env cr) cr.Namespace
    let ev1 := [Event.GetStatefulSet (configSfsName env cr) cr.Namespace g]
    match g with
    | .error e =>
      (.error (wrap e ("get config statefulset " ++ cr.Namespace ++ "/" ++ configSfsName env cr)), ev1)
    | .ok cfgSfs =>
      let l := env.GetRSPods (tr ++ ev1) env.ConfigReplSetName
      let ev2 := ev1 ++ [Event.GetRSPods env.ConfigReplSetName l]
      match l with
      | .error e => (.error (wrap e "get cfg pod list"), ev2)
      | .ok cfgList =>
        if isSfsChanged cfgSfs cfgList then
          (.ok true, ev2 ++ [Event.log "waiting for config RS update" []])
        else (.ok false, ev2)
  else (.ok false, [])

/-- Lines 83-108 of `smartUpdate`.  `ok false`: a veto holds and the pass
returns nil; `ok true`: the pass goes on. -/
def safetyGates (env : Env) (sfs : StatefulSet) (tr : Trace) : Except String Bool × Trace :=
  let ev0 := [Event.log "StatefulSet is changed, starting smart update" [("name", sfs.Name)]]
  if sfs.Status.ReadyReplicas < sfs.Status.Replicas then
    (.ok false, ev0 ++ [Event.log "can't start/continue 'SmartUpdate': waiting for all replicas are ready" []])
  else
    let b := env.isBackupRunning (tr ++ ev0)
    let ev1 := ev0 ++ [Event.isBackupRunning b]
    match b with
    | .error e => (.error (wrap e "failed to check active backups"), ev1)
    | .ok true =>
      (.ok false, ev1 ++ [Event.log "can't start 'SmartUpdate': waiting for running backups to be finished" []])
    | .ok false =>
      let j := env.HasActiveJobs (tr ++ ev1)
      let ev2 := ev1 ++ [Event.HasActiveJobs j]
      match j with
      | .error e => (.error (wrap e "failed to check active jobs"), ev2)
      | .ok hasActiveJobs =>
        if !sfs.Annotations.has env.AnnotationRestoreInProgress && hasActiveJobs then
          (.ok false, ev2 ++ [Event.log "can't start 'SmartUpdate': waiting for active jobs to be finished" []])
        else (.ok true, ev2)

/-- Lines 110-115 of `smartUpdate`. -/
def balancerStep (env : Env) (cr : PerconaServerMongoDB) (sfs : StatefulSet) (tr : Trace) :
    Except String Unit × Trace :=
  if sfs.Name = configSfsName env cr then
    let d := env.disableBalancer tr
    match d with
    | .error e => (.error (wrap e "failed to stop balancer"), [Event.disableBalancer d])
    | .ok _ => (.ok (), [Event.disableBalancer d])
  else (.ok (), [])

/-- The comparison of `sort.Slice` at lines 119-121 and 254-256: `a` may stand
before `b` when `a.Name >= b.Name`.  Go compares strings bytewise, which for
UTF-8 is the lexicographic order of the characters. -/
def nameGe (a b : Pod) : Prop :=
  b.Name.toList ≤ a.Name.toList

instance nameGe.decidable : DecidableRel nameGe :=
  fun a b => inferInstanceAs (Decidable (b.Name.toList ≤ a.Name.toList))

instance nameGe.isTotal : IsTotal Pod nameGe :=
  ⟨fun a b => le_total b.Name.toList a.Name.toList⟩

instance nameGe.isTrans : IsTrans Pod nameGe :=
  ⟨fun _ _ _ hab hbc => le_trans hbc hab⟩

/-- The list after `sort.Slice(list.Items, ...)`: sorted by name, descending.
For pairwise distinct names this is the only possible result; for equal names
Go leaves the relative order open and the model keeps the one of insertion. -/
def sortPods (items : List Pod) : List Pod :=
  items.insertionSort nameGe

/-- Lines 136-144 of `smartUpdate`: the revision a non-primary pod has to reach. -/
def secondaryRevision (env : Env) (sfs : StatefulSet) (pod : Pod) (tr : Trace) : Except String String × Trace :=
  if pod.Labels.get "app.kubernetes.io/component" = "arbiter" then
    let a := env.getArbiterStatefulset tr (pod.Labels.get "app.kubernetes.io/replset")
    let ev := [Event.getArbiterStatefulset (pod.Labels.get "app.kubernetes.io/replset") a]
    match a with
    | .error e => (.error (wrap e "failed to get arbiter statefulset"), ev)
    | .ok arbiterSfs => (.ok arbiterSfs.Status.UpdateRevision, ev)
  else (.ok sfs.Status.UpdateRevision, [])

/-- The loop at lines 124-149 of `smartUpdate` over the sorted pods; the result
is the value of `primaryPod` at the end of the loop. -/
def smartUpdateLoop (env : Env) (sfs : StatefulSet) (waitLimit : Int) :
    List Pod → Pod → Trace → Except String Pod × Trace
  | [], primaryPod, _ => (.ok primaryPod, [])
  | pod :: rest, primaryPod, tr =>
    let role := isPodPrimary env pod tr
    match role.1 with
    | .error e => (.error (wrap e "is pod primary"), role.2)
    | .ok true => after role.2 (smartUpdateLoop env sfs waitLimit rest pod (tr ++ role.2))
    | .ok false =>
      let ev2 := role.2 ++ [Event.log "apply changes to secondary pod" [("pod", pod.Name)]]
      let rev := secondaryRevision env sfs pod (tr ++ ev2)
      match rev.1 with
      | .error e => (.error e, ev2 ++ rev.2)
      | .ok updateRevision =>
        let a := applyNWait env updateRevision pod waitLimit (tr ++ (ev2 ++ rev.2))
        match a.1 with
        | .error e => (.error (wrap e "failed to apply changes"), ev2 ++ rev.2 ++ a.2.2)
        | .ok _ =>
          after (ev2 ++ rev.2 ++ a.2.2)
            (smartUpdateLoop env sfs waitLimit rest primaryPod (tr ++ (ev2 ++ rev.2 ++ a.2.2)))

/-- Lines 151-181 of `smartUpdate`: step-down and restart of the primary. -/
def primaryStep (env : Env) (sfs : StatefulSet) (replset : ReplsetSpec) (waitLimit : Int)
    (primaryPod : Pod) (tr : Trace) : Except String Unit × Trace :=
  if sfs.Labels.get "app.kubernetes.io/component" ≠ "nonVoting" ∧ primaryPod.Name ≠ "" then
    let forceStepDown : Bool := decide (replset.Size = 1)
    let ev0 := [Event.log "doing step down..." [("force", toString forceStepDown)]]
    let c := env.mongoClientWithRole (tr ++ ev0)
    let ev1 := ev0 ++ [Event.mongoClientWithRole c]
    match c with
    | .error e => (.error ("failed to get mongo client: " ++ e), ev1)
    | .ok _ =>
      let s := env.StepDown (tr ++ ev1) forceStepDown
      let ev2 := ev1 ++ [Event.StepDown forceStepDown s]
      match s with
      | .error e =>
        (.error (wrap e "failed to do step down"), ev2 ++ deferredDisconnect env (tr ++ ev2))
      | .ok _ =>
        let ev3 := ev2 ++ [Event.log "apply changes to primary pod" [("pod", primaryPod.Name)]]
        match applyNWait env sfs.Status.UpdateRevision primaryPod waitLimit (tr ++ ev3) with
        | (.error e, _, ev4) =>
          (.error ("failed to apply changes: " ++ e), ev3 ++ ev4 ++ deferredDisconnect env (tr ++ (ev3 ++ ev4)))
        | (.ok _, _, ev4) =>
          let ev5 := ev3 ++ ev4 ++ [Event.log "smart update finished for statefulset" [("statefulset", sfs.Name)]]
          (.ok (), ev5 ++ deferredDisconnect env (tr ++ ev5))
  else
    (.ok (), [Event.log "smart update finished for statefulset" [("statefulset", sfs.Name)]])

/-- Lines 117-149 of `smartUpdate`: the wait limit, the sort and the loop. -/
def restartLoop (env : Env) (sfs : StatefulSet) (replset : ReplsetSpec) (items : List Pod) (tr : Trace) :
    Except String Pod × Trace :=
  smartUpdateLoop env sfs replset.LivenessProbe.InitialDelaySeconds (sortPods items) zeroPod tr

/-- Lines 117-181 of `smartUpdate`: what the pass does once every gate is open. -/
def smartUpdateRestart (env : Env) (sfs : StatefulSet) (replset : ReplsetSpec) (items : List Pod)
    (tr : Trace) : Except String Unit × Trace :=
  let loop := restartLoop env sfs replset items tr
  match loop.1 with
  | .error e => (.error e, loop.2)
  | .ok primaryPod =>
    after loop.2
      (primaryStep env sfs replset replset.LivenessProbe.InitialDelaySeconds primaryPod (tr ++ loop.2))

/-- Lines 83-181 of `smartUpdate`: the safety checks and what follows them. -/
def smartUpdateGated (env : Env) (cr : PerconaServerMongoDB) (sfs : StatefulSet) (replset : ReplsetSpec)
    (items : List Pod) (tr : Trace) : Except String Unit × Trace :=
  match safetyGates env sfs tr with
  | (.error e, ev2) => (.error e, ev2)
  | (.ok false, ev2) => (.ok (), ev2)
  | (.ok true, ev2) =>
    match balancerStep env cr sfs (tr ++ ev2) with
    | (.error e, ev3) => (.error e, ev2 ++ ev3)
    | (.ok _, ev3) => after (ev2 ++ ev3) (smartUpdateRestart env sfs replset items (tr ++ (ev2 ++ ev3)))

/-- Lines 59-181 of `smartUpdate`, after the pod list has been read. -/
def smartUpdateListed (env : Env) (cr : PerconaServerMongoDB) (sfs : StatefulSet) (replset : ReplsetSpec)
    (items : List Pod) (tr : Trace) : Except String Unit × Trace :=
  if isSfsChanged sfs items = false then (.ok (), [])
  else if env.CompareVersion cr "1.4.0" < 0 then (.ok (), [])
  else
    match configCheck env cr sfs tr with
    | (.error e, ev1) => (.error e, ev1)
    | (.ok true, ev1) => (.ok (), ev1)
    | (.ok false, ev1) => after ev1 (smartUpdateGated env cr sfs replset items (tr ++ ev1))

/-- Go `smartUpdate`: the error value and the history of the pass. -/
def smartUpdate (env : Env) (cr : PerconaServerMongoDB) (sfs : StatefulSet) (replset : ReplsetSpec) :
    Except String Unit × Trace :=
  if replset.Size = 0 then (.ok (), [])
  else if cr.Spec.UpdateStrategy ≠ env.SmartUpdateStatefulSetStrategyType then (.ok (), [])
  else
    let l := env.ListPods [] cr.Namespace (matchLabels cr sfs replset)
    let ev0 := [Event.ListPods cr.Namespace (matchLabels cr sfs replset) l]
    match l with
    | .error e => (.error ("get pod list: " ++ e), ev0)
    | .ok items => after ev0 (smartUpdateListed env cr sfs replset items ev0)

/-! ## smartMongosUpdate (smart.go 210-266) -/

/-- The loop at lines 258-262 of `smartMongosUpdate`. -/
def smartMongosUpdateLoop (env : Env) (updateRevision : String) (waitLimit : Int) :
    List Pod → Trace → Except String Unit × Trace
  | [], _ => (.ok (), [])
  | pod :: rest, tr =>
    let a := applyNWait env updateRevision pod waitLimit tr
    match a.1 with
    | .error e => (.error (wrap e "failed to apply changes"), a.2.2)
    | .ok _ => after a.2.2 (smartMongosUpdateLoop env updateRevision waitLimit rest (tr ++ a.2.2))

/-- Lines 226-250 of `smartMongosUpdate`.  `ok false`: a veto holds; `ok true`:
the pass goes on. -/
def mongosSafetyGates (env : Env) (sts : StatefulSet) (tr : Trace) : Except String Bool × Trace :=
  let ev0 := [Event.log "StatefulSet is changed, starting smart update" [("name", sts.Name)]]
  if sts.Status.ReadyReplicas < sts.Status.Replicas then
    (.ok false, ev0 ++ [Event.log "can't start/continue 'SmartUpdate': waiting for all replicas are ready" []])
  else
    let b := env.isBackupRunning (tr ++ ev0)
    let ev1 := ev0 ++ [Event.isBackupRunning b]
    match b with
    | .error e => (.error (wrap e "failed to check active backups"), ev1)
    | .ok true =>
      (.ok false, ev1 ++ [Event.log "can't start 'SmartUpdate': waiting for running backups to be finished" []])
    | .ok false =>
      let j := env.HasActiveJobs (tr ++ ev1)
      let ev2 := ev1 ++ [Event.HasActiveJobs j]
      match j with
      | .error e => (.error (wrap e "failed to check active jobs"), ev2)
      | .ok true =>
        (.ok false, ev2 ++ [Event.log "can't start 'SmartUpdate': waiting for active jobs to be finished" []])
      | .ok false => (.ok true, ev2)

/-- Go `smartMongosUpdate`: the error value and the history of the pass. -/
def smartMongosUpdate (env : Env) (cr : PerconaServerMongoDB) (sts : StatefulSet) : Except String Unit × Trace :=
  if cr.Spec.Sharding.Mongos.Size = 0 ∨ cr.Spec.UpdateStrategy ≠ env.SmartUpdateStatefulSetStrategyType then
    (.ok (), [])
  else
    let l := env.getMongosPods []
    let ev0 := [Event.getMongosPods l]
    match l with
    | .error e => (.error (wrap e "get mongos pods"), ev0)
    | .ok items =>
      if isSfsChanged sts items = false then (.ok (), ev0)
      else
        match mongosSafetyGates env sts ev0 with
        | (.error e, ev1) => (.error e, ev0 ++ ev1)
        | (.ok false, ev1) => (.ok (), ev0 ++ ev1)
        | (.ok true, ev1) =>
          match smartMongosUpdateLoop env sts.Status.UpdateRevision
              cr.Spec.Sharding.Mongos.LivenessProbe.InitialDelaySeconds (sortPods items) (ev0 ++ ev1) with
          | (.error e, ev2) => (.error e, ev0 ++ ev1 ++ ev2)
          | (.ok _, ev2) =>
            (.ok (), ev0 ++ ev1 ++ ev2 ++ [Event.log "smart update finished for mongos statefulset" []])

/-! ## Reading a history -/

/-- The pod carries the same `app.kubernetes.io/component` value as the StatefulSet. -/
def sameComponent (sfs : StatefulSet) (pod : Pod) : Bool :=
  pod.Labels.get "app.kubernetes.io/component" = sfs.Labels.get "app.kubernetes.io/component"

/-- One iteration of the loop of `waitPodRestart` starts with one `Sleep`. -/
def isPoll : Event → Bool
  | .Sleep => true
  | _ => false

/-- Number of polls in a history. -/
def pollCount (ev : Trace) : Nat :=
  ev.countP isPoll

/-- A pod read that failed with an error other than not-found, or a failed
status update. -/
def readOrStatusFailed : Event → Bool
  | .GetPod _ _ (.failed _) => true
  | .updateStatus (.error _) => true
  | _ => false

/-- The successive values of the pod object after each pod read of a history,
starting from `pod`. -/
def pollPods : Pod → Trace → List Pod
  | _, [] => []
  | pod, .GetPod _ _ g :: ev => reread g pod :: pollPods (reread g pod) ev
  | pod, _ :: ev => pollPods pod ev

/-- A pod deletion. -/
def isDelete : Event → Bool
  | .Delete _ _ => true
  | _ => false

/-- A step-down request. -/
def isStepDown : Event → Bool
  | .StepDown _ _ => true
  | _ => false

/-- A request to disable the balancer. -/
def isDisableBalancer : Event → Bool
  | .disableBalancer _ => true
  | _ => false

/-- An action of the pass on the cluster: a pod deletion, a step-down request or
a balancer change. -/
def isAction (e : Event) : Bool :=
  isDelete e || isStepDown e || isDisableBalancer e

/-- The events the loop of `waitPodRestart` can emit. -/
def inWait : Event → Bool
  | .Sleep => true
  | .GetPod _ _ _ => true
  | .updateStatus _ => true
  | .log _ _ => true
  | _ => false

/-- The events the body of `applyNWait` can emit for `pod`. -/
def inApplyBody (pod : Pod) : Event → Bool
  | .Delete p _ => p = pod
  | e => inWait e

/-- The events `applyNWait` can emit for `pod`. -/
def inApply (pod : Pod) : Event → Bool
  | .applyNWaitCall p _ _ => p = pod
  | .applyNWaitReturn p _ => p = pod
  | e => inApplyBody pod e

/-- The events the body of `isPodPrimary` can emit. -/
def inRoleBody : Event → Bool
  | .MongoHost _ _ => true
  | .standaloneClientWithRole _ _ => true
  | .IsMaster _ _ => true
  | .Disconnect _ => true
  | .logError _ _ => true
  | _ => false

/-- The events `isPodPrimary` can emit for `pod`. -/
def inRole (pod : Pod) : Event → Bool
  | .isPodPrimaryReturn p _ => p = pod
  | e => inRoleBody e

/-- The events the loop and the primary step of `smartUpdate` can emit. -/
def inRestart : Event → Bool
  | .Sleep => true
  | .GetPod _ _ _ => true
  | .updateStatus _ => true
  | .log _ _ => true
  | .Delete _ _ => true
  | .applyNWaitCall _ _ _ => true
  | .applyNWaitReturn _ _ => true
  | .MongoHost _ _ => true
  | .standaloneClientWithRole _ _ => true
  | .IsMaster _ _ => true
  | .Disconnect _ => true
  | .logError _ _ => true
  | .isPodPrimaryReturn _ _ => true
  | .getArbiterStatefulset _ _ => true
  | .mongoClientWithRole _ => true
  | .StepDown _ _ => true
  | _ => false

/-- The events the loop of `smartUpdate` can emit. -/
def inLoop : Event → Bool
  | .mongoClientWithRole _ => false
  | .StepDown _ _ => false
  | e => inRestart e

/-- The log line that opens the safety checks (smart.go 83 and 226). -/
def startingLog (sfs : StatefulSet) : Event :=
  Event.log "StatefulSet is changed, starting smart update" [("name", sfs.Name)]

/-- The log line of the replicas-not-ready veto. -/
def replicasVetoLog : Event :=
  Event.log "can't start/continue 'SmartUpdate': waiting for all replicas are ready" []

/-- The log line of the backup-active veto. -/
def backupVetoLog : Event :=
  Event.log "can't start 'SmartUpdate': waiting for running backups to be finished" []

/-- The log line of the active-jobs veto. -/
def jobsVetoLog : Event :=
  Event.log "can't start 'SmartUpdate': waiting for active jobs to be finished" []

/-- The log line of the deferral on a stale config replica set. -/
def configVetoLog : Event :=
  Event.log "waiting for config RS update" []

/-- The group is a shard replica set of a sharded cluster (line 67). -/
def isShardGroup (env : Env) (cr : PerconaServerMongoDB) (sfs : StatefulSet) : Prop :=
  cr.Spec.Sharding.Enabled = true ∧ sfs.Name ≠ configSfsName env cr

/-- The events of a config-server check that lets the pass go on. -/
def CfgPassed (env : Env) (cr : PerconaServerMongoDB) (sfs : StatefulSet) (ev : Trace) : Prop :=
  (¬ isShardGroup env cr sfs ∧ ev = []) ∨
  (isShardGroup env cr sfs ∧ ∃ s l, isSfsChanged s l = false ∧
    ev = [Event.GetStatefulSet (configSfsName env cr) cr.Namespace (.ok s),
          Event.GetRSPods env.ConfigReplSetName (.ok l)])

/-- The events of safety checks that let the pass go on. -/
def GatesPassed (env : Env) (sfs : StatefulSet) (ev : Trace) : Prop :=
  ¬ sfs.Status.ReadyReplicas < sfs.Status.Replicas ∧
  ∃ j, (sfs.Annotations.has env.AnnotationRestoreInProgress = true ∨ j = false) ∧
    ev = [startingLog sfs, Event.isBackupRunning (.ok false), Event.HasActiveJobs (.ok j)]

/-- The events of a balancer step that lets the pass go on. -/
def BalancerPassed (env : Env) (cr : PerconaServerMongoDB) (sfs : StatefulSet) (ev : Trace) : Prop :=
  (sfs.Name ≠ configSfsName env cr ∧ ev = []) ∨
  (sfs.Name = configSfsName env cr ∧ ev = [Event.disableBalancer (.ok ())])

/-- The result and events of lines 83-115 when the pass ends there. -/
def GatedEnded (env : Env) (cr : PerconaServerMongoDB) (sfs : StatefulSet) (res : Except String Unit)
    (ev : Trace) : Prop :=
  (sfs.Status.ReadyReplicas < sfs.Status.Replicas ∧ res = .ok () ∧
    ev = [startingLog sfs, replicasVetoLog]) ∨
  (¬ sfs.Status.ReadyReplicas < sfs.Status.Replicas ∧ ∃ e msg, res = .error msg ∧
    ev = [startingLog sfs, Event.isBackupRunning (.error e)]) ∨
  (¬ sfs.Status.ReadyReplicas < sfs.Status.Replicas ∧ res = .ok () ∧
    ev = [startingLog sfs, Event.isBackupRunning (.ok true), backupVetoLog]) ∨
  (¬ sfs.Status.ReadyReplicas < sfs.Status.Replicas ∧ ∃ e msg, res = .error msg ∧
    ev = [startingLog sfs, Event.isBackupRunning (.ok false), Event.HasActiveJobs (.error e)]) ∨
  (¬ sfs.Status.ReadyReplicas < sfs.Status.Replicas ∧
    sfs.Annotations.has env.AnnotationRestoreInProgress = false ∧ res = .ok () ∧
    ev = [startingLog sfs, Event.isBackupRunning (.ok false), Event.HasActiveJobs (.ok true), jobsVetoLog]) ∨
  (sfs.Name = configSfsName env cr ∧ ∃ gEv e msg, GatesPassed env sfs gEv ∧ res = .error msg ∧
    ev = gEv ++ [Event.disableBalancer (.error e)])

/-- The events of lines 83-115 when the pass goes on to the restarts. -/
def GatedPassed (env : Env) (cr : PerconaServerMongoDB) (sfs : StatefulSet) (ev : Trace) : Prop :=
  ∃ gEv bEv, GatesPassed env sfs gEv ∧ BalancerPassed env cr sfs bEv ∧ ev = gEv ++ bEv

/-- The result and events of lines 59-115 when the pass ends there. -/
def ListedEnded (env : Env) (cr : PerconaServerMongoDB) (sfs : StatefulSet) (items : List Pod)
    (res : Except String Unit) (ev : Trace) : Prop :=
  ((isSfsChanged sfs items = false ∨ env.CompareVersion cr "1.4.0" < 0) ∧ res = .ok () ∧ ev = []) ∨
  (isShardGroup env cr sfs ∧ ∃ e msg, res = .error msg ∧
    ev = [Event.GetStatefulSet (configSfsName env cr) cr.Namespace (.error e)]) ∨
  (isShardGroup env cr sfs ∧ ∃ s e msg, res = .error msg ∧
    ev = [Event.GetStatefulSet (configSfsName env cr) cr.Namespace (.ok s),
          Event.GetRSPods env.ConfigReplSetName (.error e)]) ∨
  (isShardGroup env cr sfs ∧ ∃ s l, isSfsChanged s l = true ∧ res = .ok () ∧
    ev = [Event.GetStatefulSet (configSfsName env cr) cr.Namespace (.ok s),
          Event.GetRSPods env.ConfigReplSetName (.ok l), configVetoLog]) ∨
  (∃ cfgEv ev2, CfgPassed env cr sfs cfgEv ∧ GatedEnded env cr sfs res ev2 ∧ ev = cfgEv ++ ev2)

/-- The events of lines 59-115 when the pass goes on to the restarts. -/
def ListedPassed (env : Env) (cr : PerconaServerMongoDB) (sfs : StatefulSet) (ev : Trace) : Prop :=
  ∃ cfgEv ev2, CfgPassed env cr sfs cfgEv ∧ GatedPassed env cr sfs ev2 ∧ ev = cfgEv ++ ev2

/-- The event of the pod list read by `smartUpdate`. -/
def listEvent (cr : PerconaServerMongoDB) (sfs : StatefulSet) (replset : ReplsetSpec)
    (r : Except String (List Pod)) : Event :=
  Event.ListPods cr.Namespace (matchLabels cr sfs replset) r

/-- The events of a deferred `Disconnect`. -/
def isCleanup : Event → Bool
  | .Disconnect _ => true
  | .logError _ _ => true
  | _ => false

/-- The log line that opens the step-down (line 155). -/
def stepDownLog (replset : ReplsetSpec) : Event :=
  Event.log "doing step down..." [("force", toString (decide (replset.Size = 1)))]

/-- The log line before the restart of the primary (line 173). -/
def primaryLog (primaryPod : Pod) : Event :=
  Event.log "apply changes to primary pod" [("pod", primaryPod.Name)]

/-- The log line before the restart of a non-primary pod (line 134). -/
def secondaryLog (pod : Pod) : Event :=
  Event.log "apply changes to secondary pod" [("pod", pod.Name)]

/-- The log line at the end of `smartUpdate` (line 179). -/
def finishedLog (sfs : StatefulSet) : Event :=
  Event.log "smart update finished for statefulset" [("statefulset", sfs.Name)]

/-- The condition of line 153: a voting group with a local primary. -/
def hasLocalPrimary (sfs : StatefulSet) (primaryPod : Pod) : Prop :=
  sfs.Labels.get "app.kubernetes.io/component" ≠ "nonVoting" ∧ primaryPod.Name ≠ ""

/-- The history at which the primary is handed to `applyNWait` (line 174). -/
def beforePrimary (replset : ReplsetSpec) (primaryPod : Pod) : Trace :=
  [stepDownLog replset, Event.mongoClientWithRole (.ok ()),
    Event.StepDown (decide (replset.Size = 1)) (.ok ()), primaryLog primaryPod]

/-- The condition of a safety veto of `smartUpdate`, read off the StatefulSet
and the history `tr` of the pass: ready replicas are fewer than replicas, or the
backup subsystem reported a running backup, or active jobs were reported while
the restore-in-progress annotation is absent. -/
def VetoCondition (env : Env) (sfs : StatefulSet) (tr : Trace) : Prop :=
  sfs.Status.ReadyReplicas < sfs.Status.Replicas ∨
  Event.isBackupRunning (.ok true) ∈ tr ∨
  (Event.HasActiveJobs (.ok true) ∈ tr ∧ sfs.Annotations.has env.AnnotationRestoreInProgress = false)

/-- The condition of a safety veto of `smartMongosUpdate`. -/
def MongosVetoCondition (sts : StatefulSet) (tr : Trace) : Prop :=
  sts.Status.ReadyReplicas < sts.Status.Replicas ∨
  Event.isBackupRunning (.ok true) ∈ tr ∨
  Event.HasActiveJobs (.ok true) ∈ tr

/-- A safety veto applies in a pass of `smartUpdate` with history `tr`: the pass
has found the StatefulSet changed and entered the safety checks (line 83), and
the condition of a veto holds. -/
def VetoApplies (env : Env) (sfs : StatefulSet) (tr : Trace) : Prop :=
  startingLog sfs ∈ tr ∧ VetoCondition env sfs tr

/-- A safety veto applies in a pass of `smartMongosUpdate` with history `tr`. -/
def MongosVetoApplies (sts : StatefulSet) (tr : Trace) : Prop :=
  startingLog sts ∈ tr ∧ MongosVetoCondition sts tr

/-- A query of the backup subsystem. -/
def isBackupQuery : Event → Bool
  | .isBackupRunning _ => true
  | _ => false

/-- A query of the job subsystem. -/
def isJobsQuery : Event → Bool
  | .HasActiveJobs _ => true
  | _ => false

/-- A read of the config-server StatefulSet or of its pods. -/
def isConfigQuery : Event → Bool
  | .GetStatefulSet _ _ _ => true
  | .GetRSPods _ _ => true
  | _ => false

/-- The order of the checks of `smartUpdate`, as facts on the result and the
history of a pass. -/
def ChecksInOrder (env : Env) (cr : PerconaServerMongoDB) (sfs : StatefulSet)
    (r : Except String Unit × Trace) : Prop :=
  (∀ s l, Event.GetStatefulSet (configSfsName env cr) cr.Namespace (.ok s) ∈ r.2 →
      Event.GetRSPods env.ConfigReplSetName (.ok l) ∈ r.2 → isSfsChanged s l = true →
      r.1 = .ok () ∧ r.2.getLast? = some configVetoLog ∧ startingLog sfs ∉ r.2 ∧
      r.2.all (fun e => !isBackupQuery e && !isJobsQuery e) = true) ∧
  (sfs.Status.ReadyReplicas < sfs.Status.Replicas →
      r.2.all (fun e => !isBackupQuery e && !isJobsQuery e) = true ∧
      (startingLog sfs ∈ r.2 → r.1 = .ok () ∧ r.2.getLast? = some replicasVetoLog)) ∧
  (Event.isBackupRunning (.ok true) ∈ r.2 →
      r.1 = .ok () ∧ r.2.getLast? = some backupVetoLog ∧ r.2.all (fun e => !isJobsQuery e) = true) ∧
  (Event.HasActiveJobs (.ok true) ∈ r.2 →
      sfs.Annotations.has env.AnnotationRestoreInProgress = false →
      r.1 = .ok () ∧ r.2.getLast? = some jobsVetoLog) ∧
  (isShardGroup env cr sfs → startingLog sfs ∈ r.2 →
      ∃ s l, Event.GetStatefulSet (configSfsName env cr) cr.Namespace (.ok s) ∈ r.2 ∧
        Event.GetRSPods env.ConfigReplSetName (.ok l) ∈ r.2 ∧ isSfsChanged s l = false) ∧
  (∀ b, Event.isBackupRunning b ∈ r.2 →
      ¬ sfs.Status.ReadyReplicas < sfs.Status.Replicas ∧ startingLog sfs ∈ r.2) ∧
  (∀ j, Event.HasActiveJobs j ∈ r.2 → Event.isBackupRunning (.ok false) ∈ r.2)

/-- The answer carried by a mark of `isPodPrimary`. -/
def roleAnswerOf : Event → Option (Pod × Except String Bool)
  | .isPodPrimaryReturn p r => some (p, r)
  | _ => none

/-- The answers of `isPodPrimary` in a history, in order, each with its pod. -/
def roleAnswers (ev : Trace) : List (Pod × Except String Bool) :=
  ev.filterMap roleAnswerOf

/-- The pod carried by a mark of entry to `applyNWait`. -/
def applyCallOf : Event → Option Pod
  | .applyNWaitCall p _ _ => some p
  | _ => none

/-- The pods on which `applyNWait` is invoked in a history, in order. -/
def applyCalls (ev : Trace) : List Pod :=
  ev.filterMap applyCallOf

/-- The pod carried by a mark of a successful return of `applyNWait`. -/
def applyOkOf : Event → Option Pod
  | .applyNWaitReturn p (.ok _) => some p
  | _ => none

/-- The pods for which `applyNWait` returned nil in a history, in order. -/
def applyOks (ev : Trace) : List Pod :=
  ev.filterMap applyOkOf

/-- The pod of a deletion. -/
def deleteOf : Event → Option Pod
  | .Delete p _ => some p
  | _ => none

/-- The pods handed to `Delete` in a history, in order. -/
def deletes (ev : Trace) : List Pod :=
  ev.filterMap deleteOf

/-- An event on which the loop of `smartUpdate` returns an error: a failed role
query, a failed read of the arbiter StatefulSet, a failed `applyNWait`. -/
def isLoopFailure : Event → Bool
  | .isPodPrimaryReturn _ (.error _) => true
  | .getArbiterStatefulset _ (.error _) => true
  | .applyNWaitReturn _ (.error _) => true
  | _ => false

/-- No event of the history makes the loop of `smartUpdate` return an error. -/
def noFailure (ev : Trace) : Bool :=
  ev.all (fun e => !isLoopFailure e)

/-- The force flag of a step-down request. -/
def stepDownOf : Event → Option Bool
  | .StepDown force _ => some force
  | _ => none

/-- The step-down requests of a history, in order, each with its force flag. -/
def stepDowns (ev : Trace) : List Bool :=
  ev.filterMap stepDownOf

/-- What a pass does to the members, as far as the order of restarts goes: it
hands a pod to `applyNWait`, or requests a step-down. -/
inductive Effect where
  | restart (pod : Pod)
  | stepDown (force : Bool)
deriving DecidableEq

/-- The effect recorded by an event. -/
def effectOf : Event → Option Effect
  | .applyNWaitCall p _ _ => some (.restart p)
  | .StepDown force _ => some (.stepDown force)
  | _ => none

/-- The restarts and step-down requests of a history, in order. -/
def effects (ev : Trace) : List Effect :=
  ev.filterMap effectOf

/-- The pod `P` is handed to `applyNWait` or to `Delete`. -/
def isCallOrDelete (P : Pod) : Event → Bool
  | .applyNWaitCall p _ _ => p = P
  | .Delete p _ => p = P
  | _ => false

/-- A failure named by the primary-last rule, `P` being the primary: a failed
restart of another pod, a failed role query, a failed step-down. -/
def isPassFailure (P : Pod) : Event → Bool
  | .applyNWaitReturn p (.error _) => p ≠ P
  | .isPodPrimaryReturn _ (.error _) => true
  | .StepDown _ (.error _) => true
  | _ => false

/-- The events the checks of `smartUpdate` (lines 59-115) can emit. -/
def inChecks : Event → Bool
  | .GetStatefulSet _ _ _ => true
  | .GetRSPods _ _ => true
  | .log _ _ => true
  | .isBackupRunning _ => true
  | .HasActiveJobs _ => true
  | .disableBalancer _ => true
  | _ => false

/-- An event agrees with `P` being the primary: an answer "primary" is for `P`,
an answer "not primary" is for another pod. -/
def answerAgrees (P : Pod) : Event → Bool
  | .isPodPrimaryReturn q (.ok true) => q = P
  | .isPodPrimaryReturn q (.ok false) => q ≠ P
  | _ => true

/-- In the history `tr`, `P` is the pod that answers "primary": no other pod
answers "primary" and `P` never answers "not primary". -/
def OnlyPrimary (P : Pod) (tr : Trace) : Prop :=
  ∀ e ∈ tr, answerAgrees P e = true

instance OnlyPrimary.decidable (P : Pod) (tr : Trace) : Decidable (OnlyPrimary P tr) :=
  inferInstanceAs (Decidable (∀ e ∈ tr, answerAgrees P e = true))

/-- The pod of an answer "not primary". -/
def nonPrimaryOf (a : Pod × Except String Bool) : Option Pod :=
  match a.2 with
  | .ok false => some a.1
  | _ => none

/-- The pods that answered "not primary", in order. -/
def nonPrimaries (answers : List (Pod × Except String Bool)) : List Pod :=
  answers.filterMap nonPrimaryOf

/-- The assignment `primaryPod = pod` of the loop, on one answer. -/
def pickPrimary (primaryPod : Pod) (a : Pod × Except String Bool) : Pod :=
  match a.2 with
  | .ok true => a.1
  | _ => primaryPod

/-- The pod of the last answer "primary", `primaryPod` when there is none. -/
def lastPrimary (primaryPod : Pod) (answers : List (Pod × Except String Bool)) : Pod :=
  answers.foldl pickPrimary primaryPod

/-- What the history `r.2` of the loop of `smartUpdate` over `pods`, started
with `primaryPod`, shows, and how it determines the result `r.1`. -/
def LoopObs (pods : List Pod) (primaryPod : Pod) (r : Except String Pod × Trace) : Prop :=
  (roleAnswers r.2).map Prod.fst <+: pods ∧
  applyCalls r.2 <+: nonPrimaries (roleAnswers r.2) ∧
  applyOks r.2 <+: applyCalls r.2 ∧
  (∀ p ∈ deletes r.2, p ∈ applyCalls r.2) ∧
  noFailure r.2 = r.1.isOk ∧
  (∀ prim, r.1 = .ok prim →
    (roleAnswers r.2).map Prod.fst = pods ∧
    (∀ a ∈ roleAnswers r.2, ∃ b, a.2 = .ok b) ∧
    applyCalls r.2 = nonPrimaries (roleAnswers r.2) ∧
    applyOks r.2 = applyCalls r.2 ∧
    prim = lastPrimary primaryPod (roleAnswers r.2))

/-- The last pod of a list, `pod` when the list is empty. -/
def lastOr : Pod → List Pod → Pod
  | pod, [] => pod
  | _, p :: rest => lastOr p rest

/-- The container statuses with a designated name, in order. -/
def designatedStatuses (pod : Pod) : List ContainerStatus :=
  pod.Status.ContainerStatuses.filter (fun c => isDesignated c.Name)

/-- The container names the loop of `waitPodRestart` looks at (line 335). -/
def designatedNames : List String :=
  ["mongod", "mongod-arbiter", "mongod-nv", "mongos"]

/-- The designated container of a pod: its last container status named mongod,
mongod-arbiter, mongod-nv or mongos, if there is one. -/
def designatedContainer (pod : Pod) : Option ContainerStatus :=
  (pod.Status.ContainerStatuses.filter (fun c => decide (c.Name ∈ designatedNames))).getLast?

/-- The success test of a poll in words: the pod is in phase Running, its
`controller-revision-hash` label equals the target revision and its designated
container is ready.  Compared with `podStarted`, the test of the code. -/
def RunningCurrentReady (updateRevision : String) (pod : Pod) : Prop :=
  pod.Status.Phase = "Running" ∧
  pod.Labels.get "controller-revision-hash" = updateRevision ∧
  ∃ c, designatedContainer pod = some c ∧ c.Ready = true

/-! ## Example objects -/

/-- A StatefulSet at revision `rev-2` with component `mongod`. -/
def exampleSfs : StatefulSet :=
  { Name := "cluster1-rs0",
    Labels := [("app.kubernetes.io/component", "mongod")],
    Annotations := [],
    Status := { Replicas := 3, ReadyReplicas := 3, UpdatedReplicas := 3, UpdateRevision := "rev-2" } }

/-- A pod of component `component` at revision `rev` with the given phase and
readiness of its `mongod` container (a sidecar is listed after it). -/
def examplePod (name component rev phase : String) (ready : Bool) : Pod :=
  { Name := name,
    Namespace := "ns",
    Labels := [("app.kubernetes.io/component", component), ("controller-revision-hash", rev)],
    Status := { Phase := phase,
                ContainerStatuses := [{ Name := "mongod", Ready := ready }, { Name := "backup-agent", Ready := false }] } }


/-- Collaborators that always succeed: no pods are listed, no backup and no job
runs, every pod answers "not primary", and every pod read reports the pod asked
for as a pod of component `mongod` at revision `rev-2`, Running and ready. -/
def quietEnv : Env :=
  { SmartUpdateStatefulSetStrategyType := "SmartUpdate",
    ConfigReplSetName := "cfg",
    AnnotationRestoreInProgress := "percona.com/restore-in-progress",
    CompareVersion := fun _ _ => 1,
    ListPods := fun _ _ _ => .ok [],
    GetStatefulSet := fun _ _ _ => .error "not found",
    GetRSPods := fun _ _ => .ok [],
    getMongosPods := fun _ => .ok [],
    isBackupRunning := fun _ => .ok false,
    HasActiveJobs := fun _ => .ok false,
    disableBalancer := fun _ => .ok (),
    MongoHost := fun _ pod => .ok pod.Name,
    standaloneClientWithRole := fun _ _ => .ok (),
    IsMaster := fun _ _ => .ok false,
    Disconnect := fun _ => .ok (),
    getArbiterStatefulset := fun _ _ => .error "not found",
    mongoClientWithRole := fun _ => .ok (),
    StepDown := fun _ _ => .ok (),
    Delete := fun _ _ => .ok (),
    GetPod := fun _ name _ => .found (examplePod name "mongod" "rev-2" "Running" true),
    updateStatus := fun _ => .ok () }

/-- Collaborators under which a re-created pod is first seen at its second poll:
the first read reports not-found. -/
def slowStartEnv : Env :=
  { quietEnv with
    GetPod := fun tr _ _ =>
      if pollCount tr < 2 then .notFound "pods \"rs0-1\" not found"
      else .found (examplePod "rs0-1" "mongod" "rev-2" "Running" true) }

/-- Collaborators as `quietEnv`, except that every status update fails. -/
def statusFailEnv : Env :=
  { quietEnv with
    updateStatus := fun _ => .error "conflict" }

/-- A custom resource `cluster1` with the smart update strategy. -/
def exampleCr (sharded : Bool) : PerconaServerMongoDB :=
  { Name := "cluster1",
    Namespace := "ns",
    Spec := { UpdateStrategy := "SmartUpdate",
              Sharding := { Enabled := sharded,
                            Mongos := { Size := 2, LivenessProbe := { InitialDelaySeconds := 3 } } } } }

/-- The replica set `rs0` of three members with a wait limit of 3. -/
def exampleReplset : ReplsetSpec :=
  { Size := 3, Name := "rs0", LivenessProbe := { InitialDelaySeconds := 3 }, Expose := { Enabled := false } }

/-- The StatefulSet `exampleSfs` with only two of three replicas ready. -/
def notReadySfs : StatefulSet :=
  { exampleSfs with
    Status := { Replicas := 3, ReadyReplicas := 2, UpdatedReplicas := 3, UpdateRevision := "rev-2" } }

/-- Three members of `rs0`, all at the old revision `rev-1`. -/
def stalePods : List Pod :=
  [ examplePod "rs0-0" "mongod" "rev-1" "Running" true,
    examplePod "rs0-1" "mongod" "rev-1" "Running" true,
    examplePod "rs0-2" "mongod" "rev-1" "Running" true ]

/-- Three members of `rs0` of which only `rs0-2` is at the old revision. -/
def oneStalePods : List Pod :=
  [ examplePod "rs0-0" "mongod" "rev-2" "Running" true,
    examplePod "rs0-1" "mongod" "rev-2" "Running" true,
    examplePod "rs0-2" "mongod" "rev-1" "Running" true ]

/-- Collaborators that list `pods`, report the pod named `primary` as primary
and otherwise succeed as `quietEnv`. -/
def rsEnv (pods : List Pod) (primary : String) : Env :=
  { quietEnv with
    ListPods := fun _ _ _ => .ok pods,
    getMongosPods := fun _ => .ok pods,
    IsMaster := fun _ host => .ok (decide (host = primary)) }

/-- A config-server StatefulSet at revision `cfg-2`. -/
def exampleCfgSfs : StatefulSet :=
  { Name := "cluster1-cfg",
    Labels := [("app.kubernetes.io/component", "cfg")],
    Annotations := [],
    Status := { Replicas := 3, ReadyReplicas := 3, UpdatedReplicas := 3, UpdateRevision := "cfg-2" } }

/-- Collaborators of a sharded cluster whose config replica set is stale. -/
def cfgStaleEnv : Env :=
  { rsEnv stalePods "rs0-1" with
    GetStatefulSet := fun _ _ _ => .ok exampleCfgSfs,
    GetRSPods := fun _ _ => .ok [examplePod "cfg-0" "cfg" "cfg-1" "Running" true] }

/-- Collaborators of a sharded cluster whose config-server StatefulSet cannot be read. -/
def cfgUnreadableEnv : Env :=
  { rsEnv stalePods "rs0-1" with
    GetStatefulSet := fun _ _ _ => .error "timeout" }

/-- Collaborators under which a backup is running. -/
def backupEnv : Env :=
  { rsEnv stalePods "rs0-1" with
    isBackupRunning := fun _ => .ok true }

/-- The history of a pass of `smartUpdate` on `stalePods` when it reaches the
restarts: the pod list, the starting log line, the two safety queries. -/
def examplePrefix : Trace :=
  [ listEvent (exampleCr false) exampleSfs exampleReplset (.ok stalePods),
    startingLog exampleSfs,
    Event.isBackupRunning (.ok false),
    Event.HasActiveJobs (.ok false) ]

/-- Collaborators under which `rs0-1` is the primary and the cluster-admin
client connection fails. -/
def clientFailEnv : Env :=
  { rsEnv stalePods "rs0-1" with
    mongoClientWithRole := fun _ => .error "no reachable servers" }

/-- Collaborators under which `rs0-2` is the primary and the role query of
`rs0-0` fails. -/
def roleFailEnv : Env :=
  { rsEnv stalePods "rs0-2" with
    IsMaster := fun _ host =>
      if host = "rs0-0" then .error "connection refused" else .ok (decide (host = "rs0-2")) }

/-- Collaborators under which the pod named `primary` is the primary and every
pod deletion fails. -/
def deleteFailEnv (primary : String) : Env :=
  { rsEnv stalePods primary with
    Delete := fun _ _ => .error "forbidden" }

/-! # Properties -/

/-! ## Staleness: `isSfsChanged` -/

theorem isSfsChangedLoop_iff (sfs : StatefulSet) (podList : List Pod) :
    isSfsChangedLoop sfs podList = true ↔
      ∃ pod ∈ podList,
        pod.Labels.get "app.kubernetes.io/component" = sfs.Labels.get "app.kubernetes.io/component" ∧
        pod.Labels.get "controller-revision-hash" ≠ sfs.Status.UpdateRevision := by
  induction podList with
  | nil => simp [isSfsChangedLoop]
  | cons pod rest ih =>
    unfold isSfsChangedLoop
    by_cases hc : pod.Labels.get "app.kubernetes.io/component" = sfs.Labels.get "app.kubernetes.io/component"
    · by_cases hr : pod.Labels.get "controller-revision-hash" = sfs.Status.UpdateRevision
      · simp [hc, hr, ih]
      · simp [hc, hr]
    · simp [hc, ih]

theorem isSfsChangedLoop_filter (sfs : StatefulSet) (podList : List Pod) :
    isSfsChangedLoop sfs (podList.filter (sameComponent sfs)) = isSfsChangedLoop sfs podList := by
  induction podList with
  | nil => rfl
  | cons pod rest ih =>
    by_cases hc : pod.Labels.get "app.kubernetes.io/component" = sfs.Labels.get "app.kubernetes.io/component"
    · have hs : sameComponent sfs pod = true := by simp [sameComponent, hc]
      simp [List.filter_cons, hs, isSfsChangedLoop, hc, ih]
    · have hs : sameComponent sfs pod = false := by simp [sameComponent, hc]
      simp [List.filter_cons, hs, isSfsChangedLoop, hc, ih]

theorem isSfsChanged_filter (sfs : StatefulSet) (podList : List Pod) :
    isSfsChanged sfs (podList.filter (sameComponent sfs)) = isSfsChanged sfs podList := by
  unfold isSfsChanged
  split
  · rfl
  · exact isSfsChangedLoop_filter sfs podList

/-- C4: `isSfsChanged` is true exactly when `UpdateRevision` is not empty and
some listed pod has the component label of the StatefulSet (a missing label read
as the empty string) and a `controller-revision-hash` different from
`UpdateRevision`; with an empty `UpdateRevision` it is false for every pod list;
and two pod lists that agree on the pods of the StatefulSet's component give the
same answer, so pods of another component never matter. -/
theorem C4_isSfsChanged_iff (sfs : StatefulSet) (podList : List Pod) :
    (isSfsChanged sfs podList = true ↔
      sfs.Status.UpdateRevision ≠ "" ∧
      ∃ pod ∈ podList,
        pod.Labels.get "app.kubernetes.io/component" = sfs.Labels.get "app.kubernetes.io/component" ∧
        pod.Labels.get "controller-revision-hash" ≠ sfs.Status.UpdateRevision) ∧
    (sfs.Status.UpdateRevision = "" → isSfsChanged sfs podList = false) ∧
    (∀ podList2 : List Pod,
      podList2.filter (sameComponent sfs) = podList.filter (sameComponent sfs) →
      isSfsChanged sfs podList2 = isSfsChanged sfs podList) := by
  refine ⟨?_, ?_, ?_⟩
  · unfold isSfsChanged
    by_cases h : sfs.Status.UpdateRevision = ""
    · simp [h]
    · simp only [h, if_false, ne_eq, not_false_eq_true, true_and]
      exact isSfsChangedLoop_iff sfs podList
  · intro h
    simp [isSfsChanged, h]
  · intro podList2 h
    rw [← isSfsChanged_filter sfs podList2, h, isSfsChanged_filter]

theorem C4_isSfsChanged_witness :
    isSfsChanged exampleSfs
        [examplePod "rs0-0" "mongod" "rev-2" "Running" true, examplePod "rs0-1" "mongod" "rev-1" "Running" true]
      = true ∧
    isSfsChanged exampleSfs
        [examplePod "rs0-0" "mongod" "rev-2" "Running" true, examplePod "arb-0" "arbiter" "rev-1" "Running" true]
      = false := by
  have h := C4_isSfsChanged_iff exampleSfs
    [examplePod "rs0-0" "mongod" "rev-2" "Running" true, examplePod "rs0-1" "mongod" "rev-1" "Running" true]
  have h2 := (C4_isSfsChanged_iff exampleSfs [examplePod "rs0-0" "mongod" "rev-2" "Running" true]).2.2
    [examplePod "rs0-0" "mongod" "rev-2" "Running" true, examplePod "arb-0" "arbiter" "rev-1" "Running" true]
    (by decide)
  refine ⟨h.1.2 ⟨by decide, _, List.mem_cons_of_mem _ (List.mem_singleton.2 rfl), by decide, by decide⟩, ?_⟩
  rw [h2]
  decide

/-! ## Bounded waiting: `waitPodRestart` -/

theorem containerReady_foldl (statuses : List ContainerStatus) (b : Bool) :
    statuses.foldl (fun ready container => if isDesignated container.Name then container.Ready else ready) b
      = (statuses.filter (fun c => isDesignated c.Name)).foldl (fun _ container => container.Ready) b := by
  induction statuses generalizing b with
  | nil => rfl
  | cons c rest ih =>
    by_cases h : isDesignated c.Name = true
    · simp [List.foldl_cons, List.filter_cons, h, ih]
    · simp [List.foldl_cons, List.filter_cons, h, ih]

theorem podStarted_congr (updateRevision : String) (p q : Pod)
    (hphase : p.Status.Phase = q.Status.Phase)
    (hrev : p.Labels.get "controller-revision-hash" = q.Labels.get "controller-revision-hash")
    (hdes : designatedStatuses p = designatedStatuses q) :
    podStarted updateRevision p = podStarted updateRevision q := by
  unfold designatedStatuses at hdes
  simp only [podStarted, containerReady, containerReady_foldl, hphase, hrev, hdes]

theorem isDesignated_eq (name : String) : isDesignated name = decide (name ∈ designatedNames) := by
  simp [isDesignated, designatedNames, Bool.or_assoc]

theorem lastReady_iff (l : List ContainerStatus) :
    l.foldl (fun _ container => container.Ready) false = true ↔
      ∃ c, l.getLast? = some c ∧ c.Ready = true := by
  induction l using List.reverseRecOn with
  | nil => simp
  | append_singleton xs x _ => simp [List.foldl_append]

/-- The test of the code is the test in words. -/
theorem podStarted_iff (updateRevision : String) (p : Pod) :
    podStarted updateRevision p = true ↔
      p.Status.Phase = "Running" ∧
      p.Labels.get "controller-revision-hash" = updateRevision ∧
      ∃ c, designatedContainer p = some c ∧ c.Ready = true := by
  have hf : (fun c : ContainerStatus => isDesignated c.Name)
      = (fun c : ContainerStatus => decide (c.Name ∈ designatedNames)) :=
    funext (fun c => isDesignated_eq c.Name)
  simp only [podStarted, containerReady, containerReady_foldl, hf, Bool.and_eq_true, decide_eq_true_eq,
    lastReady_iff, designatedContainer, and_assoc]

/-- What one iteration of the wait loop emits and returns. -/
theorem waitPodRestartBody_spec (env : Env) (updateRevision : String) (pod : Pod) (tr : Trace) :
    pollCount (waitPodRestartBody env updateRevision pod tr).2.2 = 1 ∧
    pollPods pod (waitPodRestartBody env updateRevision pod tr).2.2
      = [(waitPodRestartBody env updateRevision pod tr).2.1] ∧
    ((waitPodRestartBody env updateRevision pod tr).2.2.all (fun e => !readOrStatusFailed e) = true →
      ((waitPodRestartBody env updateRevision pod tr).1 = some (.ok ()) ∧
        podStarted updateRevision (waitPodRestartBody env updateRevision pod tr).2.1 = true) ∨
      ((waitPodRestartBody env updateRevision pod tr).1 = none ∧
        podStarted updateRevision (waitPodRestartBody env updateRevision pod tr).2.1 = false)) := by
  unfold waitPodRestartBody
  cases hg : env.GetPod (tr ++ [Event.Sleep]) pod.Name pod.Namespace with
  | failed e => simp [pollCount, isPoll, pollPods, reread, readOrStatusFailed]
  | found p =>
    cases hu : env.updateStatus (tr ++ [Event.Sleep, Event.GetPod pod.Name pod.Namespace (GetResult.found p)]) with
    | error e => simp [hu, pollCount, isPoll, pollPods, reread, readOrStatusFailed]
    | ok u =>
      by_cases hs : podStarted updateRevision p = true
      · simp [hu, hs, pollCount, isPoll, pollPods, reread, readOrStatusFailed]
      · simp [hu, hs, pollCount, isPoll, pollPods, reread, readOrStatusFailed]
  | notFound e0 =>
    cases hu : env.updateStatus (tr ++ [Event.Sleep, Event.GetPod pod.Name pod.Namespace (GetResult.notFound e0)]) with
    | error e => simp [hu, pollCount, isPoll, pollPods, reread, readOrStatusFailed]
    | ok u =>
      by_cases hs : podStarted updateRevision pod = true
      · simp [hu, hs, pollCount, isPoll, pollPods, reread, readOrStatusFailed]
      · simp [hu, hs, pollCount, isPoll, pollPods, reread, readOrStatusFailed]

theorem pollPods_append (pod : Pod) (ev ev2 : Trace) :
    pollPods pod (ev ++ ev2) = pollPods pod ev ++ pollPods (lastOr pod (pollPods pod ev)) ev2 := by
  induction ev generalizing pod with
  | nil => simp [pollPods, lastOr]
  | cons e rest ih =>
    rw [List.cons_append]
    cases e
    case GetPod name ns g =>
      simp only [pollPods]
      rw [ih]
      rfl
    all_goals simp [pollPods, ih]

/-- The wait loop with `n` iterations left: the number of polls, and, when no
read and no status update fails, the two ways it can end. -/
theorem waitPodRestartLoop_spec (env : Env) (updateRevision : String) (n : Nat) (pod : Pod) (tr : Trace) :
    pollCount (waitPodRestartLoop env updateRevision n pod tr).2.2 ≤ n ∧
    ((waitPodRestartLoop env updateRevision n pod tr).2.2.all (fun e => !readOrStatusFailed e) = true →
      ((waitPodRestartLoop env updateRevision n pod tr).1 = .ok () ∧
        podStarted updateRevision (waitPodRestartLoop env updateRevision n pod tr).2.1 = true ∧
        ∃ l, pollPods pod (waitPodRestartLoop env updateRevision n pod tr).2.2
              = l ++ [(waitPodRestartLoop env updateRevision n pod tr).2.1] ∧
             ∀ p ∈ l, podStarted updateRevision p = false) ∨
      ((waitPodRestartLoop env updateRevision n pod tr).1 = .error "reach pod wait limit" ∧
        pollCount (waitPodRestartLoop env updateRevision n pod tr).2.2 = n ∧
        ∀ p ∈ pollPods pod (waitPodRestartLoop env updateRevision n pod tr).2.2,
          podStarted updateRevision p = false)) := by
  induction n generalizing pod tr with
  | zero => simp [waitPodRestartLoop, pollCount, pollPods]
  | succ n ih =>
    have hb := waitPodRestartBody_spec env updateRevision pod tr
    unfold waitPodRestartLoop
    rcases hbody : waitPodRestartBody env updateRevision pod tr with ⟨o, pod1, ev⟩
    rw [hbody] at hb
    obtain ⟨hc, hp, hres⟩ := hb
    simp only at hc hp hres
    cases o with
    | some r0 =>
      refine ⟨by simp only; omega, ?_⟩
      intro hnf
      simp only at hnf ⊢
      rcases hres hnf with ⟨h1, h2⟩ | ⟨h1, _⟩
      · left
        refine ⟨by simpa using h1, h2, [], by simpa using hp, by simp⟩
      · simp at h1
    | none =>
      have ih1 := ih pod1 (tr ++ ev)
      obtain ⟨ihc, ihres⟩ := ih1
      simp only [pollCount] at hc ihc ⊢
      refine ⟨by simp only [List.countP_append]; omega, ?_⟩
      intro hnf
      simp only [List.all_append, Bool.and_eq_true] at hnf
      have hns : podStarted updateRevision pod1 = false := by
        rcases hres hnf.1 with ⟨h1, _⟩ | ⟨_, h2⟩
        · simp at h1
        · exact h2
      have happ : pollPods pod (ev ++ (waitPodRestartLoop env updateRevision n pod1 (tr ++ ev)).2.2)
          = pod1 :: pollPods pod1 (waitPodRestartLoop env updateRevision n pod1 (tr ++ ev)).2.2 := by
        rw [pollPods_append, hp]; rfl
      rcases ihres hnf.2 with ⟨h1, h2, l, h3, h4⟩ | ⟨h1, h2, h3⟩
      · left
        refine ⟨h1, h2, pod1 :: l, ?_, ?_⟩
        · simp only [happ, h3, List.cons_append]
        · intro p hpm
          rcases List.mem_cons.1 hpm with rfl | hpm
          · exact hns
          · exact h4 p hpm
      · right
        simp only [pollCount] at h2
        refine ⟨h1, ?_, ?_⟩
        · simp only [List.countP_append]; omega
        · intro p hpm
          simp only [happ] at hpm
          rcases List.mem_cons.1 hpm with rfl | hpm
          · exact hns
          · exact h3 p hpm

/-- C5: `waitPodRestart` is total and performs at most `waitLimit` polls (none
when `waitLimit` is not positive).  When no pod read fails (not-found is
tolerated and leaves the pod object as it was) and no status update fails: it
returns nil exactly when at some poll the pod object is in phase Running, its
`controller-revision-hash` label equals the target revision and its designated
container (the last status named mongod, mongod-arbiter, mongod-nv or mongos)
is ready; it then stops at the first such poll; otherwise it returns
`reach pod wait limit` after exactly `waitLimit` polls.  The test of the code,
`podStarted`, is this condition, and it depends on the container statuses only
through those with a designated name. -/
theorem C5_waitPodRestart_bounded (env : Env) (updateRevision : String) (pod : Pod) (waitLimit : Int)
    (tr : Trace) :
    pollCount (waitPodRestart env updateRevision pod waitLimit tr).2.2 ≤ waitLimit.toNat ∧
    ((waitPodRestart env updateRevision pod waitLimit tr).2.2.all (fun e => !readOrStatusFailed e) = true →
      ((waitPodRestart env updateRevision pod waitLimit tr).1 = .ok () ↔
        ∃ p ∈ pollPods pod (waitPodRestart env updateRevision pod waitLimit tr).2.2,
          p.Status.Phase = "Running" ∧
          p.Labels.get "controller-revision-hash" = updateRevision ∧
          ∃ c, designatedContainer p = some c ∧ c.Ready = true) ∧
      ((waitPodRestart env updateRevision pod waitLimit tr).1 = .ok () →
        ∃ l, pollPods pod (waitPodRestart env updateRevision pod waitLimit tr).2.2
              = l ++ [(waitPodRestart env updateRevision pod waitLimit tr).2.1] ∧
             (∀ p ∈ l, ¬ RunningCurrentReady updateRevision p) ∧
             RunningCurrentReady updateRevision (waitPodRestart env updateRevision pod waitLimit tr).2.1) ∧
      ((waitPodRestart env updateRevision pod waitLimit tr).1 ≠ .ok () →
        (waitPodRestart env updateRevision pod waitLimit tr).1 = .error "reach pod wait limit" ∧
        pollCount (waitPodRestart env updateRevision pod waitLimit tr).2.2 = waitLimit.toNat ∧
        ∀ p ∈ pollPods pod (waitPodRestart env updateRevision pod waitLimit tr).2.2,
          ¬ RunningCurrentReady updateRevision p)) ∧
    (∀ p : Pod, podStarted updateRevision p = true ↔
      p.Status.Phase = "Running" ∧
      p.Labels.get "controller-revision-hash" = updateRevision ∧
      ∃ c, designatedContainer p = some c ∧ c.Ready = true) ∧
    (∀ p q : Pod, p.Status.Phase = q.Status.Phase →
      p.Labels.get "controller-revision-hash" = q.Labels.get "controller-revision-hash" →
      designatedStatuses p = designatedStatuses q →
      podStarted updateRevision p = podStarted updateRevision q) := by
  have h := waitPodRestartLoop_spec env updateRevision waitLimit.toNat pod tr
  have hiff := podStarted_iff updateRevision
  have hnot : ∀ p, podStarted updateRevision p = false → ¬ RunningCurrentReady updateRevision p := by
    intro p hp hr
    rw [(hiff p).2 hr] at hp
    cases hp
  unfold waitPodRestart
  refine ⟨h.1, ?_, hiff, fun p q h1 h2 h3 => podStarted_congr updateRevision p q h1 h2 h3⟩
  intro hnf
  rcases h.2 hnf with ⟨h1, h2, l, h3, h4⟩ | ⟨h1, h2, h3⟩
  · refine ⟨?_, ?_, ?_⟩
    · constructor
      · intro _
        exact ⟨_, by rw [h3]; simp, (hiff _).1 h2⟩
      · intro _
        exact h1
    · intro _
      exact ⟨l, h3, fun p hp => hnot p (h4 p hp), (hiff _).1 h2⟩
    · intro hne
      exact absurd h1 hne
  · refine ⟨?_, ?_, ?_⟩
    · constructor
      · intro hok
        rw [h1] at hok
        cases hok
      · rintro ⟨p, hp, hs⟩
        exact absurd hs (hnot p (h3 p hp))
    · intro hok
      rw [h1] at hok
      cases hok
    · intro _
      exact ⟨h1, h2, fun p hp => hnot p (h3 p hp)⟩

theorem C5_waitPodRestart_witness :
    (waitPodRestart slowStartEnv "rev-2" (examplePod "rs0-1" "mongod" "rev-1" "Running" true) 3 []).1 = .ok () ∧
    pollCount (waitPodRestart slowStartEnv "rev-2" (examplePod "rs0-1" "mongod" "rev-1" "Running" true) 3 []).2.2 = 2 ∧
    (waitPodRestart slowStartEnv "rev-2" (examplePod "rs0-1" "mongod" "rev-1" "Running" true) 0 []).1
      = .error "reach pod wait limit" ∧
    (∃ p ∈ pollPods (examplePod "rs0-1" "mongod" "rev-1" "Running" true)
        (waitPodRestart slowStartEnv "rev-2" (examplePod "rs0-1" "mongod" "rev-1" "Running" true) 3 []).2.2,
      p.Status.Phase = "Running" ∧
      p.Labels.get "controller-revision-hash" = "rev-2" ∧
      ∃ c, designatedContainer p = some c ∧ c.Ready = true) ∧
    podStarted "rev-2" (examplePod "rs0-1" "mongod" "rev-2" "Running" false) = false ∧
    ¬ (∃ c, designatedContainer (examplePod "rs0-1" "mongod" "rev-2" "Running" false) = some c ∧
      c.Ready = true) := by
  have h := C5_waitPodRestart_bounded slowStartEnv "rev-2" (examplePod "rs0-1" "mongod" "rev-1" "Running" true) 3 []
  have h0 := C5_waitPodRestart_bounded slowStartEnv "rev-2" (examplePod "rs0-1" "mongod" "rev-1" "Running" true) 0 []
  have hok : (waitPodRestart slowStartEnv "rev-2" (examplePod "rs0-1" "mongod" "rev-1" "Running" true) 3 []).1
      = .ok () := by decide
  have hnr : podStarted "rev-2" (examplePod "rs0-1" "mongod" "rev-2" "Running" false) = false := by decide
  refine ⟨hok, by decide, (h0.2.1 (by decide)).2.2 (by decide) |>.1, ((h.2.1 (by decide)).1).1 hok, hnr, ?_⟩
  intro hc
  have := (h.2.2.1 (examplePod "rs0-1" "mongod" "rev-2" "Running" false)).2 ⟨rfl, rfl, hc⟩
  rw [hnr] at this
  cases this

/-! ## Restart of one member: `applyNWait` -/

/-- A wait of at least one poll whose first read finds the pod started returns
nil after that poll. -/
theorem waitPodRestart_first_poll (env : Env) (updateRevision : String) (pod p : Pod) (waitLimit : Int)
    (tr : Trace) (hw : 1 ≤ waitLimit)
    (hg : env.GetPod (tr ++ [Event.Sleep]) pod.Name pod.Namespace = .found p)
    (hu : env.updateStatus (tr ++ [Event.Sleep, Event.GetPod pod.Name pod.Namespace (.found p)]) = .ok ())
    (hs : podStarted updateRevision p = true) :
    waitPodRestart env updateRevision pod waitLimit tr
      = (.ok (), p,
          [Event.Sleep, Event.GetPod pod.Name pod.Namespace (.found p), Event.updateStatus (.ok ()),
            Event.log "Pod started" [("pod", p.Name)]]) := by
  obtain ⟨n, hn⟩ : ∃ n, waitLimit.toNat = n + 1 := ⟨waitLimit.toNat - 1, by omega⟩
  unfold waitPodRestart
  rw [hn]
  simp [waitPodRestartLoop, waitPodRestartBody, hg, hu, hs, reread]

/-- An `applyNWait` on a pod already at the target revision, with at least one
poll, whose first read finds the pod started: no deletion, nil. -/
theorem applyNWait_current (env : Env) (updateRevision : String) (pod : Pod) (waitLimit : Int) (tr : Trace)
    (hw : 1 ≤ waitLimit) (hrev : pod.Labels.get "controller-revision-hash" = updateRevision)
    (hget : ∀ t name ns, ∃ p, env.GetPod t name ns = .found p ∧ podStarted updateRevision p = true)
    (hupd : ∀ t, env.updateStatus t = .ok ()) :
    (applyNWait env updateRevision pod waitLimit tr).1 = .ok () ∧
    (applyNWait env updateRevision pod waitLimit tr).2.2.all (fun e => !isDelete e) = true ∧
    podStarted updateRevision (applyNWait env updateRevision pod waitLimit tr).2.1 = true := by
  obtain ⟨p, hp, hs⟩ := hget
    (tr ++ [Event.applyNWaitCall pod updateRevision waitLimit] ++
      [Event.log "Pod already updated" [("pod", pod.Name)]] ++ [Event.Sleep]) pod.Name pod.Namespace
  have hw1 := waitPodRestart_first_poll env updateRevision pod p waitLimit
    (tr ++ [Event.applyNWaitCall pod updateRevision waitLimit] ++
      [Event.log "Pod already updated" [("pod", pod.Name)]]) hw hp (hupd _) hs
  simp only [applyNWait, applyNWaitBody, hrev, if_true, hw1]
  simp [isDelete, hs, wrapResult]

theorem podStarted_revision (updateRevision : String) (p : Pod) (h : podStarted updateRevision p = true) :
    p.Labels.get "controller-revision-hash" = updateRevision := by
  simp only [podStarted, Bool.and_eq_true, decide_eq_true_eq] at h
  exact h.1.2

/-- C6 (amended): for every pod whose `controller-revision-hash` equals the
target revision, every wait limit of at least 1 and every history, when the
platform reports the pod as started (Running, at the target revision, designated
container ready) at every read and the status update does not fail, `applyNWait`
issues no Delete and returns nil, and a second invocation on the same pod object
again issues no Delete and returns nil. -/
theorem C6_applyNWait_idempotent (env : Env) (updateRevision : String) (pod : Pod) (waitLimit : Int)
    (tr : Trace) (hw : 1 ≤ waitLimit)
    (hrev : pod.Labels.get "controller-revision-hash" = updateRevision)
    (hget : ∀ t name ns, ∃ p, env.GetPod t name ns = .found p ∧ podStarted updateRevision p = true)
    (hupd : ∀ t, env.updateStatus t = .ok ()) :
    (applyNWait env updateRevision pod waitLimit tr).1 = .ok () ∧
    (applyNWait env updateRevision pod waitLimit tr).2.2.all (fun e => !isDelete e) = true ∧
    (applyNWait env updateRevision (applyNWait env updateRevision pod waitLimit tr).2.1 waitLimit
        (tr ++ (applyNWait env updateRevision pod waitLimit tr).2.2)).1 = .ok () ∧
    (applyNWait env updateRevision (applyNWait env updateRevision pod waitLimit tr).2.1 waitLimit
        (tr ++ (applyNWait env updateRevision pod waitLimit tr).2.2)).2.2.all (fun e => !isDelete e) = true := by
  have h1 := applyNWait_current env updateRevision pod waitLimit tr hw hrev hget hupd
  have h2 := applyNWait_current env updateRevision (applyNWait env updateRevision pod waitLimit tr).2.1
    waitLimit (tr ++ (applyNWait env updateRevision pod waitLimit tr).2.2) hw
    (podStarted_revision _ _ h1.2.2) hget hupd
  exact ⟨h1.1, h1.2.1, h2.1, h2.2.1⟩

theorem C6_applyNWait_witness :
    (1 : Int) ≤ 3 ∧
    (applyNWait quietEnv "rev-2" (examplePod "rs0-1" "mongod" "rev-2" "Running" true) 3 []).1 = .ok () ∧
    (applyNWait quietEnv "rev-2" (examplePod "rs0-1" "mongod" "rev-2" "Running" true) 3 []).2.2.all
      (fun e => !isDelete e) = true :=
  have h := C6_applyNWait_idempotent quietEnv "rev-2" (examplePod "rs0-1" "mongod" "rev-2" "Running" true) 3 []
    (by decide) (by decide) (fun _ _ _ => ⟨_, rfl, rfl⟩) (fun _ => rfl)
  ⟨by decide, h.1, h.2.1⟩

/-- C6 as stated fails for a wait limit of 0: the pod is at the target revision
and the platform reports it Running and ready at every read, no Delete is
issued, yet `applyNWait` returns an error and not nil.  It also fails, with a
wait limit of 3, when the status update of the first poll fails. -/
theorem C6_counterexample_waitLimit_zero :
    (examplePod "rs0-1" "mongod" "rev-2" "Running" true).Labels.get "controller-revision-hash" = "rev-2" ∧
    (∀ t ns, quietEnv.GetPod t "rs0-1" ns = .found (examplePod "rs0-1" "mongod" "rev-2" "Running" true)) ∧
    podStarted "rev-2" (examplePod "rs0-1" "mongod" "rev-2" "Running" true) = true ∧
    (∀ t, quietEnv.updateStatus t = .ok ()) ∧
    (applyNWait quietEnv "rev-2" (examplePod "rs0-1" "mongod" "rev-2" "Running" true) 0 []).1
      = .error "wait pod restart: reach pod wait limit" ∧
    (applyNWait quietEnv "rev-2" (examplePod "rs0-1" "mongod" "rev-2" "Running" true) 0 []).2.2.all
      (fun e => !isDelete e) = true ∧
    (∀ t ns, statusFailEnv.GetPod t "rs0-1" ns
      = .found (examplePod "rs0-1" "mongod" "rev-2" "Running" true)) ∧
    (applyNWait statusFailEnv "rev-2" (examplePod "rs0-1" "mongod" "rev-2" "Running" true) 3 []).1
      = .error "wait pod restart: update status: conflict" :=
  ⟨by decide, fun _ _ => rfl, by decide, fun _ => rfl, by decide, by decide, fun _ _ => rfl, by decide⟩

/-! ## Footprints -/

theorem waitPodRestartBody_inWait (env : Env) (updateRevision : String) (pod : Pod) (tr : Trace) :
    ∀ e ∈ (waitPodRestartBody env updateRevision pod tr).2.2, inWait e = true := by
  unfold waitPodRestartBody
  cases hg : env.GetPod (tr ++ [Event.Sleep]) pod.Name pod.Namespace with
  | failed e => simp [inWait]
  | found p =>
    cases hu : env.updateStatus (tr ++ [Event.Sleep, Event.GetPod pod.Name pod.Namespace (GetResult.found p)]) with
    | error e => simp [hu, inWait]
    | ok u =>
      by_cases hs : podStarted updateRevision (reread (GetResult.found p) pod) = true <;> simp [hu, hs, inWait]
  | notFound e0 =>
    cases hu : env.updateStatus (tr ++ [Event.Sleep, Event.GetPod pod.Name pod.Namespace (GetResult.notFound e0)]) with
    | error e => simp [hu, inWait]
    | ok u =>
      by_cases hs : podStarted updateRevision (reread (GetResult.notFound e0) pod) = true <;> simp [hu, hs, inWait]

theorem waitPodRestartLoop_inWait (env : Env) (updateRevision : String) (n : Nat) (pod : Pod) (tr : Trace) :
    ∀ e ∈ (waitPodRestartLoop env updateRevision n pod tr).2.2, inWait e = true := by
  induction n generalizing pod tr with
  | zero => simp [waitPodRestartLoop]
  | succ n ih =>
    have hb := waitPodRestartBody_inWait env updateRevision pod tr
    unfold waitPodRestartLoop
    rcases hbody : waitPodRestartBody env updateRevision pod tr with ⟨o, pod1, ev⟩
    rw [hbody] at hb
    cases o with
    | some r0 => exact hb
    | none =>
      intro e he
      simp only [List.mem_append] at he
      rcases he with he | he
      · exact hb e he
      · exact ih pod1 (tr ++ ev) e he

theorem waitPodRestart_inWait (env : Env) (updateRevision : String) (pod : Pod) (waitLimit : Int) (tr : Trace) :
    ∀ e ∈ (waitPodRestart env updateRevision pod waitLimit tr).2.2, inWait e = true :=
  waitPodRestartLoop_inWait env updateRevision waitLimit.toNat pod tr

theorem inApplyBody_of_inWait (pod : Pod) (e : Event) (h : inWait e = true) : inApplyBody pod e = true := by
  cases e <;> simp_all [inWait, inApplyBody]

theorem inApply_of_inApplyBody (pod : Pod) (e : Event) (h : inApplyBody pod e = true) :
    inApply pod e = true := by
  cases e <;> simp_all [inWait, inApplyBody, inApply]

theorem applyNWaitBody_inApplyBody (env : Env) (updateRevision : String) (pod : Pod) (waitLimit : Int)
    (tr : Trace) :
    ∀ e ∈ (applyNWaitBody env updateRevision pod waitLimit tr).2.2, inApplyBody pod e = true := by
  intro e he
  unfold applyNWaitBody at he
  split at he
  · simp only [List.mem_append, List.mem_singleton] at he
    rcases he with rfl | he
    · rfl
    · exact inApplyBody_of_inWait pod e (waitPodRestart_inWait _ _ _ _ _ e he)
  · cases hd : env.Delete tr pod with
    | error e1 =>
      simp only [hd, List.mem_singleton] at he
      subst he
      simp [inApplyBody]
    | ok u =>
      simp only [hd, List.mem_append, List.mem_singleton] at he
      rcases he with rfl | he
      · simp [inApplyBody]
      · exact inApplyBody_of_inWait pod e (waitPodRestart_inWait _ _ _ _ _ e he)

theorem applyNWait_inApply (env : Env) (updateRevision : String) (pod : Pod) (waitLimit : Int) (tr : Trace) :
    ∀ e ∈ (applyNWait env updateRevision pod waitLimit tr).2.2, inApply pod e = true := by
  intro e he
  simp only [applyNWait, List.mem_append, List.mem_singleton] at he
  rcases he with (rfl | he) | rfl
  · simp [inApply]
  · exact inApply_of_inApplyBody pod e (applyNWaitBody_inApplyBody _ _ _ _ _ e he)
  · simp [inApply]

/-- The last event of `applyNWait` is the mark of its return value. -/
theorem applyNWait_return_mem (env : Env) (updateRevision : String) (pod : Pod) (waitLimit : Int) (tr : Trace) :
    Event.applyNWaitReturn pod (applyNWait env updateRevision pod waitLimit tr).1
      ∈ (applyNWait env updateRevision pod waitLimit tr).2.2 := by
  simp [applyNWait]

theorem isPodPrimaryBody_inRoleBody (env : Env) (pod : Pod) (tr : Trace) :
    ∀ e ∈ (isPodPrimaryBody env pod tr).2, inRoleBody e = true := by
  intro e he
  unfold isPodPrimaryBody at he
  cases hh : env.MongoHost tr pod with
  | error e1 =>
    simp only [hh, List.mem_singleton] at he
    subst he
    simp [inRoleBody]
  | ok host =>
    simp only [hh] at he
    cases hc : env.standaloneClientWithRole (tr ++ [Event.MongoHost pod (Except.ok host)]) host with
    | error e1 =>
      simp only [hc, List.mem_append, List.mem_singleton] at he
      rcases he with rfl | rfl <;> simp [inRoleBody]
    | ok u =>
      simp only [hc] at he
      have hd : ∀ t, ∀ x ∈ deferredDisconnect env t, inRoleBody x = true := by
        intro t x hx
        unfold deferredDisconnect at hx
        split at hx <;> simp at hx <;> rcases hx with rfl | rfl <;> simp [inRoleBody]
      split at he <;>
      · simp only [List.mem_append, List.mem_singleton] at he
        rcases he with ((rfl | rfl) | rfl) | he
        · simp [inRoleBody]
        · simp [inRoleBody]
        · simp [inRoleBody]
        · exact hd _ e he

theorem inRole_of_inRoleBody (pod : Pod) (e : Event) (h : inRoleBody e = true) : inRole pod e = true := by
  cases e <;> simp_all [inRoleBody, inRole]

theorem isPodPrimary_inRole (env : Env) (pod : Pod) (tr : Trace) :
    ∀ e ∈ (isPodPrimary env pod tr).2, inRole pod e = true := by
  intro e he
  simp only [isPodPrimary, List.mem_append, List.mem_singleton] at he
  rcases he with he | rfl
  · exact inRole_of_inRoleBody pod e (isPodPrimaryBody_inRoleBody env pod tr e he)
  · simp [inRole]

/-- The last event of `isPodPrimary` is the mark of its answer. -/
theorem isPodPrimary_return_mem (env : Env) (pod : Pod) (tr : Trace) :
    Event.isPodPrimaryReturn pod (isPodPrimary env pod tr).1 ∈ (isPodPrimary env pod tr).2 := by
  simp [isPodPrimary]

/-! ## The gates of `smartUpdate` -/

/-- The five ways `configCheck` can end. -/
theorem configCheck_cases (env : Env) (cr : PerconaServerMongoDB) (sfs : StatefulSet) (tr : Trace) :
    (¬ isShardGroup env cr sfs ∧ configCheck env cr sfs tr = (.ok false, [])) ∨
    (isShardGroup env cr sfs ∧ ∃ e msg,
      configCheck env cr sfs tr
        = (.error msg, [Event.GetStatefulSet (configSfsName env cr) cr.Namespace (.error e)])) ∨
    (isShardGroup env cr sfs ∧ ∃ s e msg,
      configCheck env cr sfs tr
        = (.error msg, [Event.GetStatefulSet (configSfsName env cr) cr.Namespace (.ok s),
            Event.GetRSPods env.ConfigReplSetName (.error e)])) ∨
    (isShardGroup env cr sfs ∧ ∃ s l, isSfsChanged s l = true ∧
      configCheck env cr sfs tr
        = (.ok true, [Event.GetStatefulSet (configSfsName env cr) cr.Namespace (.ok s),
            Event.GetRSPods env.ConfigReplSetName (.ok l), configVetoLog])) ∨
    (isShardGroup env cr sfs ∧ ∃ s l, isSfsChanged s l = false ∧
      configCheck env cr sfs tr
        = (.ok false, [Event.GetStatefulSet (configSfsName env cr) cr.Namespace (.ok s),
            Event.GetRSPods env.ConfigReplSetName (.ok l)])) := by
  unfold configCheck isShardGroup
  by_cases hs : cr.Spec.Sharding.Enabled = true ∧ sfs.Name ≠ configSfsName env cr
  · simp only [hs, and_self, if_true, not_true_eq_false, false_and, false_or, true_and, ne_eq,
      not_false_eq_true]
    cases hg : env.GetStatefulSet tr (configSfsName env cr) cr.Namespace with
    | error e => exact Or.inl ⟨e, _, rfl⟩
    | ok cfgSfs =>
      right
      cases hl : env.GetRSPods
          (tr ++ [Event.GetStatefulSet (configSfsName env cr) cr.Namespace (Except.ok cfgSfs)])
          env.ConfigReplSetName with
      | error e => exact Or.inl ⟨cfgSfs, e, wrap e "get cfg pod list", by simp [hl]⟩
      | ok cfgList =>
        right
        by_cases hc : isSfsChanged cfgSfs cfgList = true
        · exact Or.inl ⟨cfgSfs, cfgList, hc, by simp [hl, hc, configVetoLog]⟩
        · exact Or.inr ⟨cfgSfs, cfgList, by simpa using hc, by simp [hl, hc]⟩
  · left
    exact ⟨hs, by simp only [hs, if_false]⟩

/-- The six ways `safetyGates` can end. -/
theorem safetyGates_cases (env : Env) (sfs : StatefulSet) (tr : Trace) :
    (sfs.Status.ReadyReplicas < sfs.Status.Replicas ∧
      safetyGates env sfs tr = (.ok false, [startingLog sfs, replicasVetoLog])) ∨
    (¬ sfs.Status.ReadyReplicas < sfs.Status.Replicas ∧ ∃ e msg,
      safetyGates env sfs tr = (.error msg, [startingLog sfs, Event.isBackupRunning (.error e)])) ∨
    (¬ sfs.Status.ReadyReplicas < sfs.Status.Replicas ∧
      safetyGates env sfs tr
        = (.ok false, [startingLog sfs, Event.isBackupRunning (.ok true), backupVetoLog])) ∨
    (¬ sfs.Status.ReadyReplicas < sfs.Status.Replicas ∧ ∃ e msg,
      safetyGates env sfs tr
        = (.error msg, [startingLog sfs, Event.isBackupRunning (.ok false), Event.HasActiveJobs (.error e)])) ∨
    (¬ sfs.Status.ReadyReplicas < sfs.Status.Replicas ∧
      sfs.Annotations.has env.AnnotationRestoreInProgress = false ∧
      safetyGates env sfs tr
        = (.ok false, [startingLog sfs, Event.isBackupRunning (.ok false), Event.HasActiveJobs (.ok true),
            jobsVetoLog])) ∨
    (¬ sfs.Status.ReadyReplicas < sfs.Status.Replicas ∧ ∃ j,
      (sfs.Annotations.has env.AnnotationRestoreInProgress = true ∨ j = false) ∧
      safetyGates env sfs tr
        = (.ok true, [startingLog sfs, Event.isBackupRunning (.ok false), Event.HasActiveJobs (.ok j)])) := by
  unfold safetyGates
  by_cases hr : sfs.Status.ReadyReplicas < sfs.Status.Replicas
  · left
    exact ⟨hr, by simp [hr, startingLog, replicasVetoLog]⟩
  · right
    simp only [hr, if_false, not_false_eq_true, true_and]
    cases hb : env.isBackupRunning
        (tr ++ [Event.log "StatefulSet is changed, starting smart update" [("name", sfs.Name)]]) with
    | error e => exact Or.inl ⟨e, wrap e "failed to check active backups", by simp [startingLog]⟩
    | ok b =>
      right
      cases b with
      | true => exact Or.inl (by simp [startingLog, backupVetoLog])
      | false =>
        right
        cases hj : env.HasActiveJobs
            (tr ++ ([Event.log "StatefulSet is changed, starting smart update" [("name", sfs.Name)]] ++
              [Event.isBackupRunning (Except.ok false)])) with
        | error e => exact Or.inl ⟨e, wrap e "failed to check active jobs", by simp [hj, startingLog]⟩
        | ok j =>
          right
          cases ha : sfs.Annotations.has env.AnnotationRestoreInProgress with
          | true => exact Or.inr ⟨j, Or.inl rfl, by simp [hj, ha, startingLog]⟩
          | false =>
            cases j with
            | true => exact Or.inl ⟨rfl, by simp [hj, ha, startingLog, jobsVetoLog]⟩
            | false => exact Or.inr ⟨false, Or.inr rfl, by simp [hj, ha, startingLog]⟩

/-- The six ways `mongosSafetyGates` can end. -/
theorem mongosSafetyGates_cases (env : Env) (sts : StatefulSet) (tr : Trace) :
    (sts.Status.ReadyReplicas < sts.Status.Replicas ∧
      mongosSafetyGates env sts tr = (.ok false, [startingLog sts, replicasVetoLog])) ∨
    (¬ sts.Status.ReadyReplicas < sts.Status.Replicas ∧ ∃ e msg,
      mongosSafetyGates env sts tr = (.error msg, [startingLog sts, Event.isBackupRunning (.error e)])) ∨
    (¬ sts.Status.ReadyReplicas < sts.Status.Replicas ∧
      mongosSafetyGates env sts tr
        = (.ok false, [startingLog sts, Event.isBackupRunning (.ok true), backupVetoLog])) ∨
    (¬ sts.Status.ReadyReplicas < sts.Status.Replicas ∧ ∃ e msg,
      mongosSafetyGates env sts tr
        = (.error msg, [startingLog sts, Event.isBackupRunning (.ok false), Event.HasActiveJobs (.error e)])) ∨
    (¬ sts.Status.ReadyReplicas < sts.Status.Replicas ∧
      mongosSafetyGates env sts tr
        = (.ok false, [startingLog sts, Event.isBackupRunning (.ok false), Event.HasActiveJobs (.ok true),
            jobsVetoLog])) ∨
    (¬ sts.Status.ReadyReplicas < sts.Status.Replicas ∧
      mongosSafetyGates env sts tr
        = (.ok true, [startingLog sts, Event.isBackupRunning (.ok false), Event.HasActiveJobs (.ok false)])) := by
  unfold mongosSafetyGates
  by_cases hr : sts.Status.ReadyReplicas < sts.Status.Replicas
  · left
    exact ⟨hr, by simp [hr, startingLog, replicasVetoLog]⟩
  · right
    simp only [hr, if_false, not_false_eq_true, true_and]
    cases hb : env.isBackupRunning
        (tr ++ [Event.log "StatefulSet is changed, starting smart update" [("name", sts.Name)]]) with
    | error e => exact Or.inl ⟨e, wrap e "failed to check active backups", by simp [startingLog]⟩
    | ok b =>
      right
      cases b with
      | true => exact Or.inl (by simp [startingLog, backupVetoLog])
      | false =>
        right
        cases hj : env.HasActiveJobs
            (tr ++ ([Event.log "StatefulSet is changed, starting smart update" [("name", sts.Name)]] ++
              [Event.isBackupRunning (Except.ok false)])) with
        | error e => exact Or.inl ⟨e, wrap e "failed to check active jobs", by simp [hj, startingLog]⟩
        | ok j =>
          right
          cases j with
          | true => exact Or.inl (by simp [hj, startingLog, jobsVetoLog])
          | false => exact Or.inr (by simp [hj, startingLog])

/-- The three ways `balancerStep` can end. -/
theorem balancerStep_cases (env : Env) (cr : PerconaServerMongoDB) (sfs : StatefulSet) (tr : Trace) :
    (sfs.Name ≠ configSfsName env cr ∧ balancerStep env cr sfs tr = (.ok (), [])) ∨
    (sfs.Name = configSfsName env cr ∧ ∃ e msg,
      balancerStep env cr sfs tr = (.error msg, [Event.disableBalancer (.error e)])) ∨
    (sfs.Name = configSfsName env cr ∧
      balancerStep env cr sfs tr = (.ok (), [Event.disableBalancer (.ok ())])) := by
  unfold balancerStep
  by_cases hn : sfs.Name = configSfsName env cr
  · right
    simp only [hn, if_true, true_and]
    cases hd : env.disableBalancer tr with
    | error e => exact Or.inl ⟨e, _, rfl⟩
    | ok u => exact Or.inr rfl
  · left
    exact ⟨hn, by simp only [hn, if_false]⟩

/-- Case analysis of lines 83-181: the pass ends in the checks, or goes on. -/
theorem smartUpdateGated_cases (env : Env) (cr : PerconaServerMongoDB) (sfs : StatefulSet)
    (replset : ReplsetSpec) (items : List Pod) (tr : Trace) (P : Except String Unit × Trace → Prop)
    (hEnd : ∀ res ev, GatedEnded env cr sfs res ev → P (res, ev))
    (hGo : ∀ ev, GatedPassed env cr sfs ev →
      P (after ev (smartUpdateRestart env sfs replset items (tr ++ ev)))) :
    P (smartUpdateGated env cr sfs replset items tr) := by
  unfold smartUpdateGated
  rcases safetyGates_cases env sfs tr with
    ⟨hr, hg⟩ | ⟨hr, e, msg, hg⟩ | ⟨hr, hg⟩ | ⟨hr, e, msg, hg⟩ | ⟨hr, ha, hg⟩ | ⟨hr, j, hj, hg⟩
  · simp only [hg]
    exact hEnd _ _ (Or.inl ⟨hr, rfl, rfl⟩)
  · simp only [hg]
    exact hEnd _ _ (Or.inr (Or.inl ⟨hr, e, msg, rfl, rfl⟩))
  · simp only [hg]
    exact hEnd _ _ (Or.inr (Or.inr (Or.inl ⟨hr, rfl, rfl⟩)))
  · simp only [hg]
    exact hEnd _ _ (Or.inr (Or.inr (Or.inr (Or.inl ⟨hr, e, msg, rfl, rfl⟩))))
  · simp only [hg]
    exact hEnd _ _ (Or.inr (Or.inr (Or.inr (Or.inr (Or.inl ⟨hr, ha, rfl, rfl⟩)))))
  · simp only [hg]
    have hgp : GatesPassed env sfs
        [startingLog sfs, Event.isBackupRunning (.ok false), Event.HasActiveJobs (.ok j)] :=
      ⟨hr, j, hj, rfl⟩
    rcases balancerStep_cases env cr sfs
        (tr ++ [startingLog sfs, Event.isBackupRunning (.ok false), Event.HasActiveJobs (.ok j)]) with
      ⟨hn, hb⟩ | ⟨hn, e, msg, hb⟩ | ⟨hn, hb⟩
    · simp only [hb]
      exact hGo _ ⟨_, _, hgp, Or.inl ⟨hn, rfl⟩, rfl⟩
    · simp only [hb]
      exact hEnd _ _ (Or.inr (Or.inr (Or.inr (Or.inr (Or.inr ⟨hn, _, e, msg, hgp, rfl, rfl⟩)))))
    · simp only [hb]
      exact hGo _ ⟨_, _, hgp, Or.inr ⟨hn, rfl⟩, rfl⟩

/-- Case analysis of lines 59-181: the pass ends in the checks, or goes on. -/
theorem smartUpdateListed_cases (env : Env) (cr : PerconaServerMongoDB) (sfs : StatefulSet)
    (replset : ReplsetSpec) (items : List Pod) (tr : Trace) (P : Except String Unit × Trace → Prop)
    (hEnd : ∀ res ev, ListedEnded env cr sfs items res ev → P (res, ev))
    (hGo : ∀ ev, isSfsChanged sfs items = true → ListedPassed env cr sfs ev →
      P (after ev (smartUpdateRestart env sfs replset items (tr ++ ev)))) :
    P (smartUpdateListed env cr sfs replset items tr) := by
  unfold smartUpdateListed
  by_cases hst : isSfsChanged sfs items = false
  · simp only [hst, if_true]
    exact hEnd _ _ (Or.inl ⟨Or.inl hst, rfl, rfl⟩)
  by_cases hv : env.CompareVersion cr "1.4.0" < 0
  · simp only [hst, hv, if_true, if_false]
    exact hEnd _ _ (Or.inl ⟨Or.inr hv, rfl, rfl⟩)
  simp only [hst, hv, if_false]
  have hstale : isSfsChanged sfs items = true := by simpa using hst
  have key : ∀ cfgEv, CfgPassed env cr sfs cfgEv →
      P (after cfgEv (smartUpdateGated env cr sfs replset items (tr ++ cfgEv))) := by
    intro cfgEv hcfg
    apply smartUpdateGated_cases env cr sfs replset items (tr ++ cfgEv) (fun r => P (after cfgEv r))
    · intro res ev hev
      exact hEnd _ _ (Or.inr (Or.inr (Or.inr (Or.inr ⟨cfgEv, ev, hcfg, hev, rfl⟩))))
    · intro ev hev
      have := hGo (cfgEv ++ ev) hstale ⟨cfgEv, ev, hcfg, hev, rfl⟩
      simpa [after, List.append_assoc] using this
  rcases configCheck_cases env cr sfs tr with
    ⟨hsg, hc⟩ | ⟨hsg, e, msg, hc⟩ | ⟨hsg, s, e, msg, hc⟩ | ⟨hsg, s, l, hch, hc⟩ | ⟨hsg, s, l, hch, hc⟩
  · simp only [hc]
    exact key [] (Or.inl ⟨hsg, rfl⟩)
  · simp only [hc]
    exact hEnd _ _ (Or.inr (Or.inl ⟨hsg, e, msg, rfl, rfl⟩))
  · simp only [hc]
    exact hEnd _ _ (Or.inr (Or.inr (Or.inl ⟨hsg, s, e, msg, rfl, rfl⟩)))
  · simp only [hc]
    exact hEnd _ _ (Or.inr (Or.inr (Or.inr (Or.inl ⟨hsg, s, l, hch, rfl, rfl⟩))))
  · simp only [hc]
    exact key _ (Or.inr ⟨hsg, s, l, hch, rfl⟩)

/-- Case analysis of `smartUpdate`: not applicable, the list fails, the pass
ends in the checks, or it goes on to the restarts. -/
theorem smartUpdate_cases (env : Env) (cr : PerconaServerMongoDB) (sfs : StatefulSet)
    (replset : ReplsetSpec) (P : Except String Unit × Trace → Prop)
    (hNA : P (.ok (), []))
    (hList : ∀ e, P (.error ("get pod list: " ++ e), [listEvent cr sfs replset (.error e)]))
    (hEnd : ∀ items res ev, ListedEnded env cr sfs items res ev →
      P (res, listEvent cr sfs replset (.ok items) :: ev))
    (hGo : ∀ items ev, isSfsChanged sfs items = true → ListedPassed env cr sfs ev →
      P (after (listEvent cr sfs replset (.ok items) :: ev)
          (smartUpdateRestart env sfs replset items (listEvent cr sfs replset (.ok items) :: ev)))) :
    P (smartUpdate env cr sfs replset) := by
  unfold smartUpdate
  by_cases h0 : replset.Size = 0
  · rw [if_pos h0]
    exact hNA
  by_cases h1 : cr.Spec.UpdateStrategy ≠ env.SmartUpdateStatefulSetStrategyType
  · rw [if_neg h0, if_pos h1]
    exact hNA
  rw [if_neg h0, if_neg h1]
  cases hl : env.ListPods [] cr.Namespace (matchLabels cr sfs replset) with
  | error e => exact hList e
  | ok items =>
    simp only
    apply smartUpdateListed_cases env cr sfs replset items
      [Event.ListPods cr.Namespace (matchLabels cr sfs replset) (Except.ok items)]
      (fun r => P (after [Event.ListPods cr.Namespace (matchLabels cr sfs replset) (Except.ok items)] r))
    · intro res ev hev
      exact hEnd items res ev hev
    · intro ev hst hev
      have := hGo items ev hst hev
      simpa [after, listEvent] using this

/-! ## Footprint of the restarts -/

theorem inRestart_of_inApply (pod : Pod) (e : Event) (h : inApply pod e = true) : inRestart e = true := by
  cases e <;> simp_all [inApply, inApplyBody, inWait, inRestart]

theorem inRestart_of_inRole (pod : Pod) (e : Event) (h : inRole pod e = true) : inRestart e = true := by
  cases e <;> simp_all [inRole, inRoleBody, inRestart]

/-- The three ways `secondaryRevision` can end. -/
theorem secondaryRevision_cases (env : Env) (sfs : StatefulSet) (pod : Pod) (tr : Trace) :
    (pod.Labels.get "app.kubernetes.io/component" ≠ "arbiter" ∧
      secondaryRevision env sfs pod tr = (.ok sfs.Status.UpdateRevision, [])) ∨
    (pod.Labels.get "app.kubernetes.io/component" = "arbiter" ∧ ∃ e msg,
      secondaryRevision env sfs pod tr
        = (.error msg, [Event.getArbiterStatefulset (pod.Labels.get "app.kubernetes.io/replset") (.error e)])) ∨
    (pod.Labels.get "app.kubernetes.io/component" = "arbiter" ∧ ∃ a,
      secondaryRevision env sfs pod tr
        = (.ok a.Status.UpdateRevision,
            [Event.getArbiterStatefulset (pod.Labels.get "app.kubernetes.io/replset") (.ok a)])) := by
  unfold secondaryRevision
  by_cases ha : pod.Labels.get "app.kubernetes.io/component" = "arbiter"
  · right
    simp only [ha, if_true, true_and]
    cases hg : env.getArbiterStatefulset tr (pod.Labels.get "app.kubernetes.io/replset") with
    | error e => exact Or.inl ⟨e, wrap e "failed to get arbiter statefulset", rfl⟩
    | ok a => exact Or.inr ⟨a, rfl⟩
  · left
    exact ⟨ha, by simp only [ha, if_false]⟩

theorem secondaryRevision_inLoop (env : Env) (sfs : StatefulSet) (pod : Pod) (tr : Trace) :
    ∀ e ∈ (secondaryRevision env sfs pod tr).2, inLoop e = true := by
  intro e he
  rcases secondaryRevision_cases env sfs pod tr with ⟨_, h⟩ | ⟨_, e1, msg, h⟩ | ⟨_, a, h⟩ <;>
  · rw [h] at he
    simp at he
    try (subst he; rfl)

theorem inLoop_of_inApply (pod : Pod) (e : Event) (h : inApply pod e = true) : inLoop e = true := by
  cases e <;> simp_all [inApply, inApplyBody, inWait, inRestart, inLoop]

theorem inLoop_of_inRole (pod : Pod) (e : Event) (h : inRole pod e = true) : inLoop e = true := by
  cases e <;> simp_all [inRole, inRoleBody, inRestart, inLoop]

theorem inRestart_of_inLoop (e : Event) (h : inLoop e = true) : inRestart e = true := by
  cases e <;> simp_all [inRestart, inLoop]

theorem deferredDisconnect_inRestart (env : Env) (tr : Trace) :
    ∀ e ∈ deferredDisconnect env tr, inRestart e = true := by
  intro e he
  unfold deferredDisconnect at he
  split at he <;> simp at he <;> rcases he with rfl | rfl <;> rfl

theorem smartUpdateLoop_inLoop (env : Env) (sfs : StatefulSet) (waitLimit : Int) (pods : List Pod)
    (primaryPod : Pod) (tr : Trace) :
    ∀ e ∈ (smartUpdateLoop env sfs waitLimit pods primaryPod tr).2, inLoop e = true := by
  induction pods generalizing primaryPod tr with
  | nil => simp [smartUpdateLoop]
  | cons pod rest ih =>
    intro e he
    have hrole : ∀ x ∈ (isPodPrimary env pod tr).2, inLoop x = true :=
      fun x hx => inLoop_of_inRole pod x (isPodPrimary_inRole env pod tr x hx)
    have hsec := secondaryRevision_inLoop env sfs pod
      (tr ++ ((isPodPrimary env pod tr).2 ++ [secondaryLog pod]))
    unfold smartUpdateLoop at he
    simp only [] at he
    cases h1 : (isPodPrimary env pod tr).1 with
    | error e1 =>
      simp only [h1] at he
      exact hrole e he
    | ok b =>
      cases b with
      | true =>
        simp only [h1, after, List.mem_append] at he
        rcases he with he | he
        · exact hrole e he
        · exact ih _ _ e he
      | false =>
        simp only [h1] at he
        cases h2 : (secondaryRevision env sfs pod
            (tr ++ ((isPodPrimary env pod tr).2 ++ [secondaryLog pod]))).1 with
        | error e2 =>
          simp only [secondaryLog] at h2 hsec
          simp only [h2, List.mem_append, List.mem_singleton] at he
          rcases he with (he | rfl) | he
          · exact hrole e he
          · rfl
          · exact hsec e he
        | ok rev =>
          simp only [secondaryLog] at h2 hsec
          simp only [h2] at he
          have happ : ∀ x ∈ (applyNWait env rev pod waitLimit
              (tr ++ ((isPodPrimary env pod tr).2 ++
                [Event.log "apply changes to secondary pod" [("pod", pod.Name)]] ++
                (secondaryRevision env sfs pod (tr ++ ((isPodPrimary env pod tr).2 ++
                  [Event.log "apply changes to secondary pod" [("pod", pod.Name)]]))).2))).2.2,
              inLoop x = true :=
            fun x hx => inLoop_of_inApply pod x (applyNWait_inApply _ _ _ _ _ x hx)
          cases h3 : (applyNWait env rev pod waitLimit
              (tr ++ ((isPodPrimary env pod tr).2 ++
                [Event.log "apply changes to secondary pod" [("pod", pod.Name)]] ++
                (secondaryRevision env sfs pod (tr ++ ((isPodPrimary env pod tr).2 ++
                  [Event.log "apply changes to secondary pod" [("pod", pod.Name)]]))).2))).1 with
          | error e3 =>
            simp only [h3, List.mem_append, List.mem_singleton] at he
            rcases he with ((he | rfl) | he) | he
            · exact hrole e he
            · rfl
            · exact hsec e he
            · exact happ e he
          | ok u =>
            simp only [h3, after, List.mem_append, List.mem_singleton] at he
            rcases he with (((he | rfl) | he) | he) | he
            · exact hrole e he
            · rfl
            · exact hsec e he
            · exact happ e he
            · exact ih _ _ e he

theorem smartUpdateLoop_inRestart (env : Env) (sfs : StatefulSet) (waitLimit : Int) (pods : List Pod)
    (primaryPod : Pod) (tr : Trace) :
    ∀ e ∈ (smartUpdateLoop env sfs waitLimit pods primaryPod tr).2, inRestart e = true :=
  fun e he => inRestart_of_inLoop e (smartUpdateLoop_inLoop env sfs waitLimit pods primaryPod tr e he)

theorem deferredDisconnect_isCleanup (env : Env) (tr : Trace) :
    ∀ e ∈ deferredDisconnect env tr, isCleanup e = true := by
  intro e he
  unfold deferredDisconnect at he
  split at he <;> simp at he <;> rcases he with rfl | rfl <;> rfl

/-- The five ways `primaryStep` can end. -/
theorem primaryStep_cases (env : Env) (sfs : StatefulSet) (replset : ReplsetSpec) (waitLimit : Int)
    (primaryPod : Pod) (tr : Trace) :
    (¬ hasLocalPrimary sfs primaryPod ∧
      primaryStep env sfs replset waitLimit primaryPod tr = (.ok (), [finishedLog sfs])) ∨
    (hasLocalPrimary sfs primaryPod ∧ ∃ e msg,
      primaryStep env sfs replset waitLimit primaryPod tr
        = (.error msg, [stepDownLog replset, Event.mongoClientWithRole (.error e)])) ∨
    (hasLocalPrimary sfs primaryPod ∧ ∃ e msg d, (∀ x ∈ d, isCleanup x = true) ∧
      primaryStep env sfs replset waitLimit primaryPod tr
        = (.error msg,
            [stepDownLog replset, Event.mongoClientWithRole (.ok ()),
              Event.StepDown (decide (replset.Size = 1)) (.error e)] ++ d)) ∨
    (hasLocalPrimary sfs primaryPod ∧ ∃ e msg d, (∀ x ∈ d, isCleanup x = true) ∧
      (applyNWait env sfs.Status.UpdateRevision primaryPod waitLimit
          (tr ++ beforePrimary replset primaryPod)).1 = .error e ∧
      primaryStep env sfs replset waitLimit primaryPod tr
        = (.error msg,
            beforePrimary replset primaryPod ++
              (applyNWait env sfs.Status.UpdateRevision primaryPod waitLimit
                (tr ++ beforePrimary replset primaryPod)).2.2 ++ d)) ∨
    (hasLocalPrimary sfs primaryPod ∧ ∃ d, (∀ x ∈ d, isCleanup x = true) ∧
      (applyNWait env sfs.Status.UpdateRevision primaryPod waitLimit
          (tr ++ beforePrimary replset primaryPod)).1 = .ok () ∧
      primaryStep env sfs replset waitLimit primaryPod tr
        = (.ok (),
            beforePrimary replset primaryPod ++
              (applyNWait env sfs.Status.UpdateRevision primaryPod waitLimit
                (tr ++ beforePrimary replset primaryPod)).2.2 ++ finishedLog sfs :: d)) := by
  unfold primaryStep hasLocalPrimary
  by_cases hc : sfs.Labels.get "app.kubernetes.io/component" ≠ "nonVoting" ∧ primaryPod.Name ≠ ""
  · right
    rw [if_pos hc]
    cases hm : env.mongoClientWithRole
        (tr ++ [Event.log "doing step down..." [("force", toString (decide (replset.Size = 1)))]]) with
    | error e => exact Or.inl ⟨hc, e, "failed to get mongo client: " ++ e, by simp [hm, stepDownLog]⟩
    | ok u =>
      right
      simp only [hm]
      cases hsd : env.StepDown
          (tr ++ ([Event.log "doing step down..." [("force", toString (decide (replset.Size = 1)))]] ++
            [Event.mongoClientWithRole (Except.ok u)])) (decide (replset.Size = 1)) with
      | error e =>
        exact Or.inl ⟨hc, e, wrap e "failed to do step down",
          deferredDisconnect env
            (tr ++ [stepDownLog replset, Event.mongoClientWithRole (.ok ()),
              Event.StepDown (decide (replset.Size = 1)) (.error e)]),
          deferredDisconnect_isCleanup env _, by simp [hsd, stepDownLog]⟩
      | ok u2 =>
        right
        simp only [hsd]
        rcases ha : applyNWait env sfs.Status.UpdateRevision primaryPod waitLimit
            (tr ++ ([Event.log "doing step down..." [("force", toString (decide (replset.Size = 1)))]] ++
              [Event.mongoClientWithRole (Except.ok u)] ++
              [Event.StepDown (decide (replset.Size = 1)) (Except.ok u2)] ++
              [Event.log "apply changes to primary pod" [("pod", primaryPod.Name)]])) with ⟨r, pod1, ev4⟩
        have hbp : tr ++ beforePrimary replset primaryPod
            = tr ++ ([Event.log "doing step down..." [("force", toString (decide (replset.Size = 1)))]] ++
              [Event.mongoClientWithRole (Except.ok u)] ++
              [Event.StepDown (decide (replset.Size = 1)) (Except.ok u2)] ++
              [Event.log "apply changes to primary pod" [("pod", primaryPod.Name)]]) := by
          simp [beforePrimary, stepDownLog, primaryLog]
        rw [hbp, ha]
        rcases r with e | u3
        · exact Or.inl ⟨hc, e, "failed to apply changes: " ++ e,
            deferredDisconnect env (tr ++ (beforePrimary replset primaryPod ++ ev4)),
            deferredDisconnect_isCleanup env _, rfl, by simp [beforePrimary, stepDownLog, primaryLog]⟩
        · exact Or.inr ⟨hc,
            deferredDisconnect env (tr ++ (beforePrimary replset primaryPod ++ ev4 ++ [finishedLog sfs])),
            deferredDisconnect_isCleanup env _, rfl,
            by simp [beforePrimary, stepDownLog, primaryLog, finishedLog]⟩
  · left
    rw [if_neg hc]
    exact ⟨hc, rfl⟩

theorem inRestart_of_isCleanup (e : Event) (h : isCleanup e = true) : inRestart e = true := by
  cases e <;> simp_all [isCleanup, inRestart]

theorem primaryStep_inRestart (env : Env) (sfs : StatefulSet) (replset : ReplsetSpec) (waitLimit : Int)
    (primaryPod : Pod) (tr : Trace) :
    ∀ e ∈ (primaryStep env sfs replset waitLimit primaryPod tr).2, inRestart e = true := by
  intro e he
  have happ := applyNWait_inApply env sfs.Status.UpdateRevision primaryPod waitLimit
    (tr ++ beforePrimary replset primaryPod)
  rcases primaryStep_cases env sfs replset waitLimit primaryPod tr with
    ⟨_, h⟩ | ⟨_, e1, msg, h⟩ | ⟨_, e1, msg, d, hd, h⟩ | ⟨_, e1, msg, d, hd, _, h⟩ | ⟨_, d, hd, _, h⟩
  · rw [h] at he
    simp only [List.mem_singleton] at he
    subst he
    rfl
  · rw [h] at he
    simp only [List.mem_cons, List.mem_singleton, List.not_mem_nil, or_false] at he
    rcases he with rfl | rfl <;> rfl
  · rw [h] at he
    simp only [List.mem_append, List.mem_cons, List.mem_singleton, List.not_mem_nil, or_false] at he
    rcases he with (rfl | rfl | rfl) | he
    · rfl
    · rfl
    · rfl
    · exact inRestart_of_isCleanup e (hd e he)
  · rw [h] at he
    simp only [beforePrimary, List.mem_append, List.mem_cons, List.mem_singleton, List.not_mem_nil,
      or_false] at he
    rcases he with ((rfl | rfl | rfl | rfl) | he) | he
    · rfl
    · rfl
    · rfl
    · rfl
    · exact inRestart_of_inApply primaryPod e (happ e he)
    · exact inRestart_of_isCleanup e (hd e he)
  · rw [h] at he
    simp only [beforePrimary, List.mem_append, List.mem_cons, List.mem_singleton, List.not_mem_nil,
      or_false] at he
    rcases he with ((rfl | rfl | rfl | rfl) | he) | rfl | he
    · rfl
    · rfl
    · rfl
    · rfl
    · exact inRestart_of_inApply primaryPod e (happ e he)
    · rfl
    · exact inRestart_of_isCleanup e (hd e he)

theorem smartUpdateRestart_inRestart (env : Env) (sfs : StatefulSet) (replset : ReplsetSpec)
    (items : List Pod) (tr : Trace) :
    ∀ e ∈ (smartUpdateRestart env sfs replset items tr).2, inRestart e = true := by
  intro e he
  unfold smartUpdateRestart at he
  simp only [] at he
  have hloop : ∀ x ∈ (restartLoop env sfs replset items tr).2, inRestart x = true :=
    smartUpdateLoop_inRestart env sfs replset.LivenessProbe.InitialDelaySeconds (sortPods items) zeroPod tr
  cases hl : (restartLoop env sfs replset items tr).1 with
  | error e1 =>
    simp only [hl] at he
    exact hloop e he
  | ok prim =>
    simp only [hl, after, List.mem_append] at he
    rcases he with he | he
    · exact hloop e he
    · exact primaryStep_inRestart _ _ _ _ _ _ e he

theorem not_mem_smartUpdateRestart (env : Env) (sfs : StatefulSet) (replset : ReplsetSpec)
    (items : List Pod) (tr : Trace) (e : Event) (h : inRestart e = false) :
    e ∉ (smartUpdateRestart env sfs replset items tr).2 := by
  intro he
  rw [smartUpdateRestart_inRestart env sfs replset items tr e he] at h
  cases h

/-! ## C2: config-server precedence -/

/-- C2: in `smartUpdate` on a shard replica set of a sharded cluster (sharding
enabled, not the config-server StatefulSet), when the pass reads the
config-server StatefulSet and its pods and `isSfsChanged` reports them stale,
the pass returns nil and issues no pod deletion, no step-down and no balancer
change. -/
theorem C2_config_stale_defers (env : Env) (cr : PerconaServerMongoDB) (sfs : StatefulSet)
    (replset : ReplsetSpec) (cfgSfs : StatefulSet) (cfgList : List Pod)
    (hshard : cr.Spec.Sharding.Enabled = true)
    (hname : sfs.Name ≠ cr.Name ++ "-" ++ env.ConfigReplSetName)
    (hget : Event.GetStatefulSet (cr.Name ++ "-" ++ env.ConfigReplSetName) cr.Namespace (.ok cfgSfs)
      ∈ (smartUpdate env cr sfs replset).2)
    (hpods : Event.GetRSPods env.ConfigReplSetName (.ok cfgList) ∈ (smartUpdate env cr sfs replset).2)
    (hstale : isSfsChanged cfgSfs cfgList = true) :
    (smartUpdate env cr sfs replset).1 = .ok () ∧
    (smartUpdate env cr sfs replset).2.all (fun e => !isAction e) = true := by
  have hsg : isShardGroup env cr sfs := ⟨hshard, hname⟩
  revert hget hpods
  apply smartUpdate_cases env cr sfs replset
    (fun r => Event.GetStatefulSet (cr.Name ++ "-" ++ env.ConfigReplSetName) cr.Namespace (.ok cfgSfs) ∈ r.2 →
      Event.GetRSPods env.ConfigReplSetName (.ok cfgList) ∈ r.2 →
      r.1 = .ok () ∧ r.2.all (fun e => !isAction e) = true)
  · intro h
    simp at h
  · intro e h
    simp [listEvent] at h
  · intro items res ev hev hget hpods
    rcases hev with ⟨_, rfl, rfl⟩ | ⟨_, e, msg, rfl, rfl⟩ | ⟨_, s, e, msg, rfl, rfl⟩ |
      ⟨_, s, l, hch, rfl, rfl⟩ | ⟨cfgEv, ev2, hcfg, hev2, rfl⟩
    · simp [listEvent] at hget
    · simp [listEvent] at hget
    · simp [listEvent] at hpods
    · simp [listEvent, isAction, isDelete, isStepDown, isDisableBalancer, configVetoLog]
    · exfalso
      rcases hcfg with ⟨hn, _⟩ | ⟨_, s, l, hch, rfl⟩
      · exact hn hsg
      · have hs : cfgSfs = s := by
          rcases hev2 with ⟨_, _, rfl⟩ | ⟨_, e, msg, _, rfl⟩ | ⟨_, _, rfl⟩ | ⟨_, e, msg, _, rfl⟩ |
            ⟨_, _, _, rfl⟩ | ⟨_, gEv, e, msg, ⟨_, j, _, rfl⟩, _, rfl⟩ <;>
          simpa [listEvent, configSfsName, startingLog, replicasVetoLog, backupVetoLog, jobsVetoLog]
            using hget
        have hl : cfgList = l := by
          rcases hev2 with ⟨_, _, rfl⟩ | ⟨_, e, msg, _, rfl⟩ | ⟨_, _, rfl⟩ | ⟨_, e, msg, _, rfl⟩ |
            ⟨_, _, _, rfl⟩ | ⟨_, gEv, e, msg, ⟨_, j, _, rfl⟩, _, rfl⟩ <;>
          simpa [listEvent, configSfsName, startingLog, replicasVetoLog, backupVetoLog, jobsVetoLog]
            using hpods
        subst hs hl
        rw [hstale] at hch
        cases hch
  · intro items ev _ hev hget hpods
    exfalso
    rcases hev with ⟨cfgEv, ev2, hcfg, ⟨gEv, bEv, ⟨_, j, _, rfl⟩, hbal, rfl⟩, rfl⟩
    have hr1 := not_mem_smartUpdateRestart env sfs replset items
    rcases hcfg with ⟨hn, _⟩ | ⟨_, s, l, hch, rfl⟩
    · exact hn hsg
    · have hs : cfgSfs = s := by
        rcases hbal with ⟨_, rfl⟩ | ⟨_, rfl⟩ <;>
        simpa [after, listEvent, configSfsName, startingLog, hr1, inRestart] using hget
      have hl : cfgList = l := by
        rcases hbal with ⟨_, rfl⟩ | ⟨_, rfl⟩ <;>
        simpa [after, listEvent, configSfsName, startingLog, hr1, inRestart] using hpods
      subst hs hl
      rw [hstale] at hch
      cases hch

/-! ## C3: a veto means no action -/

theorem smartUpdate_veto (env : Env) (cr : PerconaServerMongoDB) (sfs : StatefulSet)
    (replset : ReplsetSpec) (h : VetoCondition env sfs (smartUpdate env cr sfs replset).2) :
    (smartUpdate env cr sfs replset).2.all (fun e => !isAction e) = true ∧
    (startingLog sfs ∈ (smartUpdate env cr sfs replset).2 → (smartUpdate env cr sfs replset).1 = .ok ()) := by
  revert h
  apply smartUpdate_cases env cr sfs replset
    (fun r => VetoCondition env sfs r.2 →
      r.2.all (fun e => !isAction e) = true ∧ (startingLog sfs ∈ r.2 → r.1 = .ok ()))
  · intro _
    simp
  · intro e _
    simp [listEvent, startingLog, isAction, isDelete, isStepDown, isDisableBalancer]
  · intro items res ev hev hv
    rcases hev with ⟨_, rfl, rfl⟩ | ⟨_, e, msg, rfl, rfl⟩ | ⟨_, s, e, msg, rfl, rfl⟩ |
      ⟨_, s, l, hch, rfl, rfl⟩ | ⟨cfgEv, ev2, hcfg, hev2, rfl⟩
    · simp [listEvent, startingLog, isAction, isDelete, isStepDown, isDisableBalancer]
    · simp [listEvent, startingLog, isAction, isDelete, isStepDown, isDisableBalancer]
    · simp [listEvent, startingLog, isAction, isDelete, isStepDown, isDisableBalancer]
    · simp [listEvent, startingLog, isAction, isDelete, isStepDown, isDisableBalancer, configVetoLog]
    · rcases hcfg with ⟨_, rfl⟩ | ⟨_, s, l, hch, rfl⟩ <;>
      rcases hev2 with ⟨hr, rfl, rfl⟩ | ⟨hr, e, msg, rfl, rfl⟩ | ⟨hr, rfl, rfl⟩ | ⟨hr, e, msg, rfl, rfl⟩ |
        ⟨hr, ha, rfl, rfl⟩ | ⟨_, gEv, e, msg, ⟨hr, j, hj, rfl⟩, rfl, rfl⟩ <;>
      simp_all [VetoCondition, listEvent, startingLog, replicasVetoLog, backupVetoLog, jobsVetoLog,
        isAction, isDelete, isStepDown, isDisableBalancer] <;>
      first
        | omega
        | (rcases hv with hv | ⟨hv1, hv2⟩
           · omega
           · rcases hj with hj | hj <;> simp_all)
  · intro items ev _ hev hv
    exfalso
    rcases hev with ⟨cfgEv, ev2, hcfg, ⟨gEv, bEv, ⟨hr, j, hj, rfl⟩, hbal, rfl⟩, rfl⟩
    have hr1 := not_mem_smartUpdateRestart env sfs replset items
    rcases hcfg with ⟨_, rfl⟩ | ⟨_, s, l, hch, rfl⟩ <;>
    rcases hbal with ⟨_, rfl⟩ | ⟨_, rfl⟩ <;>
    simp_all [VetoCondition, after, listEvent, startingLog, inRestart] <;>
    first
      | omega
      | (rcases hv with hv | ⟨hv1, hv2⟩
         · omega
         · rcases hj with hj | hj <;> simp_all)

theorem smartMongosUpdateLoop_inRestart (env : Env) (updateRevision : String) (waitLimit : Int)
    (pods : List Pod) (tr : Trace) :
    ∀ e ∈ (smartMongosUpdateLoop env updateRevision waitLimit pods tr).2, inRestart e = true := by
  induction pods generalizing tr with
  | nil => simp [smartMongosUpdateLoop]
  | cons pod rest ih =>
    intro e he
    unfold smartMongosUpdateLoop at he
    simp only [] at he
    have happ : ∀ x ∈ (applyNWait env updateRevision pod waitLimit tr).2.2, inRestart x = true :=
      fun x hx => inRestart_of_inApply pod x (applyNWait_inApply _ _ _ _ _ x hx)
    cases ha : (applyNWait env updateRevision pod waitLimit tr).1 with
    | error e1 =>
      simp only [ha] at he
      exact happ e he
    | ok u =>
      simp only [ha, after, List.mem_append] at he
      rcases he with he | he
      · exact happ e he
      · exact ih _ e he

/-- Case analysis of `smartMongosUpdate`: the pass ends before the loop, or
runs the loop. -/
theorem smartMongosUpdate_cases (env : Env) (cr : PerconaServerMongoDB) (sts : StatefulSet)
    (P : Except String Unit × Trace → Prop)
    (hNA : P (.ok (), []))
    (hList : ∀ e msg, P (.error msg, [Event.getMongosPods (.error e)]))
    (hFresh : ∀ items, isSfsChanged sts items = false → P (.ok (), [Event.getMongosPods (.ok items)]))
    (hVeto : ∀ items gEv,
      (sts.Status.ReadyReplicas < sts.Status.Replicas ∧ gEv = [startingLog sts, replicasVetoLog]) ∨
      (¬ sts.Status.ReadyReplicas < sts.Status.Replicas ∧
        gEv = [startingLog sts, Event.isBackupRunning (.ok true), backupVetoLog]) ∨
      (¬ sts.Status.ReadyReplicas < sts.Status.Replicas ∧
        gEv = [startingLog sts, Event.isBackupRunning (.ok false), Event.HasActiveJobs (.ok true),
          jobsVetoLog]) →
      P (.ok (), Event.getMongosPods (.ok items) :: gEv))
    (hErr : ∀ items e msg gEv,
      (gEv = [startingLog sts, Event.isBackupRunning (.error e)] ∨
       gEv = [startingLog sts, Event.isBackupRunning (.ok false), Event.HasActiveJobs (.error e)]) →
      ¬ sts.Status.ReadyReplicas < sts.Status.Replicas →
      P (.error msg, Event.getMongosPods (.ok items) :: gEv))
    (hGo : ∀ items res ev2 tail, isSfsChanged sts items = true →
      ¬ sts.Status.ReadyReplicas < sts.Status.Replicas →
      smartMongosUpdateLoop env sts.Status.UpdateRevision
        cr.Spec.Sharding.Mongos.LivenessProbe.InitialDelaySeconds (sortPods items)
        [Event.getMongosPods (.ok items), startingLog sts, Event.isBackupRunning (.ok false),
          Event.HasActiveJobs (.ok false)] = (res, ev2) →
      (tail = [] ∨ (res = .ok () ∧ tail = [Event.log "smart update finished for mongos statefulset" []])) →
      P (res, [Event.getMongosPods (.ok items), startingLog sts, Event.isBackupRunning (.ok false),
          Event.HasActiveJobs (.ok false)] ++ ev2 ++ tail)) :
    P (smartMongosUpdate env cr sts) := by
  unfold smartMongosUpdate
  by_cases h0 : cr.Spec.Sharding.Mongos.Size = 0 ∨
      cr.Spec.UpdateStrategy ≠ env.SmartUpdateStatefulSetStrategyType
  · rw [if_pos h0]
    exact hNA
  rw [if_neg h0]
  cases hl : env.getMongosPods [] with
  | error e => exact hList e _
  | ok items =>
    simp only
    by_cases hst : isSfsChanged sts items = false
    · rw [if_pos hst]
      exact hFresh items hst
    rw [if_neg hst]
    rcases mongosSafetyGates_cases env sts [Event.getMongosPods (.ok items)] with
      ⟨hr, hg⟩ | ⟨hr, e, msg, hg⟩ | ⟨hr, hg⟩ | ⟨hr, e, msg, hg⟩ | ⟨hr, hg⟩ | ⟨hr, hg⟩
    · simp only [hg]
      exact hVeto items _ (Or.inl ⟨hr, rfl⟩)
    · simp only [hg]
      exact hErr items e msg _ (Or.inl rfl) hr
    · simp only [hg]
      exact hVeto items _ (Or.inr (Or.inl ⟨hr, rfl⟩))
    · simp only [hg]
      exact hErr items e msg _ (Or.inr rfl) hr
    · simp only [hg]
      exact hVeto items _ (Or.inr (Or.inr ⟨hr, rfl⟩))
    · simp only [hg]
      rcases hloop : smartMongosUpdateLoop env sts.Status.UpdateRevision
        cr.Spec.Sharding.Mongos.LivenessProbe.InitialDelaySeconds (sortPods items)
        ([Event.getMongosPods (.ok items)] ++
          [startingLog sts, Event.isBackupRunning (.ok false), Event.HasActiveJobs (.ok false)])
        with ⟨res, ev2⟩
      have hstale : isSfsChanged sts items = true := by simpa using hst
      rcases res with e | u
      · have := hGo items (.error e) ev2 [] hstale hr (by simpa using hloop) (Or.inl rfl)
        simpa using this
      · have := hGo items (.ok ()) ev2 _ hstale hr (by simpa using hloop) (Or.inr ⟨rfl, rfl⟩)
        simpa using this

theorem smartMongosUpdate_veto (env : Env) (cr : PerconaServerMongoDB) (sts : StatefulSet)
    (h : MongosVetoCondition sts (smartMongosUpdate env cr sts).2) :
    (smartMongosUpdate env cr sts).2.all (fun e => !isAction e) = true ∧
    (startingLog sts ∈ (smartMongosUpdate env cr sts).2 → (smartMongosUpdate env cr sts).1 = .ok ()) := by
  revert h
  apply smartMongosUpdate_cases env cr sts
    (fun r => MongosVetoCondition sts r.2 →
      r.2.all (fun e => !isAction e) = true ∧ (startingLog sts ∈ r.2 → r.1 = .ok ()))
  · intro _
    simp
  · intro e msg _
    simp [startingLog, isAction, isDelete, isStepDown, isDisableBalancer]
  · intro items _ _
    simp [startingLog, isAction, isDelete, isStepDown, isDisableBalancer]
  · rintro items gEv (⟨_, rfl⟩ | ⟨_, rfl⟩ | ⟨_, rfl⟩) _ <;>
    simp [startingLog, replicasVetoLog, backupVetoLog, jobsVetoLog, isAction, isDelete, isStepDown,
      isDisableBalancer]
  · rintro items e msg gEv (rfl | rfl) hr hv <;>
    simp_all [MongosVetoCondition, startingLog] <;> omega
  · rintro items res ev2 tail _ hr hloop htail hv
    exfalso
    have hfp := smartMongosUpdateLoop_inRestart env sts.Status.UpdateRevision
      cr.Spec.Sharding.Mongos.LivenessProbe.InitialDelaySeconds (sortPods items)
      [Event.getMongosPods (.ok items), startingLog sts, Event.isBackupRunning (.ok false),
        Event.HasActiveJobs (.ok false)]
    rw [hloop] at hfp
    have h1 : Event.isBackupRunning (.ok true) ∉ ev2 := fun hm => by
      have := hfp _ hm
      simp [inRestart] at this
    have h2 : Event.HasActiveJobs (.ok true) ∉ ev2 := fun hm => by
      have := hfp _ hm
      simp [inRestart] at this
    rcases htail with rfl | ⟨_, rfl⟩ <;>
    simp_all [MongosVetoCondition, startingLog] <;> omega

/-- C3: in `smartUpdate` and in `smartMongosUpdate`, whenever a safety veto
applies on a stale group (the pass has found the StatefulSet changed and entered
the safety checks, and ready replicas are fewer than replicas, or the backup
subsystem reports a running backup, or active jobs are reported and, for
`smartUpdate`, the restore-in-progress annotation is absent), the pass deletes
no pod, requests no step-down, does not disable the balancer, and returns nil.
The three absences already follow from the condition of the veto alone. -/
theorem C3_veto_no_action (env : Env) (cr : PerconaServerMongoDB) (sfs sts : StatefulSet)
    (replset : ReplsetSpec) :
    (VetoApplies env sfs (smartUpdate env cr sfs replset).2 →
      (smartUpdate env cr sfs replset).1 = .ok () ∧
      (smartUpdate env cr sfs replset).2.all (fun e => !isAction e) = true) ∧
    (MongosVetoApplies sts (smartMongosUpdate env cr sts).2 →
      (smartMongosUpdate env cr sts).1 = .ok () ∧
      (smartMongosUpdate env cr sts).2.all (fun e => !isAction e) = true) ∧
    (VetoCondition env sfs (smartUpdate env cr sfs replset).2 →
      (smartUpdate env cr sfs replset).2.all (fun e => !isAction e) = true) ∧
    (MongosVetoCondition sts (smartMongosUpdate env cr sts).2 →
      (smartMongosUpdate env cr sts).2.all (fun e => !isAction e) = true) :=
  ⟨fun h => ⟨(smartUpdate_veto env cr sfs replset h.2).2 h.1, (smartUpdate_veto env cr sfs replset h.2).1⟩,
   fun h => ⟨(smartMongosUpdate_veto env cr sts h.2).2 h.1, (smartMongosUpdate_veto env cr sts h.2).1⟩,
   fun h => (smartUpdate_veto env cr sfs replset h).1,
   fun h => (smartMongosUpdate_veto env cr sts h).1⟩

/-! ## C10: the order of the checks -/

theorem smartUpdate_checksInOrder (env : Env) (cr : PerconaServerMongoDB) (sfs : StatefulSet)
    (replset : ReplsetSpec) : ChecksInOrder env cr sfs (smartUpdate env cr sfs replset) := by
  apply smartUpdate_cases env cr sfs replset (ChecksInOrder env cr sfs)
  · simp [ChecksInOrder]
  · intro e
    simp [ChecksInOrder, listEvent, startingLog, isBackupQuery, isJobsQuery]
  · intro items res ev hev
    rcases hev with ⟨_, rfl, rfl⟩ | ⟨_, e, msg, rfl, rfl⟩ | ⟨_, s, e, msg, rfl, rfl⟩ |
      ⟨_, s, l, hch, rfl, rfl⟩ | ⟨cfgEv, ev2, hcfg, hev2, rfl⟩
    · simp [ChecksInOrder, listEvent, startingLog, isBackupQuery, isJobsQuery]
    · simp [ChecksInOrder, listEvent, startingLog, isBackupQuery, isJobsQuery]
    · simp [ChecksInOrder, listEvent, startingLog, isBackupQuery, isJobsQuery]
    · simp [ChecksInOrder, listEvent, startingLog, isBackupQuery, isJobsQuery, configVetoLog]
    · rcases hcfg with ⟨hn, rfl⟩ | ⟨hsg, s, l, hch, rfl⟩ <;>
      rcases hev2 with ⟨hr, rfl, rfl⟩ | ⟨hr, e, msg, rfl, rfl⟩ | ⟨hr, rfl, rfl⟩ | ⟨hr, e, msg, rfl, rfl⟩ |
        ⟨hr, ha, rfl, rfl⟩ | ⟨_, gEv, e, msg, ⟨hr, j, hj, rfl⟩, rfl, rfl⟩ <;>
      simp_all [ChecksInOrder, listEvent, startingLog, replicasVetoLog, backupVetoLog, jobsVetoLog,
        configVetoLog, isBackupQuery, isJobsQuery] <;>
      (intros; rcases hj with hj | hj <;> simp_all)
  · intro items ev _ hev
    rcases hev with ⟨cfgEv, ev2, hcfg, ⟨gEv, bEv, ⟨hr, j, hj, rfl⟩, hbal, rfl⟩, rfl⟩
    have hr1 := not_mem_smartUpdateRestart env sfs replset items
    rcases hcfg with ⟨hn, rfl⟩ | ⟨hsg, s, l, hch, rfl⟩ <;>
    rcases hbal with ⟨_, rfl⟩ | ⟨_, rfl⟩ <;>
    simp_all [ChecksInOrder, after, listEvent, startingLog, inRestart, configVetoLog] <;>
    (intros; rcases hj with hj | hj <;> simp_all)

theorem C2_config_stale_witness :
    (smartUpdate cfgStaleEnv (exampleCr true) exampleSfs exampleReplset).1 = .ok () ∧
    (smartUpdate cfgStaleEnv (exampleCr true) exampleSfs exampleReplset).2.all (fun e => !isAction e) = true :=
  C2_config_stale_defers cfgStaleEnv (exampleCr true) exampleSfs exampleReplset exampleCfgSfs
    [examplePod "cfg-0" "cfg" "cfg-1" "Running" true]
    (by decide) (by decide) (by decide) (by decide) (by decide)

theorem C3_veto_witness :
    VetoApplies backupEnv exampleSfs (smartUpdate backupEnv (exampleCr false) exampleSfs exampleReplset).2 ∧
    MongosVetoApplies notReadySfs (smartMongosUpdate backupEnv (exampleCr false) notReadySfs).2 ∧
    (smartUpdate backupEnv (exampleCr false) exampleSfs exampleReplset).1 = .ok () ∧
    (smartMongosUpdate backupEnv (exampleCr false) notReadySfs).1 = .ok () :=
  have h1 : VetoApplies backupEnv exampleSfs
      (smartUpdate backupEnv (exampleCr false) exampleSfs exampleReplset).2 :=
    ⟨by decide, Or.inr (Or.inl (by decide))⟩
  have h2 : MongosVetoApplies notReadySfs (smartMongosUpdate backupEnv (exampleCr false) notReadySfs).2 :=
    ⟨by decide, Or.inl (by decide)⟩
  ⟨h1, h2,
    ((C3_veto_no_action backupEnv (exampleCr false) exampleSfs notReadySfs exampleReplset).1 h1).1,
    ((C3_veto_no_action backupEnv (exampleCr false) exampleSfs notReadySfs exampleReplset).2.1 h2).1⟩

/-- C10 (amended): in `smartUpdate` on a stale group the checks are evaluated in
the order dependent-group-not-converged (config replica set stale),
replicas-not-ready, backup-active, restore-or-active-job.  The first check that
fails ends the pass with nil and the queries of the later checks are not
issued: a stale config replica set ends the pass before the safety checks
start; with replicas not ready neither the backup nor the job subsystem is
queried and the pass, once in the safety checks, ends on that veto; a running
backup ends the pass without a job query; reported jobs without the
restore-in-progress annotation end the pass.  On a shard replica set the safety
checks start only after the config replica set was read and found up to date;
the backup subsystem is queried only with all replicas ready; the job subsystem
only after the backup subsystem answered that no backup runs. -/
theorem C10_check_order (env : Env) (cr : PerconaServerMongoDB) (sfs : StatefulSet)
    (replset : ReplsetSpec) : ChecksInOrder env cr sfs (smartUpdate env cr sfs replset) :=
  smartUpdate_checksInOrder env cr sfs replset

theorem C10_check_order_witness :
    notReadySfs.Status.ReadyReplicas < notReadySfs.Status.Replicas ∧
    (smartUpdate backupEnv (exampleCr false) notReadySfs exampleReplset).1 = .ok () ∧
    (smartUpdate backupEnv (exampleCr false) notReadySfs exampleReplset).2.getLast? = some replicasVetoLog ∧
    (smartUpdate backupEnv (exampleCr false) notReadySfs exampleReplset).2.all
      (fun e => !isBackupQuery e && !isJobsQuery e) = true :=
  have h := (C10_check_order backupEnv (exampleCr false) notReadySfs exampleReplset).2.1 (by decide)
  ⟨by decide, (h.2 (by decide)).1, (h.2 (by decide)).2, h.1⟩

/-- C10 as stated fails: on a shard replica set with replicas not ready, the
config-server StatefulSet and its pods are read before the replicas-not-ready
check, and with a stale config replica set the pass ends on the dependent-group
veto and never reaches the replicas-not-ready veto. -/
theorem C10_counterexample_config_first :
    notReadySfs.Status.ReadyReplicas < notReadySfs.Status.Replicas ∧
    smartUpdate cfgStaleEnv (exampleCr true) notReadySfs exampleReplset
      = (.ok (),
          [ Event.ListPods "ns" (matchLabels (exampleCr true) notReadySfs exampleReplset) (.ok stalePods),
            Event.GetStatefulSet "cluster1-cfg" "ns" (.ok exampleCfgSfs),
            Event.GetRSPods "cfg" (.ok [examplePod "cfg-0" "cfg" "cfg-1" "Running" true]),
            configVetoLog ]) :=
  ⟨by decide, by decide⟩

/-! ## Reading the loop of `smartUpdate` -/

theorem filterMap_none {α : Type} (f : Event → Option α) (l : Trace) (h : ∀ e ∈ l, f e = none) :
    l.filterMap f = [] := by
  induction l with
  | nil => rfl
  | cons e rest ih =>
    have h1 := h e (List.mem_cons_self _ _)
    have h2 := ih (fun x hx => h x (List.mem_cons_of_mem _ hx))
    simp [List.filterMap_cons, h1, h2]

theorem roleAnswers_append (a b : Trace) : roleAnswers (a ++ b) = roleAnswers a ++ roleAnswers b := by
  simp [roleAnswers]

theorem applyCalls_append (a b : Trace) : applyCalls (a ++ b) = applyCalls a ++ applyCalls b := by
  simp [applyCalls]

theorem applyOks_append (a b : Trace) : applyOks (a ++ b) = applyOks a ++ applyOks b := by
  simp [applyOks]

theorem deletes_append (a b : Trace) : deletes (a ++ b) = deletes a ++ deletes b := by
  simp [deletes]

theorem noFailure_append (a b : Trace) : noFailure (a ++ b) = (noFailure a && noFailure b) := by
  simp [noFailure]

theorem noFailure_of_forall (l : Trace) (h : ∀ e ∈ l, isLoopFailure e = false) : noFailure l = true := by
  unfold noFailure
  rw [List.all_eq_true]
  intro e he
  simp [h e he]

theorem obs_inWait (e : Event) (h : inWait e = true) :
    roleAnswerOf e = none ∧ applyCallOf e = none ∧ applyOkOf e = none ∧ deleteOf e = none ∧
    isLoopFailure e = false := by
  cases e <;> simp_all [inWait, roleAnswerOf, applyCallOf, applyOkOf, deleteOf, isLoopFailure]

theorem obs_inRoleBody (e : Event) (h : inRoleBody e = true) :
    roleAnswerOf e = none ∧ applyCallOf e = none ∧ applyOkOf e = none ∧ deleteOf e = none ∧
    isLoopFailure e = false := by
  cases e <;> simp_all [inRoleBody, roleAnswerOf, applyCallOf, applyOkOf, deleteOf, isLoopFailure]

theorem obs_inApplyBody (pod : Pod) (e : Event) (h : inApplyBody pod e = true) :
    roleAnswerOf e = none ∧ applyCallOf e = none ∧ applyOkOf e = none ∧
    isLoopFailure e = false ∧ ∀ p, deleteOf e = some p → p = pod := by
  cases e <;> simp_all [inApplyBody, inWait, roleAnswerOf, applyCallOf, applyOkOf, deleteOf, isLoopFailure]

/-- What a history shows of one call of `isPodPrimary`. -/
theorem isPodPrimary_obs (env : Env) (pod : Pod) (tr : Trace) :
    roleAnswers (isPodPrimary env pod tr).2 = [(pod, (isPodPrimary env pod tr).1)] ∧
    applyCalls (isPodPrimary env pod tr).2 = [] ∧
    applyOks (isPodPrimary env pod tr).2 = [] ∧
    deletes (isPodPrimary env pod tr).2 = [] ∧
    noFailure (isPodPrimary env pod tr).2 = (isPodPrimary env pod tr).1.isOk := by
  have hb := isPodPrimaryBody_inRoleBody env pod tr
  have h1 := filterMap_none roleAnswerOf _ (fun e he => (obs_inRoleBody e (hb e he)).1)
  have h2 := filterMap_none applyCallOf _ (fun e he => (obs_inRoleBody e (hb e he)).2.1)
  have h3 := filterMap_none applyOkOf _ (fun e he => (obs_inRoleBody e (hb e he)).2.2.1)
  have h4 := filterMap_none deleteOf _ (fun e he => (obs_inRoleBody e (hb e he)).2.2.2.1)
  have h5 := noFailure_of_forall _ (fun e he => (obs_inRoleBody e (hb e he)).2.2.2.2)
  simp only [isPodPrimary, roleAnswers_append, applyCalls_append, applyOks_append, deletes_append,
    noFailure_append, h5]
  simp only [roleAnswers, applyCalls, applyOks, deletes, h1, h2, h3, h4]
  refine ⟨by simp [roleAnswerOf], by simp [applyCallOf], by simp [applyOkOf], by simp [deleteOf], ?_⟩
  cases (isPodPrimaryBody env pod tr).1 <;> simp [noFailure, isLoopFailure, Except.isOk, Except.toBool]

/-- What a history shows of one call of `secondaryRevision`. -/
theorem secondaryRevision_obs (env : Env) (sfs : StatefulSet) (pod : Pod) (tr : Trace) :
    roleAnswers (secondaryRevision env sfs pod tr).2 = [] ∧
    applyCalls (secondaryRevision env sfs pod tr).2 = [] ∧
    applyOks (secondaryRevision env sfs pod tr).2 = [] ∧
    deletes (secondaryRevision env sfs pod tr).2 = [] ∧
    noFailure (secondaryRevision env sfs pod tr).2 = (secondaryRevision env sfs pod tr).1.isOk := by
  rcases secondaryRevision_cases env sfs pod tr with ⟨_, h⟩ | ⟨_, e1, msg, h⟩ | ⟨_, a, h⟩ <;>
  simp [h, roleAnswers, applyCalls, applyOks, deletes, roleAnswerOf, applyCallOf, applyOkOf, deleteOf,
    noFailure, isLoopFailure, Except.isOk, Except.toBool]

/-- What a history shows of one call of `applyNWait`. -/
theorem applyNWait_obs (env : Env) (updateRevision : String) (pod : Pod) (waitLimit : Int) (tr : Trace) :
    roleAnswers (applyNWait env updateRevision pod waitLimit tr).2.2 = [] ∧
    applyCalls (applyNWait env updateRevision pod waitLimit tr).2.2 = [pod] ∧
    applyOks (applyNWait env updateRevision pod waitLimit tr).2.2
      = (match (applyNWait env updateRevision pod waitLimit tr).1 with
         | .ok _ => [pod]
         | .error _ => []) ∧
    (∀ p ∈ deletes (applyNWait env updateRevision pod waitLimit tr).2.2, p = pod) ∧
    noFailure (applyNWait env updateRevision pod waitLimit tr).2.2
      = (applyNWait env updateRevision pod waitLimit tr).1.isOk := by
  have hb := applyNWaitBody_inApplyBody env updateRevision pod waitLimit
    (tr ++ [Event.applyNWaitCall pod updateRevision waitLimit])
  have h1 := filterMap_none roleAnswerOf _ (fun e he => (obs_inApplyBody pod e (hb e he)).1)
  have h2 := filterMap_none applyCallOf _ (fun e he => (obs_inApplyBody pod e (hb e he)).2.1)
  have h3 := filterMap_none applyOkOf _ (fun e he => (obs_inApplyBody pod e (hb e he)).2.2.1)
  have h5 := noFailure_of_forall _ (fun e he => (obs_inApplyBody pod e (hb e he)).2.2.2.1)
  have h4 : ∀ p ∈ deletes (applyNWaitBody env updateRevision pod waitLimit
      (tr ++ [Event.applyNWaitCall pod updateRevision waitLimit])).2.2, p = pod := by
    intro p hp
    simp only [deletes, List.mem_filterMap] at hp
    obtain ⟨e, he, hpe⟩ := hp
    exact (obs_inApplyBody pod e (hb e he)).2.2.2.2 p hpe
  simp only [applyNWait, roleAnswers_append, applyCalls_append, applyOks_append, deletes_append,
    noFailure_append, h5]
  refine ⟨?_, ?_, ?_, ?_, ?_⟩
  · simp only [roleAnswers, h1]
    simp [roleAnswerOf]
  · simp only [applyCalls, h2]
    simp [applyCallOf]
  · simp only [applyOks, h3]
    cases (applyNWaitBody env updateRevision pod waitLimit
      (tr ++ [Event.applyNWaitCall pod updateRevision waitLimit])).1 <;>
    simp [applyOkOf, Except.isOk, Except.toBool]
  · intro p hp
    simp only [List.mem_append] at hp
    rcases hp with (hp | hp) | hp
    · simp [deletes, deleteOf] at hp
    · exact h4 p hp
    · simp [deletes, deleteOf] at hp
  · cases (applyNWaitBody env updateRevision pod waitLimit
      (tr ++ [Event.applyNWaitCall pod updateRevision waitLimit])).1 <;>
    simp [noFailure, isLoopFailure, Except.isOk, Except.toBool]

/-- One completed iteration in front of the rest of the loop. -/
theorem LoopObs_step_ok (pod : Pod) (rest : List Pod) (prim0 prim1 : Pod) (S : Trace) (b : Bool)
    (r : Except String Pod × Trace)
    (h1 : roleAnswers S = [(pod, .ok b)])
    (h2 : applyCalls S = nonPrimaries [(pod, .ok b)])
    (h3 : applyOks S = applyCalls S)
    (h4 : ∀ p ∈ deletes S, p ∈ applyCalls S)
    (h5 : noFailure S = true)
    (hprim : prim1 = lastPrimary prim0 [(pod, .ok b)])
    (ih : LoopObs rest prim1 r) : LoopObs (pod :: rest) prim0 (after S r) := by
  obtain ⟨i1, i2, i3, i4, i5, i6⟩ := ih
  simp only [LoopObs, after, roleAnswers_append, applyCalls_append, applyOks_append, deletes_append,
    noFailure_append, h1, h2, h3, h5, Bool.true_and]
  refine ⟨?_, ?_, ?_, ?_, i5, ?_⟩
  · simpa [List.prefix_cons_inj] using i1
  · simp only [nonPrimaries, List.filterMap_append] at i2 ⊢
    exact (List.prefix_append_right_inj _).2 i2
  · exact (List.prefix_append_right_inj _).2 i3
  · intro p hp
    simp only [List.mem_append] at hp ⊢
    rcases hp with hp | hp
    · left
      rw [← h2]
      exact h4 p hp
    · exact Or.inr (i4 p hp)
  · intro prim hp
    obtain ⟨j1, j2, j3, j4, j5⟩ := i6 prim hp
    refine ⟨by simp [j1], ?_, ?_, by rw [j4], ?_⟩
    · intro a ha
      simp only [List.singleton_append, List.mem_cons] at ha
      rcases ha with rfl | ha
      · exact ⟨b, rfl⟩
      · exact j2 a ha
    · simp only [nonPrimaries, List.filterMap_append] at j3 ⊢
      rw [j3]
    · rw [j5, hprim]
      simp [lastPrimary]

/-- An iteration on which the loop returns an error. -/
theorem LoopObs_step_abort (pod : Pod) (rest : List Pod) (prim0 : Pod) (S : Trace)
    (a : Except String Bool) (e : String)
    (h1 : roleAnswers S = [(pod, a)])
    (h2 : applyCalls S <+: nonPrimaries [(pod, a)])
    (h3 : applyOks S = [])
    (h4 : ∀ p ∈ deletes S, p ∈ applyCalls S)
    (h5 : noFailure S = false) : LoopObs (pod :: rest) prim0 (.error e, S) := by
  simp only [LoopObs, h1, h3, h5]
  refine ⟨by simp, h2, List.nil_prefix, h4, by simp [Except.isOk, Except.toBool], ?_⟩
  intro prim hp
  cases hp
theorem smartUpdateLoop_obs (env : Env) (sfs : StatefulSet) (waitLimit : Int) (pods : List Pod)
    (primaryPod : Pod) (tr : Trace) :
    LoopObs pods primaryPod (smartUpdateLoop env sfs waitLimit pods primaryPod tr) := by
  induction pods generalizing primaryPod tr with
  | nil =>
    simp [smartUpdateLoop, LoopObs, roleAnswers, applyCalls, applyOks, deletes, nonPrimaries, lastPrimary,
      noFailure, Except.isOk, Except.toBool]
  | cons pod rest ih =>
    obtain ⟨r1, r2, r3, r4, r5⟩ := isPodPrimary_obs env pod tr
    unfold smartUpdateLoop
    simp only []
    cases h1 : (isPodPrimary env pod tr).1 with
    | error e1 =>
      rw [h1] at r1 r5
      exact LoopObs_step_abort pod rest primaryPod _ _ _ r1 (by rw [r2]; exact List.nil_prefix) r3
        (by rw [r4]; intro p hp; cases hp) r5
    | ok b =>
      rw [h1] at r1 r5
      cases b with
      | true =>
        exact LoopObs_step_ok pod rest primaryPod pod _ true _ r1 (by rw [r2]; rfl) (by rw [r3, r2])
          (by rw [r4]; intro p hp; cases hp) r5 rfl (ih pod _)
      | false =>
        obtain ⟨s1, s2, s3, s4, s5⟩ := secondaryRevision_obs env sfs pod
          (tr ++ ((isPodPrimary env pod tr).2 ++
            [Event.log "apply changes to secondary pod" [("pod", pod.Name)]]))
        simp only []
        have l1 : roleAnswers [Event.log "apply changes to secondary pod" [("pod", pod.Name)]] = [] := rfl
        have l2 : applyCalls [Event.log "apply changes to secondary pod" [("pod", pod.Name)]] = [] := rfl
        have l3 : applyOks [Event.log "apply changes to secondary pod" [("pod", pod.Name)]] = [] := rfl
        have l4 : deletes [Event.log "apply changes to secondary pod" [("pod", pod.Name)]] = [] := rfl
        have l5 : noFailure [Event.log "apply changes to secondary pod" [("pod", pod.Name)]] = true := rfl
        cases h2 : (secondaryRevision env sfs pod
            (tr ++ ((isPodPrimary env pod tr).2 ++
              [Event.log "apply changes to secondary pod" [("pod", pod.Name)]]))).1 with
        | error e2 =>
          rw [h2] at s5
          refine LoopObs_step_abort pod rest primaryPod _ (.ok false) _ ?_ ?_ ?_ ?_ ?_
          · simp only [roleAnswers_append, r1, l1, s1, List.append_nil]
          · simp only [applyCalls_append, r2, l2, s2, List.append_nil]
            exact List.nil_prefix
          · simp only [applyOks_append, r3, l3, s3, List.append_nil]
          · simp only [deletes_append, r4, l4, s4, List.append_nil]
            intro p hp
            cases hp
          · simp only [noFailure_append, r5, l5, s5]
            rfl
        | ok rev =>
          rw [h2] at s5
          simp only []
          obtain ⟨a1, a2, a3, a4, a5⟩ := applyNWait_obs env rev pod waitLimit
            (tr ++ ((isPodPrimary env pod tr).2 ++
              [Event.log "apply changes to secondary pod" [("pod", pod.Name)]] ++
              (secondaryRevision env sfs pod (tr ++ ((isPodPrimary env pod tr).2 ++
                [Event.log "apply changes to secondary pod" [("pod", pod.Name)]]))).2))
          cases h3 : (applyNWait env rev pod waitLimit
              (tr ++ ((isPodPrimary env pod tr).2 ++
                [Event.log "apply changes to secondary pod" [("pod", pod.Name)]] ++
                (secondaryRevision env sfs pod (tr ++ ((isPodPrimary env pod tr).2 ++
                  [Event.log "apply changes to secondary pod" [("pod", pod.Name)]]))).2))).1 with
          | error e3 =>
            rw [h3] at a3 a5
            refine LoopObs_step_abort pod rest primaryPod _ (.ok false) _ ?_ ?_ ?_ ?_ ?_
            · simp only [roleAnswers_append, r1, l1, s1, a1, List.append_nil]
            · simp only [applyCalls_append, r2, l2, s2, a2, List.append_nil, List.nil_append]
              exact List.prefix_refl _
            · simp only [applyOks_append, r3, l3, s3, a3, List.append_nil]
            · simp only [deletes_append, applyCalls_append, r4, l4, s4, r2, l2, s2, a2, List.append_nil,
                List.nil_append]
              intro p hp
              rw [a4 p hp]
              exact List.mem_singleton.2 rfl
            · simp only [noFailure_append, r5, l5, s5, a5]
              rfl
          | ok u =>
            rw [h3] at a3 a5
            refine LoopObs_step_ok pod rest primaryPod primaryPod _ false _ ?_ ?_ ?_ ?_ ?_ rfl (ih primaryPod _)
            · simp only [roleAnswers_append, r1, l1, s1, a1, List.append_nil]
            · simp only [applyCalls_append, r2, l2, s2, a2, List.append_nil, List.nil_append]
              rfl
            · simp only [applyOks_append, applyCalls_append, r3, l3, s3, a3, r2, l2, s2, a2, List.append_nil,
                List.nil_append]
            · simp only [deletes_append, applyCalls_append, r4, l4, s4, r2, l2, s2, a2, List.append_nil,
                List.nil_append]
              intro p hp
              rw [a4 p hp]
              exact List.mem_singleton.2 rfl
            · simp only [noFailure_append, r5, l5, s5, a5]
              rfl

/-! ## C7: when a step-down is requested -/

theorem stepDowns_append (a b : Trace) : stepDowns (a ++ b) = stepDowns a ++ stepDowns b := by
  simp [stepDowns]

theorem stepDowns_of_forall (l : Trace) (h : ∀ e ∈ l, stepDownOf e = none) : stepDowns l = [] :=
  filterMap_none stepDownOf l h

theorem stepDownOf_inLoop (e : Event) (h : inLoop e = true) : stepDownOf e = none := by
  cases e <;> simp_all [inLoop, inRestart, stepDownOf]

theorem stepDownOf_inApply (pod : Pod) (e : Event) (h : inApply pod e = true) : stepDownOf e = none := by
  cases e <;> simp_all [inApply, inApplyBody, inWait, stepDownOf]

theorem obs_isCleanup (e : Event) (h : isCleanup e = true) :
    stepDownOf e = none ∧ applyCallOf e = none ∧ deleteOf e = none ∧ roleAnswerOf e = none ∧
    applyOkOf e = none := by
  cases e <;> simp_all [isCleanup, stepDownOf, applyCallOf, deleteOf, roleAnswerOf, applyOkOf]

theorem restartLoop_stepDowns (env : Env) (sfs : StatefulSet) (replset : ReplsetSpec) (items : List Pod)
    (tr : Trace) :
    stepDowns (restartLoop env sfs replset items tr).2 = [] ∧
    ∀ c, Event.mongoClientWithRole c ∉ (restartLoop env sfs replset items tr).2 := by
  have h := smartUpdateLoop_inLoop env sfs replset.LivenessProbe.InitialDelaySeconds (sortPods items)
    zeroPod tr
  refine ⟨stepDowns_of_forall _ (fun e he => stepDownOf_inLoop e (h e he)), ?_⟩
  intro c hc
  have := h _ hc
  simp [inLoop] at this

theorem lastPrimary_cons (p : Pod) (a : Pod × Except String Bool)
    (rest : List (Pod × Except String Bool)) :
    lastPrimary p (a :: rest) = lastPrimary (pickPrimary p a) rest := rfl

theorem pickPrimary_of_ne (p : Pod) (a : Pod × Except String Bool) (h : a.2 ≠ .ok true) :
    pickPrimary p a = p := by
  rcases a with ⟨q, r⟩
  rcases r with e | b
  · rfl
  · cases b
    · rfl
    · exact absurd rfl h

theorem pickPrimary_of_eq (p : Pod) (a : Pod × Except String Bool) (h : a.2 = .ok true) :
    pickPrimary p a = a.1 := by
  rcases a with ⟨q, r⟩
  simp only at h
  subst h
  rfl

theorem lastPrimary_of_none (p : Pod) (answers : List (Pod × Except String Bool))
    (h : ∀ a ∈ answers, a.2 ≠ .ok true) : lastPrimary p answers = p := by
  induction answers generalizing p with
  | nil => rfl
  | cons a rest ih =>
    rw [lastPrimary_cons, pickPrimary_of_ne p a (h a (List.mem_cons_self _ _))]
    exact ih p (fun x hx => h x (List.mem_cons_of_mem _ hx))

theorem lastPrimary_cases (p : Pod) (answers : List (Pod × Except String Bool)) :
    (lastPrimary p answers = p ∧ ∀ a ∈ answers, a.2 ≠ .ok true) ∨
    ∃ a ∈ answers, a.2 = .ok true ∧ lastPrimary p answers = a.1 := by
  induction answers generalizing p with
  | nil => exact Or.inl ⟨rfl, by simp⟩
  | cons a rest ih =>
    rw [lastPrimary_cons]
    by_cases hr : a.2 = .ok true
    · rw [pickPrimary_of_eq p a hr]
      rcases ih a.1 with ⟨h1, h2⟩ | ⟨b, hb, h1, h2⟩
      · exact Or.inr ⟨a, List.mem_cons_self _ _, hr, h1⟩
      · exact Or.inr ⟨b, List.mem_cons_of_mem _ hb, h1, h2⟩
    · rw [pickPrimary_of_ne p a hr]
      rcases ih p with ⟨h1, h2⟩ | ⟨b, hb, h1, h2⟩
      · left
        refine ⟨h1, ?_⟩
        intro x hx
        rcases List.mem_cons.1 hx with rfl | hx
        · exact hr
        · exact h2 x hx
      · exact Or.inr ⟨b, List.mem_cons_of_mem _ hb, h1, h2⟩

/-- The pods that answer in the loop are listed pods. -/
theorem restartLoop_answers_listed (env : Env) (sfs : StatefulSet) (replset : ReplsetSpec)
    (items : List Pod) (tr : Trace) :
    ∀ a ∈ roleAnswers (restartLoop env sfs replset items tr).2, a.1 ∈ items := by
  intro a ha
  have h := (smartUpdateLoop_obs env sfs replset.LivenessProbe.InitialDelaySeconds (sortPods items)
    zeroPod tr).1
  have h1 : a.1 ∈ (roleAnswers (restartLoop env sfs replset items tr).2).map Prod.fst :=
    List.mem_map.2 ⟨a, ha, rfl⟩
  have h2 : a.1 ∈ sortPods items := h.subset h1
  exact (List.perm_insertionSort nameGe items).subset h2

/-- The step-down requests of `primaryStep`: one, when there is a local primary
in a voting group and the client connection succeeds; none otherwise. -/
theorem primaryStep_stepDowns (env : Env) (sfs : StatefulSet) (replset : ReplsetSpec) (waitLimit : Int)
    (prim : Pod) (tr : Trace) :
    (stepDowns (primaryStep env sfs replset waitLimit prim tr).2 = [decide (replset.Size = 1)] ∧
      hasLocalPrimary sfs prim ∧
      Event.mongoClientWithRole (.ok ()) ∈ (primaryStep env sfs replset waitLimit prim tr).2) ∨
    (stepDowns (primaryStep env sfs replset waitLimit prim tr).2 = [] ∧
      ¬ (hasLocalPrimary sfs prim ∧
        Event.mongoClientWithRole (.ok ()) ∈ (primaryStep env sfs replset waitLimit prim tr).2)) := by
  have happ : stepDowns (applyNWait env sfs.Status.UpdateRevision prim waitLimit
      (tr ++ beforePrimary replset prim)).2.2 = [] :=
    stepDowns_of_forall _ (fun e he => stepDownOf_inApply prim e (applyNWait_inApply _ _ _ _ _ e he))
  have hcl : ∀ d : Trace, (∀ x ∈ d, isCleanup x = true) → stepDowns d = [] :=
    fun d hd => stepDowns_of_forall _ (fun e he => (obs_isCleanup e (hd e he)).1)
  rcases primaryStep_cases env sfs replset waitLimit prim tr with
    ⟨hc, h⟩ | ⟨hc, e, msg, h⟩ | ⟨hc, e, msg, d, hd, h⟩ | ⟨hc, e, msg, d, hd, _, h⟩ | ⟨hc, d, hd, _, h⟩
  · right
    rw [h]
    exact ⟨rfl, fun hh => hc hh.1⟩
  · right
    rw [h]
    refine ⟨rfl, fun hh => ?_⟩
    have := hh.2
    simp [stepDownLog] at this
  · left
    rw [h]
    refine ⟨?_, hc, ?_⟩
    · rw [stepDowns_append, hcl d hd]
      rfl
    · simp
  · left
    rw [h]
    refine ⟨?_, hc, ?_⟩
    · rw [stepDowns_append, stepDowns_append, hcl d hd, happ]
      rfl
    · simp [beforePrimary]
  · left
    rw [h]
    refine ⟨?_, hc, ?_⟩
    · have hfin : stepDowns (finishedLog sfs :: d) = [] := by
        have : finishedLog sfs :: d = [finishedLog sfs] ++ d := rfl
        rw [this, stepDowns_append, hcl d hd]
        rfl
      rw [stepDowns_append, stepDowns_append, hfin, happ]
      rfl
    · simp [beforePrimary]

/-- The step-down requests of the restarts. -/
theorem smartUpdateRestart_stepDowns (env : Env) (sfs : StatefulSet) (replset : ReplsetSpec)
    (items : List Pod) (tr : Trace) :
    (stepDowns (smartUpdateRestart env sfs replset items tr).2 = [decide (replset.Size = 1)] ∨
      stepDowns (smartUpdateRestart env sfs replset items tr).2 = []) ∧
    (stepDowns (smartUpdateRestart env sfs replset items tr).2 ≠ [] ↔
      noFailure (restartLoop env sfs replset items tr).2 = true ∧
      (lastPrimary zeroPod (roleAnswers (restartLoop env sfs replset items tr).2)).Name ≠ "" ∧
      sfs.Labels.get "app.kubernetes.io/component" ≠ "nonVoting" ∧
      Event.mongoClientWithRole (.ok ()) ∈ (smartUpdateRestart env sfs replset items tr).2) := by
  obtain ⟨hs, hm⟩ := restartLoop_stepDowns env sfs replset items tr
  obtain ⟨_, _, _, _, o5, o6⟩ := smartUpdateLoop_obs env sfs replset.LivenessProbe.InitialDelaySeconds
    (sortPods items) zeroPod tr
  change noFailure (restartLoop env sfs replset items tr).2 = (restartLoop env sfs replset items tr).1.isOk
    at o5
  change ∀ prim, (restartLoop env sfs replset items tr).1 = .ok prim → _ at o6
  unfold smartUpdateRestart
  simp only []
  cases hl : (restartLoop env sfs replset items tr).1 with
  | error e1 =>
    rw [hl] at o5
    have o5' : noFailure (restartLoop env sfs replset items tr).2 = false := o5
    simp only [hs, o5']
    simp
  | ok prim =>
    rw [hl] at o5
    have o5' : noFailure (restartLoop env sfs replset items tr).2 = true := o5
    have hprim : prim = lastPrimary zeroPod (roleAnswers
        (smartUpdateLoop env sfs replset.LivenessProbe.InitialDelaySeconds (sortPods items) zeroPod tr).2) :=
      (o6 prim hl).2.2.2.2
    have hprim2 : lastPrimary zeroPod (roleAnswers (restartLoop env sfs replset items tr).2) = prim :=
      hprim.symm
    simp only [after, stepDowns_append, hs, List.nil_append, o5', hprim2, true_and, List.mem_append, hm,
      false_or]
    rcases primaryStep_stepDowns env sfs replset replset.LivenessProbe.InitialDelaySeconds prim
        (tr ++ (restartLoop env sfs replset items tr).2) with ⟨h1, h2, h3⟩ | ⟨h1, h2⟩
    · rw [h1]
      refine ⟨Or.inl rfl, ?_⟩
      constructor
      · intro _
        exact ⟨h2.2, h2.1, h3⟩
      · intro _
        simp
    · rw [h1]
      refine ⟨Or.inr rfl, ?_⟩
      constructor
      · intro h
        exact absurd rfl h
      · rintro ⟨h3, h4, h5⟩
        exact absurd ⟨⟨h4, h3⟩, h5⟩ h2

theorem restartLoop_obs (env : Env) (sfs : StatefulSet) (replset : ReplsetSpec) (items : List Pod)
    (tr : Trace) : LoopObs (sortPods items) zeroPod (restartLoop env sfs replset items tr) :=
  smartUpdateLoop_obs env sfs replset.LivenessProbe.InitialDelaySeconds (sortPods items) zeroPod tr

/-- Without an answer "primary" the restarts end with the loop. -/
theorem smartUpdateRestart_no_primary (env : Env) (sfs : StatefulSet) (replset : ReplsetSpec)
    (items : List Pod) (tr : Trace)
    (h : ∀ a ∈ roleAnswers (restartLoop env sfs replset items tr).2, a.2 ≠ .ok true) :
    stepDowns (smartUpdateRestart env sfs replset items tr).2 = [] ∧
    applyCalls (smartUpdateRestart env sfs replset items tr).2
      = applyCalls (restartLoop env sfs replset items tr).2 ∧
    deletes (smartUpdateRestart env sfs replset items tr).2
      = deletes (restartLoop env sfs replset items tr).2 ∧
    (noFailure (restartLoop env sfs replset items tr).2 = true →
      (smartUpdateRestart env sfs replset items tr).1 = .ok ()) := by
  obtain ⟨hs, _⟩ := restartLoop_stepDowns env sfs replset items tr
  obtain ⟨_, _, _, _, o5, o6⟩ := restartLoop_obs env sfs replset items tr
  unfold smartUpdateRestart
  simp only []
  cases hl : (restartLoop env sfs replset items tr).1 with
  | error e1 =>
    rw [hl] at o5
    have o5' : noFailure (restartLoop env sfs replset items tr).2 = false := o5
    simp only [hs, o5']
    simp
  | ok prim =>
    have hprim : prim = zeroPod := by
      rw [(o6 prim hl).2.2.2.2]
      exact lastPrimary_of_none zeroPod _ h
    subst hprim
    rcases primaryStep_cases env sfs replset replset.LivenessProbe.InitialDelaySeconds zeroPod
        (tr ++ (restartLoop env sfs replset items tr).2) with
      ⟨hc, h⟩ | ⟨hc, _⟩ | ⟨hc, _⟩ | ⟨hc, _⟩ | ⟨hc, _⟩
    · simp only [h, after, stepDowns_append, applyCalls_append, deletes_append, hs]
      exact ⟨rfl, by simp [applyCalls, applyCallOf, finishedLog],
        by simp [deletes, deleteOf, finishedLog], fun _ => trivial⟩
    all_goals exact absurd rfl hc.2

/-- In a voting group with a local primary the step-down branch records the
answer of the cluster-admin client connection, and requests the step-down
exactly when the connection succeeds. -/
theorem primaryStep_client (env : Env) (sfs : StatefulSet) (replset : ReplsetSpec) (waitLimit : Int)
    (prim : Pod) (tr : Trace) (hc : hasLocalPrimary sfs prim) :
    (Event.mongoClientWithRole (.ok ()) ∈ (primaryStep env sfs replset waitLimit prim tr).2 ↔
      env.mongoClientWithRole (tr ++ [stepDownLog replset]) = .ok ()) := by
  have hc2 : sfs.Labels.get "app.kubernetes.io/component" ≠ "nonVoting" ∧ prim.Name ≠ "" := hc
  cases hm : env.mongoClientWithRole (tr ++ [stepDownLog replset]) with
  | error e =>
    simp only [stepDownLog] at hm
    unfold primaryStep
    rw [if_pos hc2]
    simp [hm]
  | ok u =>
    simp only [stepDownLog] at hm
    unfold primaryStep
    rw [if_pos hc2]
    simp only [hm]
    split
    · simp
    · split <;> simp

/-- After a loop that ended with the local primary `prim` in a voting group, the
history of the restarts shows a successful client connection exactly when the
collaborator answers the connection with success. -/
theorem smartUpdateRestart_client (env : Env) (sfs : StatefulSet) (replset : ReplsetSpec)
    (items : List Pod) (tr : Trace) (prim : Pod)
    (hl : (restartLoop env sfs replset items tr).1 = .ok prim) (hc : hasLocalPrimary sfs prim) :
    (Event.mongoClientWithRole (.ok ()) ∈ (smartUpdateRestart env sfs replset items tr).2 ↔
      env.mongoClientWithRole (tr ++ (restartLoop env sfs replset items tr).2 ++ [stepDownLog replset])
        = .ok ()) := by
  obtain ⟨_, hm⟩ := restartLoop_stepDowns env sfs replset items tr
  rw [← primaryStep_client env sfs replset replset.LivenessProbe.InitialDelaySeconds prim
    (tr ++ (restartLoop env sfs replset items tr).2) hc]
  unfold smartUpdateRestart
  simp only [hl, after, List.mem_append, hm, false_or]

/-- Once the step-down has succeeded, the pod taken for the primary is handed
to `applyNWait`, after the pods of the loop. -/
theorem smartUpdateRestart_primary_call (env : Env) (sfs : StatefulSet) (replset : ReplsetSpec)
    (items : List Pod) (tr : Trace)
    (h : Event.StepDown (decide (replset.Size = 1)) (.ok ())
      ∈ (smartUpdateRestart env sfs replset items tr).2) :
    applyCalls (smartUpdateRestart env sfs replset items tr).2
      = applyCalls (restartLoop env sfs replset items tr).2 ++
          [lastPrimary zeroPod (roleAnswers (restartLoop env sfs replset items tr).2)] := by
  have hfoot := smartUpdateLoop_inLoop env sfs replset.LivenessProbe.InitialDelaySeconds (sortPods items)
    zeroPod tr
  have hnot : Event.StepDown (decide (replset.Size = 1)) (.ok ())
      ∉ (restartLoop env sfs replset items tr).2 := by
    intro hmem
    have := hfoot _ hmem
    simp [inLoop] at this
  obtain ⟨_, _, _, _, _, o6⟩ := restartLoop_obs env sfs replset items tr
  revert h
  unfold smartUpdateRestart
  simp only []
  cases hl : (restartLoop env sfs replset items tr).1 with
  | error e1 =>
    intro h
    exact absurd h hnot
  | ok prim =>
    have hprim : lastPrimary zeroPod (roleAnswers (restartLoop env sfs replset items tr).2) = prim :=
      ((o6 prim hl).2.2.2.2).symm
    rw [hprim]
    simp only [after, List.mem_append, applyCalls_append]
    intro h
    have h2 := h.resolve_left hnot
    have hcl : ∀ d : Trace, (∀ x ∈ d, isCleanup x = true) →
        applyCalls d = [] ∧ Event.StepDown (decide (replset.Size = 1)) (.ok ()) ∉ d := by
      intro d hd
      refine ⟨filterMap_none _ _ (fun e he => (obs_isCleanup e (hd e he)).2.1), ?_⟩
      intro hmem
      have := hd _ hmem
      simp [isCleanup] at this
    have happ := (applyNWait_obs env sfs.Status.UpdateRevision prim
      replset.LivenessProbe.InitialDelaySeconds
      (tr ++ (restartLoop env sfs replset items tr).2 ++ beforePrimary replset prim)).2.1
    rcases primaryStep_cases env sfs replset replset.LivenessProbe.InitialDelaySeconds prim
        (tr ++ (restartLoop env sfs replset items tr).2) with
      ⟨_, hp⟩ | ⟨_, e, msg, hp⟩ | ⟨_, e, msg, d, hd, hp⟩ | ⟨_, e, msg, d, hd, _, hp⟩ | ⟨_, d, hd, _, hp⟩
    · rw [hp] at h2
      simp [finishedLog] at h2
    · rw [hp] at h2
      simp [stepDownLog] at h2
    · rw [hp] at h2
      simp only [List.mem_append, List.mem_cons, List.mem_singleton, List.not_mem_nil, or_false] at h2
      rcases h2 with (h2 | h2 | h2) | h2
      · simp [stepDownLog] at h2
      · cases h2
      · simp at h2
      · exact absurd h2 (hcl d hd).2
    · rw [hp]
      simp only [applyCalls_append, happ, (hcl d hd).1, List.append_nil]
      simp [applyCalls, applyCallOf, beforePrimary, stepDownLog, primaryLog]
    · rw [hp]
      have hfin : applyCalls (finishedLog sfs :: d) = [] := by
        have : finishedLog sfs :: d = [finishedLog sfs] ++ d := rfl
        rw [this, applyCalls_append, (hcl d hd).1]
        rfl
      simp only [applyCalls_append, happ, hfin, List.append_nil]
      simp [applyCalls, applyCallOf, beforePrimary, stepDownLog, primaryLog]

/-- C7 (amended): in the part of `smartUpdate` after the gates (lines 117-181),
the step-down is requested at most once, with force equal to
`replset.Size == 1`.  It is requested if and only if the loop met no failure
(no failed role query, no failed read of the arbiter StatefulSet, no failed
non-primary restart), the last pod that reported primary has a non-empty name,
the component label of the StatefulSet is not `nonVoting`, and the collaborator
answers the cluster-admin client connection of line 157 with success.  With
non-empty pod names the second condition says that some listed pod reported
primary.  Once the step-down has succeeded, the primary is handed to
`applyNWait`, after the pods of the loop.  When no listed pod reports primary,
no step-down is requested, no pod is restarted or deleted after the loop, and
the pass returns nil if the loop met no failure. -/
theorem C7_step_down (env : Env) (sfs : StatefulSet) (replset : ReplsetSpec) (items : List Pod)
    (tr : Trace) :
    (stepDowns (smartUpdateRestart env sfs replset items tr).2 = [decide (replset.Size = 1)] ∨
      stepDowns (smartUpdateRestart env sfs replset items tr).2 = []) ∧
    (stepDowns (smartUpdateRestart env sfs replset items tr).2 ≠ [] ↔
      noFailure (restartLoop env sfs replset items tr).2 = true ∧
      (lastPrimary zeroPod (roleAnswers (restartLoop env sfs replset items tr).2)).Name ≠ "" ∧
      sfs.Labels.get "app.kubernetes.io/component" ≠ "nonVoting" ∧
      env.mongoClientWithRole (tr ++ (restartLoop env sfs replset items tr).2 ++ [stepDownLog replset])
        = .ok ()) ∧
    ((∀ p ∈ items, p.Name ≠ "") →
      ((lastPrimary zeroPod (roleAnswers (restartLoop env sfs replset items tr).2)).Name ≠ "" ↔
        ∃ a ∈ roleAnswers (restartLoop env sfs replset items tr).2, a.2 = .ok true)) ∧
    (Event.StepDown (decide (replset.Size = 1)) (.ok ())
        ∈ (smartUpdateRestart env sfs replset items tr).2 →
      applyCalls (smartUpdateRestart env sfs replset items tr).2
        = applyCalls (restartLoop env sfs replset items tr).2 ++
            [lastPrimary zeroPod (roleAnswers (restartLoop env sfs replset items tr).2)]) ∧
    ((∀ a ∈ roleAnswers (restartLoop env sfs replset items tr).2, a.2 ≠ .ok true) →
      stepDowns (smartUpdateRestart env sfs replset items tr).2 = [] ∧
      applyCalls (smartUpdateRestart env sfs replset items tr).2
        = applyCalls (restartLoop env sfs replset items tr).2 ∧
      deletes (smartUpdateRestart env sfs replset items tr).2
        = deletes (restartLoop env sfs replset items tr).2 ∧
      (noFailure (restartLoop env sfs replset items tr).2 = true →
        (smartUpdateRestart env sfs replset items tr).1 = .ok ())) := by
  obtain ⟨_, _, _, _, o5, o6⟩ := restartLoop_obs env sfs replset items tr
  have hlink : noFailure (restartLoop env sfs replset items tr).2 = true →
      (lastPrimary zeroPod (roleAnswers (restartLoop env sfs replset items tr).2)).Name ≠ "" →
      sfs.Labels.get "app.kubernetes.io/component" ≠ "nonVoting" →
      (Event.mongoClientWithRole (.ok ()) ∈ (smartUpdateRestart env sfs replset items tr).2 ↔
        env.mongoClientWithRole (tr ++ (restartLoop env sfs replset items tr).2 ++ [stepDownLog replset])
          = .ok ()) := by
    intro hnf hname hcomp
    cases hl : (restartLoop env sfs replset items tr).1 with
    | error e1 =>
      rw [hl, hnf] at o5
      simp [Except.isOk, Except.toBool] at o5
    | ok prim =>
      have hprim : lastPrimary zeroPod (roleAnswers (restartLoop env sfs replset items tr).2) = prim :=
        ((o6 prim hl).2.2.2.2).symm
      rw [hprim] at hname
      exact smartUpdateRestart_client env sfs replset items tr prim hl ⟨hcomp, hname⟩
  refine ⟨(smartUpdateRestart_stepDowns env sfs replset items tr).1, ?_, ?_,
    smartUpdateRestart_primary_call env sfs replset items tr,
    smartUpdateRestart_no_primary env sfs replset items tr⟩
  · constructor
    · intro hne
      obtain ⟨hnf, hname, hcomp, hmem⟩ := (smartUpdateRestart_stepDowns env sfs replset items tr).2.1 hne
      exact ⟨hnf, hname, hcomp, (hlink hnf hname hcomp).1 hmem⟩
    · rintro ⟨hnf, hname, hcomp, henv⟩
      exact (smartUpdateRestart_stepDowns env sfs replset items tr).2.2
        ⟨hnf, hname, hcomp, (hlink hnf hname hcomp).2 henv⟩
  · intro hnames
    rcases lastPrimary_cases zeroPod (roleAnswers (restartLoop env sfs replset items tr).2) with
      ⟨h1, h2⟩ | ⟨a, ha, h1, h2⟩
    · rw [h1]
      constructor
      · intro h
        exact absurd rfl h
      · rintro ⟨a, ha, h3⟩
        exact absurd h3 (h2 a ha)
    · rw [h2]
      constructor
      · intro _
        exact ⟨a, ha, h1⟩
      · intro _
        exact hnames a.1 (restartLoop_answers_listed env sfs replset items tr a ha)

/-! ## C8: the order of the restarts -/

theorem sortPods_perm (items : List Pod) : (sortPods items).Perm items :=
  List.perm_insertionSort nameGe items

theorem sortPods_sorted (items : List Pod) : (sortPods items).Pairwise nameGe :=
  List.sorted_insertionSort nameGe items

theorem name_injOn (items : List Pod) (h : (items.map (fun p => p.Name)).Nodup) :
    ∀ a ∈ items, ∀ b ∈ items, a.Name = b.Name → a = b := by
  intro a ha b hb hab
  exact List.inj_on_of_nodup_map h ha hb hab

/-- With pairwise distinct names the sorted list is strictly descending by name. -/
theorem sortPods_strict (items : List Pod) (h : (items.map (fun p => p.Name)).Nodup) :
    (sortPods items).Pairwise (fun a b => b.Name < a.Name) := by
  have hperm := sortPods_perm items
  have hnd : ((sortPods items).map (fun p => p.Name)).Nodup :=
    (List.Perm.nodup_iff (hperm.map _)).2 h
  have hne : (sortPods items).Pairwise (fun a b => a.Name ≠ b.Name) := by
    rw [List.Nodup] at hnd
    exact List.pairwise_map.1 hnd
  refine ((sortPods_sorted items).and hne).imp ?_
  rintro a b ⟨hge, hne⟩
  rw [String.lt_iff_toList_lt]
  refine lt_of_le_of_ne hge ?_
  intro heq
  apply hne
  have : a.Name.data = b.Name.data := heq.symm
  exact String.ext this

/-- With pairwise distinct names the sorted list does not depend on the order
of the input. -/
theorem sortPods_of_perm (items items2 : List Pod) (h : (items.map (fun p => p.Name)).Nodup)
    (hp : items2.Perm items) : sortPods items2 = sortPods items := by
  have h1 := (sortPods_perm items2).trans hp
  have h2 := sortPods_perm items
  refine List.Perm.eq_of_sorted ?_ (sortPods_sorted items2) (sortPods_sorted items) (h1.trans h2.symm)
  intro a b ha hb hab hba
  have ha' : a ∈ items := h1.subset ha
  have hb' : b ∈ items := h2.subset hb
  apply name_injOn items h a ha' b hb'
  have : a.Name.toList = b.Name.toList := le_antisymm hba hab
  exact String.ext this

theorem nonPrimaries_sublist (answers : List (Pod × Except String Bool)) :
    (nonPrimaries answers).Sublist (answers.map Prod.fst) := by
  induction answers with
  | nil => exact List.Sublist.slnil
  | cons a rest ih =>
    rcases a with ⟨q, r⟩
    rcases r with e | b
    · exact List.Sublist.cons _ ih
    · cases b
      · exact List.Sublist.cons₂ _ ih
      · exact List.Sublist.cons _ ih

/-- The loop of `smartMongosUpdate` invokes `applyNWait` on an initial segment
of its pods, on all of them when it returns nil. -/
theorem smartMongosUpdateLoop_calls (env : Env) (updateRevision : String) (waitLimit : Int)
    (pods : List Pod) (tr : Trace) :
    applyCalls (smartMongosUpdateLoop env updateRevision waitLimit pods tr).2 <+: pods ∧
    ((smartMongosUpdateLoop env updateRevision waitLimit pods tr).1 = .ok () →
      applyCalls (smartMongosUpdateLoop env updateRevision waitLimit pods tr).2 = pods) := by
  induction pods generalizing tr with
  | nil => simp [smartMongosUpdateLoop, applyCalls]
  | cons pod rest ih =>
    obtain ⟨_, a2, _, _, _⟩ := applyNWait_obs env updateRevision pod waitLimit tr
    unfold smartMongosUpdateLoop
    simp only []
    cases ha : (applyNWait env updateRevision pod waitLimit tr).1 with
    | error e1 =>
      simp only [a2]
      refine ⟨⟨rest, rfl⟩, ?_⟩
      intro h
      cases h
    | ok u =>
      obtain ⟨i1, i2⟩ := ih (tr ++ (applyNWait env updateRevision pod waitLimit tr).2.2)
      simp only [after, applyCalls_append, a2, List.singleton_append]
      exact ⟨(List.prefix_cons_inj pod).2 i1, fun h => by rw [i2 h]⟩

theorem effects_append (a b : Trace) : effects (a ++ b) = effects a ++ effects b := by
  simp [effects]

theorem effects_of_calls (l : Trace) (h : ∀ e ∈ l, stepDownOf e = none) :
    effects l = (applyCalls l).map Effect.restart := by
  induction l with
  | nil => rfl
  | cons e rest ih =>
    have h1 := h e (List.mem_cons_self _ _)
    have h2 := ih (fun x hx => h x (List.mem_cons_of_mem _ hx))
    simp only [effects, applyCalls] at h2 ⊢
    cases e <;> simp_all [effectOf, applyCallOf, stepDownOf, List.filterMap_cons]

/-- The effects of a pass after the gates that returns nil with a local primary
in a voting group: the calls of the loop, one step-down, the primary. -/
theorem smartUpdateRestart_effects (env : Env) (sfs : StatefulSet) (replset : ReplsetSpec)
    (items : List Pod) (tr : Trace)
    (hok : (smartUpdateRestart env sfs replset items tr).1 = .ok ())
    (hlp : hasLocalPrimary sfs (lastPrimary zeroPod (roleAnswers (restartLoop env sfs replset items tr).2))) :
    effects (smartUpdateRestart env sfs replset items tr).2
      = (nonPrimaries (roleAnswers (restartLoop env sfs replset items tr).2)).map Effect.restart ++
        [Effect.stepDown (decide (replset.Size = 1)),
          Effect.restart (lastPrimary zeroPod (roleAnswers (restartLoop env sfs replset items tr).2))] := by
  obtain ⟨_, _, _, _, _, o6⟩ := restartLoop_obs env sfs replset items tr
  have hloopfx : effects (restartLoop env sfs replset items tr).2
      = (applyCalls (restartLoop env sfs replset items tr).2).map Effect.restart :=
    effects_of_calls _ (fun e he => stepDownOf_inLoop e
      (smartUpdateLoop_inLoop env sfs replset.LivenessProbe.InitialDelaySeconds (sortPods items) zeroPod tr
        e he))
  unfold smartUpdateRestart at hok ⊢
  simp only [] at hok ⊢
  cases hl : (restartLoop env sfs replset items tr).1 with
  | error e1 =>
    rw [hl] at hok
    cases hok
  | ok prim =>
    rw [hl] at hok
    obtain ⟨_, _, j3, _, j5⟩ := o6 prim hl
    rw [← j5] at hlp ⊢
    rw [← j3]
    simp only [after] at hok ⊢
    have happfx : ∀ t, effects (applyNWait env sfs.Status.UpdateRevision prim
        replset.LivenessProbe.InitialDelaySeconds t).2.2 = [Effect.restart prim] := by
      intro t
      rw [effects_of_calls _ (fun e he => stepDownOf_inApply prim e (applyNWait_inApply _ _ _ _ _ e he)),
        (applyNWait_obs env sfs.Status.UpdateRevision prim replset.LivenessProbe.InitialDelaySeconds t).2.1]
      rfl
    have hclfx : ∀ d : Trace, (∀ x ∈ d, isCleanup x = true) → effects d = [] := by
      intro d hd
      rw [effects_of_calls _ (fun e he => (obs_isCleanup e (hd e he)).1)]
      have : applyCalls d = [] := filterMap_none applyCallOf d (fun e he => (obs_isCleanup e (hd e he)).2.1)
      rw [this]
      rfl
    rcases primaryStep_cases env sfs replset replset.LivenessProbe.InitialDelaySeconds prim
        (tr ++ (restartLoop env sfs replset items tr).2) with
      ⟨hc, h⟩ | ⟨hc, e, msg, h⟩ | ⟨hc, e, msg, d, hd, h⟩ | ⟨hc, e, msg, d, hd, _, h⟩ | ⟨hc, d, hd, _, h⟩
    · exact absurd hlp hc
    · rw [h] at hok
      cases hok
    · rw [h] at hok
      cases hok
    · rw [h] at hok
      cases hok
    · rw [h]
      have hfin : effects (finishedLog sfs :: d) = [] := by
        have : finishedLog sfs :: d = [finishedLog sfs] ++ d := rfl
        rw [this, effects_append, hclfx d hd]
        rfl
      simp only [effects_append, hloopfx, happfx, hfin, List.append_nil]
      rfl

/-- C8 (amended): for every pod list with pairwise distinct names the sorted
list is a permutation of the input, strictly descending by name, and the same
for every permutation of the input, and so is the sequence of pods handed to
`applyNWait` by either loop from the same history.  In every pass the loop of `smartUpdate`
queries an initial segment of the sorted list and invokes `applyNWait` on an
initial segment of the queried pods that answered "not primary", so on each pod
at most once and in strictly descending order of name; when the loop runs to
its end it has queried every listed pod and invoked `applyNWait` on exactly
those that answered "not primary".  The loop of `smartMongosUpdate` invokes
`applyNWait` on an initial segment of the sorted list, on all of it when it
returns nil.  A pass after the gates that returns nil with a local primary in a
voting group has the effects: the restarts of the non-primary members in that
order, then one step-down request, then the restart of the primary. -/
theorem C8_restart_order (env : Env) (sfs : StatefulSet) (replset : ReplsetSpec) (items : List Pod)
    (tr : Trace) (updateRevision : String) (waitLimit : Int)
    (hnodup : (items.map (fun p => p.Name)).Nodup) :
    (sortPods items).Perm items ∧
    (sortPods items).Pairwise (fun a b => b.Name < a.Name) ∧
    (∀ items2 : List Pod, items2.Perm items →
      sortPods items2 = sortPods items ∧
      applyCalls (restartLoop env sfs replset items2 tr).2
        = applyCalls (restartLoop env sfs replset items tr).2 ∧
      applyCalls (smartMongosUpdateLoop env updateRevision waitLimit (sortPods items2) tr).2
        = applyCalls (smartMongosUpdateLoop env updateRevision waitLimit (sortPods items) tr).2) ∧
    (roleAnswers (restartLoop env sfs replset items tr).2).map Prod.fst <+: sortPods items ∧
    applyCalls (restartLoop env sfs replset items tr).2
      <+: nonPrimaries (roleAnswers (restartLoop env sfs replset items tr).2) ∧
    (applyCalls (restartLoop env sfs replset items tr).2).Pairwise (fun a b => b.Name < a.Name) ∧
    (∀ prim, (restartLoop env sfs replset items tr).1 = .ok prim →
      (roleAnswers (restartLoop env sfs replset items tr).2).map Prod.fst = sortPods items ∧
      applyCalls (restartLoop env sfs replset items tr).2
        = nonPrimaries (roleAnswers (restartLoop env sfs replset items tr).2)) ∧
    applyCalls (smartMongosUpdateLoop env updateRevision waitLimit (sortPods items) tr).2
      <+: sortPods items ∧
    ((smartMongosUpdateLoop env updateRevision waitLimit (sortPods items) tr).1 = .ok () →
      applyCalls (smartMongosUpdateLoop env updateRevision waitLimit (sortPods items) tr).2
        = sortPods items) ∧
    ((smartUpdateRestart env sfs replset items tr).1 = .ok () →
      hasLocalPrimary sfs (lastPrimary zeroPod (roleAnswers (restartLoop env sfs replset items tr).2)) →
      effects (smartUpdateRestart env sfs replset items tr).2
        = (nonPrimaries (roleAnswers (restartLoop env sfs replset items tr).2)).map Effect.restart ++
          [Effect.stepDown (decide (replset.Size = 1)),
            Effect.restart
              (lastPrimary zeroPod (roleAnswers (restartLoop env sfs replset items tr).2))]) := by
  obtain ⟨o1, o2, _, _, _, o6⟩ := restartLoop_obs env sfs replset items tr
  have hstrict := sortPods_strict items hnodup
  have hperm : ∀ items2 : List Pod, items2.Perm items →
      sortPods items2 = sortPods items ∧
      applyCalls (restartLoop env sfs replset items2 tr).2
        = applyCalls (restartLoop env sfs replset items tr).2 ∧
      applyCalls (smartMongosUpdateLoop env updateRevision waitLimit (sortPods items2) tr).2
        = applyCalls (smartMongosUpdateLoop env updateRevision waitLimit (sortPods items) tr).2 := by
    intro items2 hp
    have h := sortPods_of_perm items items2 hnodup hp
    refine ⟨h, ?_, ?_⟩
    · unfold restartLoop
      rw [h]
    · rw [h]
  refine ⟨sortPods_perm items, hstrict, hperm, o1, o2,
    ?_, fun prim hp => ⟨(o6 prim hp).1, (o6 prim hp).2.2.1⟩,
    (smartMongosUpdateLoop_calls env updateRevision waitLimit (sortPods items) tr).1,
    (smartMongosUpdateLoop_calls env updateRevision waitLimit (sortPods items) tr).2,
    smartUpdateRestart_effects env sfs replset items tr⟩
  exact hstrict.sublist
    ((o2.sublist.trans (nonPrimaries_sublist _)).trans o1.sublist)

/-! ## C1: the primary is restarted last -/

theorem OnlyPrimary_spec {P : Pod} {tr : Trace} (h : OnlyPrimary P tr) (q : Pod)
    (r : Except String Bool) (hm : Event.isPodPrimaryReturn q r ∈ tr) :
    (r = .ok true → q = P) ∧ (r = .ok false → q ≠ P) := by
  have := h _ hm
  constructor
  · intro hr
    subst hr
    simpa [answerAgrees] using this
  · intro hr
    subst hr
    simpa [answerAgrees] using this

theorem mem_roleAnswers (ev : Trace) (q : Pod) (r : Except String Bool) :
    (q, r) ∈ roleAnswers ev ↔ Event.isPodPrimaryReturn q r ∈ ev := by
  simp only [roleAnswers, List.mem_filterMap]
  constructor
  · rintro ⟨e, he, h⟩
    cases e <;> simp_all [roleAnswerOf]
  · intro h
    exact ⟨_, h, rfl⟩

theorem mem_applyCalls (ev : Trace) (p : Pod) :
    p ∈ applyCalls ev ↔ ∃ rev w, Event.applyNWaitCall p rev w ∈ ev := by
  simp only [applyCalls, List.mem_filterMap]
  constructor
  · rintro ⟨e, he, h⟩
    cases e <;> simp_all [applyCallOf]
    exact ⟨_, _, he⟩
  · rintro ⟨rev, w, h⟩
    exact ⟨_, h, rfl⟩

theorem mem_applyOks (ev : Trace) (p : Pod) :
    p ∈ applyOks ev ↔ Event.applyNWaitReturn p (.ok ()) ∈ ev := by
  simp only [applyOks, List.mem_filterMap]
  constructor
  · rintro ⟨e, he, h⟩
    cases e with
    | applyNWaitReturn q r =>
      cases r with
      | error e1 => simp [applyOkOf] at h
      | ok u =>
        simp only [applyOkOf, Option.some.injEq] at h
        subst h
        exact he
    | _ => simp [applyOkOf] at h
  · intro h
    exact ⟨_, h, rfl⟩

theorem mem_deletes (ev : Trace) (p : Pod) :
    p ∈ deletes ev ↔ ∃ r, Event.Delete p r ∈ ev := by
  simp only [deletes, List.mem_filterMap]
  constructor
  · rintro ⟨e, he, h⟩
    cases e <;> simp_all [deleteOf]
    exact ⟨_, he⟩
  · rintro ⟨r, h⟩
    exact ⟨_, h, rfl⟩

theorem mem_nonPrimaries (answers : List (Pod × Except String Bool)) (q : Pod) :
    q ∈ nonPrimaries answers ↔ (q, .ok false) ∈ answers := by
  simp only [nonPrimaries, List.mem_filterMap]
  constructor
  · rintro ⟨a, ha, h⟩
    rcases a with ⟨p, r⟩
    rcases r with e | b
    · simp [nonPrimaryOf] at h
    · cases b
      · simp only [nonPrimaryOf, Option.some.injEq] at h
        subst h
        exact ha
      · simp [nonPrimaryOf] at h
  · intro h
    exact ⟨_, h, rfl⟩

theorem noFailure_iff (ev : Trace) : noFailure ev = true ↔ ∀ e ∈ ev, isLoopFailure e = false := by
  simp [noFailure]

/-- An event that is not in `A` splits `A ++ B` inside `B`. -/
theorem split_right_of_not_mem (A B pre post : Trace) (e : Event)
    (h : A ++ B = pre ++ e :: post) (hA : e ∉ A) : ∃ m, pre = A ++ m ∧ B = m ++ e :: post := by
  rcases List.append_eq_append_iff.1 h with ⟨a', h1, h2⟩ | ⟨c', h1, h2⟩
  · exact ⟨a', h1, h2⟩
  · cases c' with
    | nil =>
      simp only [List.nil_append] at h2
      simp only [List.append_nil] at h1
      exact ⟨[], by simp [h1], h2.symm⟩
    | cons x rest =>
      simp only [List.cons_append, List.cons.injEq] at h2
      exfalso
      apply hA
      rw [h1, h2.1]
      simp

/-- In the loop, `P` is neither handed to `applyNWait` nor deleted. -/
theorem restartLoop_no_primary_call (env : Env) (sfs : StatefulSet) (replset : ReplsetSpec)
    (items : List Pod) (tr : Trace) (P : Pod)
    (hP : OnlyPrimary P (restartLoop env sfs replset items tr).2) :
    ∀ e ∈ (restartLoop env sfs replset items tr).2, isCallOrDelete P e = false := by
  obtain ⟨_, o2, _, o4, _, _⟩ := restartLoop_obs env sfs replset items tr
  have hcall : P ∉ applyCalls (restartLoop env sfs replset items tr).2 := by
    intro h
    have h1 := (mem_nonPrimaries _ P).1 (o2.subset h)
    have h2 := (mem_roleAnswers _ P _).1 h1
    exact (OnlyPrimary_spec hP P _ h2).2 rfl rfl
  intro e he
  cases e with
  | applyNWaitCall p rev w =>
    simp only [isCallOrDelete, decide_eq_false_iff_not]
    rintro rfl
    exact hcall ((mem_applyCalls _ p).2 ⟨rev, w, he⟩)
  | Delete p r =>
    simp only [isCallOrDelete, decide_eq_false_iff_not]
    rintro rfl
    exact hcall (o4 p ((mem_deletes _ p).2 ⟨r, he⟩))
  | _ => rfl

/-- After a loop that ran to its end, every listed pod other than `P` has been
restarted with success, the loop met no failure, and `primaryPod` is `P` or
still the zero value. -/
theorem restartLoop_completed (env : Env) (sfs : StatefulSet) (replset : ReplsetSpec)
    (items : List Pod) (tr : Trace) (P prim : Pod)
    (hP : OnlyPrimary P (restartLoop env sfs replset items tr).2)
    (hl : (restartLoop env sfs replset items tr).1 = .ok prim) :
    (∀ q ∈ items, q ≠ P →
      Event.applyNWaitReturn q (.ok ()) ∈ (restartLoop env sfs replset items tr).2) ∧
    (∀ e ∈ (restartLoop env sfs replset items tr).2, isPassFailure P e = false) ∧
    (prim = zeroPod ∨ prim = P) := by
  obtain ⟨_, _, _, _, o5, o6⟩ := restartLoop_obs env sfs replset items tr
  obtain ⟨j1, j2, j3, j4, j5⟩ := o6 prim hl
  rw [hl] at o5
  have hnf : ∀ e ∈ (restartLoop env sfs replset items tr).2, isLoopFailure e = false :=
    (noFailure_iff _).1 o5
  refine ⟨?_, ?_, ?_⟩
  · intro q hq hne
    have h1 : q ∈ (roleAnswers (restartLoop env sfs replset items tr).2).map Prod.fst := by
      rw [j1]
      exact (sortPods_perm items).symm.subset hq
    obtain ⟨a, ha, rfl⟩ := List.mem_map.1 h1
    obtain ⟨b, hb⟩ := j2 a ha
    rcases a with ⟨q, r⟩
    simp only at hb hne ⊢
    subst hb
    have hmem := (mem_roleAnswers _ q _).1 ha
    cases b with
    | true => exact absurd ((OnlyPrimary_spec hP q _ hmem).1 rfl) hne
    | false =>
      have h2 : q ∈ nonPrimaries (roleAnswers (restartLoop env sfs replset items tr).2) :=
        (mem_nonPrimaries _ q).2 ha
      rw [← j3, ← j4] at h2
      exact (mem_applyOks _ q).1 h2
  · intro e he
    have h1 := hnf e he
    have h2 := smartUpdateLoop_inLoop env sfs replset.LivenessProbe.InitialDelaySeconds (sortPods items)
      zeroPod tr e he
    cases e with
    | applyNWaitReturn p r =>
      cases r with
      | error e1 => simp [isLoopFailure] at h1
      | ok u => rfl
    | isPodPrimaryReturn p r =>
      cases r with
      | error e1 => simp [isLoopFailure] at h1
      | ok u => rfl
    | StepDown f r => simp [inLoop] at h2
    | _ => rfl
  · rcases lastPrimary_cases zeroPod (roleAnswers (restartLoop env sfs replset items tr).2) with
      ⟨h1, _⟩ | ⟨a, ha, h1, h2⟩
    · left
      rw [j5]
      exact h1
    · right
      rw [j5]
      change lastPrimary zeroPod (roleAnswers (restartLoop env sfs replset items tr).2) = P
      rw [h2]
      rcases a with ⟨q, r⟩
      simp only at h1 ⊢
      subst h1
      exact (OnlyPrimary_spec hP q _ ((mem_roleAnswers _ q _).1 ha)).1 rfl

theorem isPassFailure_inApply (P : Pod) (e : Event) (h : inApply P e = true) : isPassFailure P e = false := by
  cases e with
  | applyNWaitReturn p r =>
    simp only [inApply, decide_eq_true_eq] at h
    subst h
    cases r <;> simp [isPassFailure]
  | isPodPrimaryReturn p r => simp [inApply, inApplyBody, inWait] at h
  | StepDown f r => simp [inApply, inApplyBody, inWait] at h
  | _ => rfl

theorem obs2_isCleanup (P : Pod) (e : Event) (h : isCleanup e = true) :
    isCallOrDelete P e = false ∧ isPassFailure P e = false := by
  cases e <;> simp_all [isCleanup, isCallOrDelete, isPassFailure]

/-- The primary-last rule on the part of the pass after the gates. -/
theorem smartUpdateRestart_primary_last (env : Env) (sfs : StatefulSet) (replset : ReplsetSpec)
    (items : List Pod) (tr : Trace) (P : Pod)
    (hP : OnlyPrimary P (smartUpdateRestart env sfs replset items tr).2) :
    (∀ pre e post, (smartUpdateRestart env sfs replset items tr).2 = pre ++ e :: post →
      isCallOrDelete P e = true →
      (∀ q ∈ items, q ≠ P → Event.applyNWaitReturn q (.ok ()) ∈ pre) ∧
      Event.StepDown (decide (replset.Size = 1)) (.ok ()) ∈ pre) ∧
    ((∃ e ∈ (smartUpdateRestart env sfs replset items tr).2, isPassFailure P e = true) →
      ∀ e ∈ (smartUpdateRestart env sfs replset items tr).2, isCallOrDelete P e = false) := by
  -- a history without a call or deletion of `P` satisfies both parts
  have hnone : ∀ ev : Trace, (∀ e ∈ ev, isCallOrDelete P e = false) →
      (∀ pre e post, ev = pre ++ e :: post → isCallOrDelete P e = true →
        (∀ q ∈ items, q ≠ P → Event.applyNWaitReturn q (.ok ()) ∈ pre) ∧
        Event.StepDown (decide (replset.Size = 1)) (.ok ()) ∈ pre) ∧
      ((∃ e ∈ ev, isPassFailure P e = true) → ∀ e ∈ ev, isCallOrDelete P e = false) := by
    intro ev h
    refine ⟨?_, fun _ => h⟩
    intro pre e post hsplit hx
    have : e ∈ ev := by rw [hsplit]; simp
    rw [h e this] at hx
    cases hx
  revert hP
  unfold smartUpdateRestart
  simp only []
  cases hl : (restartLoop env sfs replset items tr).1 with
  | error e1 =>
    intro hP
    exact hnone _ (restartLoop_no_primary_call env sfs replset items tr P hP)
  | ok prim =>
    simp only [after]
    intro hP
    have hPL : OnlyPrimary P (restartLoop env sfs replset items tr).2 :=
      fun e h => hP e (List.mem_append_left _ h)
    have hloop := restartLoop_no_primary_call env sfs replset items tr P hPL
    obtain ⟨c1, c2, c3⟩ := restartLoop_completed env sfs replset items tr P prim hPL hl
    rcases primaryStep_cases env sfs replset replset.LivenessProbe.InitialDelaySeconds prim
        (tr ++ (restartLoop env sfs replset items tr).2) with
      ⟨hc, h⟩ | ⟨hc, e, msg, h⟩ | ⟨hc, e, msg, d, hd, h⟩ | ⟨hc, e, msg, d, hd, _, h⟩ | ⟨hc, d, hd, _, h⟩
    · rw [h]
      apply hnone
      intro e he
      rcases List.mem_append.1 he with he | he
      · exact hloop e he
      · simp only [List.mem_singleton] at he
        subst he
        rfl
    · rw [h]
      apply hnone
      intro x hx
      rcases List.mem_append.1 hx with hx | hx
      · exact hloop x hx
      · simp only [List.mem_cons, List.mem_singleton, List.not_mem_nil, or_false] at hx
        rcases hx with rfl | rfl <;> rfl
    · rw [h]
      apply hnone
      intro x hx
      rcases List.mem_append.1 hx with hx | hx
      · exact hloop x hx
      · rcases List.mem_append.1 hx with hx | hx
        · simp only [List.mem_cons, List.mem_singleton, List.not_mem_nil, or_false] at hx
          rcases hx with rfl | rfl | rfl <;> rfl
        · exact (obs2_isCleanup P x (hd x hx)).1
    all_goals
      have hprim : prim = P := by
        rcases c3 with h0 | h0
        · exact absurd (by rw [h0]; rfl) hc.2
        · exact h0
      subst hprim
      rw [h]
      dsimp only
      simp only [List.append_assoc]
      have hbefore : ∀ x ∈ (restartLoop env sfs replset items tr).2 ++ beforePrimary replset prim,
          isCallOrDelete prim x = false ∧ isPassFailure prim x = false := by
        intro x hx
        rcases List.mem_append.1 hx with hx | hx
        · exact ⟨hloop x hx, c2 x hx⟩
        · simp only [beforePrimary, List.mem_cons, List.mem_singleton, List.not_mem_nil, or_false] at hx
          rcases hx with rfl | rfl | rfl | rfl <;> exact ⟨rfl, rfl⟩
      have happ := applyNWait_inApply env sfs.Status.UpdateRevision prim
        replset.LivenessProbe.InitialDelaySeconds
        (tr ++ ((restartLoop env sfs replset items tr).2 ++ beforePrimary replset prim))
      refine ⟨?_, ?_⟩
      · intro pre e post hsplit hx
        have hnot : e ∉ (restartLoop env sfs replset items tr).2 ++ beforePrimary replset prim := by
          intro hmem
          rw [(hbefore e hmem).1] at hx
          cases hx
        rw [← List.append_assoc (restartLoop env sfs replset items tr).2
          (beforePrimary replset prim)] at hsplit
        obtain ⟨m, hm, _⟩ := split_right_of_not_mem _ _ pre post e hsplit hnot
        rw [hm]
        refine ⟨fun q hq hne => ?_, ?_⟩
        · exact List.mem_append_left _ (List.mem_append_left _ (c1 q hq hne))
        · exact List.mem_append_left _ (List.mem_append_right _ (by simp [beforePrimary]))
      · rintro ⟨e, he, hf⟩
        exfalso
        simp only [List.mem_append, List.mem_cons] at he
        have hcontra : isPassFailure prim e = false := by
          first
            | (rcases he with he | he | he | he
               · exact c2 e he
               · exact (hbefore e (List.mem_append_right _ he)).2
               · exact isPassFailure_inApply prim e (happ e he)
               · exact (obs2_isCleanup prim e (hd e he)).2)
            | (rcases he with he | he | he | he | he
               · exact c2 e he
               · exact (hbefore e (List.mem_append_right _ he)).2
               · exact isPassFailure_inApply prim e (happ e he)
               · subst he
                 rfl
               · exact (obs2_isCleanup prim e (hd e he)).2)
        rw [hcontra] at hf
        cases hf

theorem ListedPassed_inChecks (env : Env) (cr : PerconaServerMongoDB) (sfs : StatefulSet)
    (ev : Trace) (h : ListedPassed env cr sfs ev) : ∀ e ∈ ev, inChecks e = true := by
  obtain ⟨cfgEv, ev2, hc, ⟨gEv, bEv, ⟨_, j, _, rfl⟩, hb, rfl⟩, rfl⟩ := h
  rcases hc with ⟨_, rfl⟩ | ⟨_, s, l, _, rfl⟩ <;> rcases hb with ⟨_, rfl⟩ | ⟨_, rfl⟩ <;>
    simp [inChecks, startingLog]

theorem ListedEnded_inChecks (env : Env) (cr : PerconaServerMongoDB) (sfs : StatefulSet)
    (items : List Pod) (res : Except String Unit) (ev : Trace)
    (h : ListedEnded env cr sfs items res ev) : ∀ e ∈ ev, inChecks e = true := by
  rcases h with ⟨_, _, rfl⟩ | ⟨_, e, msg, _, rfl⟩ | ⟨_, s, e, msg, _, rfl⟩ | ⟨_, s, l, _, _, rfl⟩ |
    ⟨cfgEv, ev2, hc, hg, rfl⟩
  · simp
  · simp [inChecks]
  · simp [inChecks]
  · simp [inChecks, configVetoLog]
  · rcases hc with ⟨_, rfl⟩ | ⟨_, s, l, _, rfl⟩ <;>
      rcases hg with ⟨_, _, rfl⟩ | ⟨_, e, msg, _, rfl⟩ | ⟨_, _, rfl⟩ | ⟨_, e, msg, _, rfl⟩ |
        ⟨_, _, _, rfl⟩ | ⟨_, gEv, e, msg, ⟨_, j, _, rfl⟩, _, rfl⟩ <;>
      simp [inChecks, startingLog, replicasVetoLog, backupVetoLog, jobsVetoLog]

theorem obs2_inChecks (P : Pod) (e : Event) (h : inChecks e = true) :
    isCallOrDelete P e = false ∧ isPassFailure P e = false ∧
      ∀ ns l r, e ≠ Event.ListPods ns l r := by
  cases e <;> simp_all [inChecks, isCallOrDelete, isPassFailure]

theorem obs2_inRestart (e : Event) (h : inRestart e = true) :
    ∀ ns l r, e ≠ Event.ListPods ns l r := by
  cases e <;> simp_all [inRestart]

/-- C1: in a pass of `smartUpdate` in which `P` is the pod that answers "primary",
any call of `applyNWait` on `P` and any deletion of `P` comes only after
`applyNWait` has returned success for every other listed pod and after `StepDown`
has returned success; and if a restart of another pod, a role query or the
step-down fails, `P` is neither passed to `applyNWait` nor deleted in that pass. -/
theorem C1_primary_last (env : Env) (cr : PerconaServerMongoDB) (sfs : StatefulSet)
    (replset : ReplsetSpec) (P : Pod)
    (hP : OnlyPrimary P (smartUpdate env cr sfs replset).2) :
    (∀ pre e post, (smartUpdate env cr sfs replset).2 = pre ++ e :: post →
      isCallOrDelete P e = true →
      (∀ items, listEvent cr sfs replset (.ok items) ∈ (smartUpdate env cr sfs replset).2 →
        ∀ q ∈ items, q ≠ P → Event.applyNWaitReturn q (.ok ()) ∈ pre) ∧
      Event.StepDown (decide (replset.Size = 1)) (.ok ()) ∈ pre) ∧
    ((∃ e ∈ (smartUpdate env cr sfs replset).2, isPassFailure P e = true) →
      ∀ e ∈ (smartUpdate env cr sfs replset).2, isCallOrDelete P e = false) := by
  have hnone : ∀ ev : Trace, (∀ e ∈ ev, isCallOrDelete P e = false) →
      (∀ pre e post, ev = pre ++ e :: post → isCallOrDelete P e = true →
        (∀ items, listEvent cr sfs replset (.ok items) ∈ ev →
          ∀ q ∈ items, q ≠ P → Event.applyNWaitReturn q (.ok ()) ∈ pre) ∧
        Event.StepDown (decide (replset.Size = 1)) (.ok ()) ∈ pre) ∧
      ((∃ e ∈ ev, isPassFailure P e = true) → ∀ e ∈ ev, isCallOrDelete P e = false) := by
    intro ev h
    refine ⟨?_, fun _ => h⟩
    intro pre e post hsplit hx
    have : e ∈ ev := by rw [hsplit]; simp
    rw [h e this] at hx
    cases hx
  revert hP
  refine smartUpdate_cases env cr sfs replset
    (fun r => OnlyPrimary P r.2 →
      (∀ pre e post, r.2 = pre ++ e :: post → isCallOrDelete P e = true →
        (∀ items, listEvent cr sfs replset (.ok items) ∈ r.2 →
          ∀ q ∈ items, q ≠ P → Event.applyNWaitReturn q (.ok ()) ∈ pre) ∧
        Event.StepDown (decide (replset.Size = 1)) (.ok ()) ∈ pre) ∧
      ((∃ e ∈ r.2, isPassFailure P e = true) → ∀ e ∈ r.2, isCallOrDelete P e = false))
    ?_ ?_ ?_ ?_
  · intro _
    exact hnone [] (fun e he => by cases he)
  · intro e _
    apply hnone
    intro x hx
    simp only [List.mem_singleton] at hx
    subst hx
    rfl
  · intro items res ev hev _
    apply hnone
    intro x hx
    rcases List.mem_cons.1 hx with hx | hx
    · subst hx
      rfl
    · exact (obs2_inChecks P x (ListedEnded_inChecks env cr sfs items res ev hev x hx)).1
  · intro items ev _ hev hP
    simp only [after] at hP ⊢
    have hpre : ∀ x ∈ listEvent cr sfs replset (.ok items) :: ev,
        isCallOrDelete P x = false ∧ isPassFailure P x = false ∧
          (∀ items2, x = listEvent cr sfs replset (.ok items2) → items2 = items) := by
      intro x hx
      rcases List.mem_cons.1 hx with hx | hx
      · subst hx
        refine ⟨rfl, rfl, ?_⟩
        intro items2 h2
        simp only [listEvent, Event.ListPods.injEq, Except.ok.injEq, true_and] at h2
        exact h2.symm
      · obtain ⟨h1, h2, h3⟩ := obs2_inChecks P x (ListedPassed_inChecks env cr sfs ev hev x hx)
        exact ⟨h1, h2, fun items2 h => absurd h (h3 _ _ _)⟩
    have hR := smartUpdateRestart_primary_last env sfs replset items
      (listEvent cr sfs replset (.ok items) :: ev) P (fun e h => hP e (List.mem_append_right _ h))
    have hfoot := smartUpdateRestart_inRestart env sfs replset items
      (listEvent cr sfs replset (.ok items) :: ev)
    refine ⟨?_, ?_⟩
    · intro pre e post hsplit hx
      have hnot : e ∉ listEvent cr sfs replset (.ok items) :: ev := by
        intro hmem
        rw [(hpre e hmem).1] at hx
        cases hx
      obtain ⟨m, hm, hm2⟩ := split_right_of_not_mem _ _ pre post e hsplit hnot
      obtain ⟨r1, r2⟩ := hR.1 m e post hm2 hx
      rw [hm]
      refine ⟨?_, List.mem_append_right _ r2⟩
      intro items2 hmem q hq hne
      have hitems : items2 = items := by
        rcases List.mem_append.1 hmem with h | h
        · exact (hpre _ h).2.2 items2 rfl
        · exact absurd rfl (obs2_inRestart _ (hfoot _ h) _ _ _)
      subst hitems
      exact List.mem_append_right _ (r1 q hq hne)
    · rintro ⟨e, he, hf⟩
      have hin : e ∈ (smartUpdateRestart env sfs replset items
          (listEvent cr sfs replset (.ok items) :: ev)).2 := by
        rcases List.mem_append.1 he with h | h
        · rw [(hpre e h).2.1] at hf
          cases hf
        · exact h
      intro x hx
      rcases List.mem_append.1 hx with h | h
      · exact (hpre x h).1
      · exact hR.2 ⟨e, hin, hf⟩ x h

theorem C1_primary_last_witness :
    OnlyPrimary (examplePod "rs0-1" "mongod" "rev-1" "Running" true)
      (smartUpdate (rsEnv stalePods "rs0-1") (exampleCr false) exampleSfs exampleReplset).2 ∧
    Event.Delete (examplePod "rs0-1" "mongod" "rev-1" "Running" true) (.ok ())
      ∈ (smartUpdate (rsEnv stalePods "rs0-1") (exampleCr false) exampleSfs exampleReplset).2 ∧
    (∀ pre e post,
      (smartUpdate (rsEnv stalePods "rs0-1") (exampleCr false) exampleSfs exampleReplset).2
        = pre ++ e :: post →
      isCallOrDelete (examplePod "rs0-1" "mongod" "rev-1" "Running" true) e = true →
      (∀ items, listEvent (exampleCr false) exampleSfs exampleReplset (.ok items)
          ∈ (smartUpdate (rsEnv stalePods "rs0-1") (exampleCr false) exampleSfs exampleReplset).2 →
        ∀ q ∈ items, q ≠ examplePod "rs0-1" "mongod" "rev-1" "Running" true →
          Event.applyNWaitReturn q (.ok ()) ∈ pre) ∧
      Event.StepDown (decide (exampleReplset.Size = 1)) (.ok ()) ∈ pre) :=
  ⟨by decide, by decide,
    (C1_primary_last (rsEnv stalePods "rs0-1") (exampleCr false) exampleSfs exampleReplset
      (examplePod "rs0-1" "mongod" "rev-1" "Running" true) (by decide)).1⟩

/-! ## Runs of the step-down and of the restart order -/

theorem C7_step_down_witness :
    smartUpdate (rsEnv stalePods "rs0-1") (exampleCr false) exampleSfs exampleReplset
      = after examplePrefix
          (smartUpdateRestart (rsEnv stalePods "rs0-1") exampleSfs exampleReplset stalePods examplePrefix) ∧
    (noFailure (restartLoop (rsEnv stalePods "rs0-1") exampleSfs exampleReplset stalePods
        examplePrefix).2 = true ∧
      (lastPrimary zeroPod (roleAnswers (restartLoop (rsEnv stalePods "rs0-1") exampleSfs exampleReplset
        stalePods examplePrefix).2)).Name ≠ "" ∧
      exampleSfs.Labels.get "app.kubernetes.io/component" ≠ "nonVoting" ∧
      (rsEnv stalePods "rs0-1").mongoClientWithRole
        (examplePrefix ++ (restartLoop (rsEnv stalePods "rs0-1") exampleSfs exampleReplset stalePods
          examplePrefix).2 ++ [stepDownLog exampleReplset]) = .ok ()) ∧
    stepDowns (smartUpdateRestart (rsEnv stalePods "rs0-1") exampleSfs exampleReplset stalePods
      examplePrefix).2 ≠ [] ∧
    stepDowns (smartUpdateRestart (rsEnv stalePods "rs0-1") exampleSfs exampleReplset stalePods
      examplePrefix).2 = [false] ∧
    applyCalls (smartUpdateRestart (rsEnv stalePods "rs0-1") exampleSfs exampleReplset stalePods
      examplePrefix).2
      = applyCalls (restartLoop (rsEnv stalePods "rs0-1") exampleSfs exampleReplset stalePods
          examplePrefix).2 ++
        [lastPrimary zeroPod (roleAnswers (restartLoop (rsEnv stalePods "rs0-1") exampleSfs exampleReplset
          stalePods examplePrefix).2)] :=
  ⟨by decide, ⟨by decide, by decide, by decide, rfl⟩,
    (C7_step_down (rsEnv stalePods "rs0-1") exampleSfs exampleReplset stalePods examplePrefix).2.1.2
      ⟨by decide, by decide, by decide, rfl⟩,
    by decide,
    (C7_step_down (rsEnv stalePods "rs0-1") exampleSfs exampleReplset stalePods examplePrefix).2.2.2.1
      (by decide)⟩

/-- C7 as stated fails.  (1) With `rs0-1` reporting primary, both non-primary
restarts succeeding and a voting group, no step-down is requested when the
cluster-admin client connection fails.  (2) With `rs0-2` reporting primary and
the restart of `rs0-1` succeeding, no step-down is requested when the role query
of `rs0-0` fails.  (3) When no listed pod reports primary and the deletion of the
first pod fails, the pass returns an error, not nil.  (4) A listed pod with an
empty name that reports primary is taken for no primary. -/
theorem C7_counterexample_no_step_down :
    (roleAnswers (smartUpdate clientFailEnv (exampleCr false) exampleSfs exampleReplset).2
        = [ (examplePod "rs0-2" "mongod" "rev-1" "Running" true, .ok false),
            (examplePod "rs0-1" "mongod" "rev-1" "Running" true, .ok true),
            (examplePod "rs0-0" "mongod" "rev-1" "Running" true, .ok false) ] ∧
      applyOks (smartUpdate clientFailEnv (exampleCr false) exampleSfs exampleReplset).2
        = [ examplePod "rs0-2" "mongod" "rev-1" "Running" true,
            examplePod "rs0-0" "mongod" "rev-1" "Running" true ] ∧
      exampleSfs.Labels.get "app.kubernetes.io/component" ≠ "nonVoting" ∧
      stepDowns (smartUpdate clientFailEnv (exampleCr false) exampleSfs exampleReplset).2 = []) ∧
    (roleAnswers (smartUpdate roleFailEnv (exampleCr false) exampleSfs exampleReplset).2
        = [ (examplePod "rs0-2" "mongod" "rev-1" "Running" true, .ok true),
            (examplePod "rs0-1" "mongod" "rev-1" "Running" true, .ok false),
            (examplePod "rs0-0" "mongod" "rev-1" "Running" true, .error "is master: connection refused") ] ∧
      applyCalls (smartUpdate roleFailEnv (exampleCr false) exampleSfs exampleReplset).2
        = [examplePod "rs0-1" "mongod" "rev-1" "Running" true] ∧
      applyOks (smartUpdate roleFailEnv (exampleCr false) exampleSfs exampleReplset).2
        = [examplePod "rs0-1" "mongod" "rev-1" "Running" true] ∧
      stepDowns (smartUpdate roleFailEnv (exampleCr false) exampleSfs exampleReplset).2 = []) ∧
    (roleAnswers (smartUpdate (deleteFailEnv "none") (exampleCr false) exampleSfs exampleReplset).2
        = [(examplePod "rs0-2" "mongod" "rev-1" "Running" true, .ok false)] ∧
      (smartUpdate (deleteFailEnv "none") (exampleCr false) exampleSfs exampleReplset).1
        = .error "failed to apply changes: delete pod: forbidden") ∧
    (roleAnswers (smartUpdate (rsEnv [examplePod "" "mongod" "rev-1" "Running" true] "")
          (exampleCr false) exampleSfs exampleReplset).2
        = [(examplePod "" "mongod" "rev-1" "Running" true, .ok true)] ∧
      stepDowns (smartUpdate (rsEnv [examplePod "" "mongod" "rev-1" "Running" true] "")
          (exampleCr false) exampleSfs exampleReplset).2 = []) :=
  ⟨⟨by decide, by decide, by decide, by decide⟩, ⟨by decide, by decide, by decide, by decide⟩,
    ⟨by decide, by decide⟩, ⟨by decide, by decide⟩⟩

theorem C8_restart_order_witness :
    (stalePods.map (fun p => p.Name)).Nodup ∧
    sortPods stalePods
      = [ examplePod "rs0-2" "mongod" "rev-1" "Running" true,
          examplePod "rs0-1" "mongod" "rev-1" "Running" true,
          examplePod "rs0-0" "mongod" "rev-1" "Running" true ] ∧
    effects (smartUpdateRestart (rsEnv stalePods "rs0-1") exampleSfs exampleReplset stalePods
        examplePrefix).2
      = [ Effect.restart (examplePod "rs0-2" "mongod" "rev-1" "Running" true),
          Effect.restart (examplePod "rs0-0" "mongod" "rev-1" "Running" true),
          Effect.stepDown false,
          Effect.restart (examplePod "rs0-1" "mongod" "rev-1" "Running" true) ] :=
  ⟨by decide, by decide,
    ((C8_restart_order (rsEnv stalePods "rs0-1") exampleSfs exampleReplset stalePods examplePrefix
      "rev-2" 3 (by decide)).2.2.2.2.2.2.2.2.2 (by decide) ⟨by decide, by decide⟩).trans (by decide)⟩

/-- C8 as stated fails: when a restart fails the loop stops, and a listed pod
that never reported primary is not handed to `applyNWait`.  Here the deletion
of `rs0-2` fails: `applyNWait` is invoked on `rs0-2` only, although `rs0-0` is
listed and did not report primary; the same holds for the loop of
`smartMongosUpdate`. -/
theorem C8_counterexample_aborted_loop :
    (stalePods.map (fun p => p.Name)).Nodup ∧
    examplePod "rs0-0" "mongod" "rev-1" "Running" true ∈ stalePods ∧
    roleAnswers (smartUpdate (deleteFailEnv "rs0-1") (exampleCr false) exampleSfs exampleReplset).2
      = [(examplePod "rs0-2" "mongod" "rev-1" "Running" true, .ok false)] ∧
    applyCalls (smartUpdate (deleteFailEnv "rs0-1") (exampleCr false) exampleSfs exampleReplset).2
      = [examplePod "rs0-2" "mongod" "rev-1" "Running" true] ∧
    applyCalls (smartMongosUpdate (deleteFailEnv "rs0-1") (exampleCr true) exampleSfs).2
      = [examplePod "rs0-2" "mongod" "rev-1" "Running" true] :=
  ⟨by decide, by decide, by decide, by decide, by decide⟩

/-! ## C9: one stale member -/

theorem deletes_of_all (ev : Trace) (h : ev.all (fun e => !isDelete e) = true) : deletes ev = [] := by
  apply filterMap_none
  intro e he
  have := List.all_eq_true.1 h e he
  cases e <;> simp_all [isDelete, deleteOf]

/-- An `applyNWait` under collaborators that succeed: nil, and a deletion
exactly when the pod is not at the target revision. -/
theorem applyNWait_coop (env : Env) (updateRevision : String) (pod : Pod) (waitLimit : Int) (tr : Trace)
    (hw : 1 ≤ waitLimit)
    (hget : ∀ t name ns, ∃ p, env.GetPod t name ns = .found p ∧ podStarted updateRevision p = true)
    (hupd : ∀ t, env.updateStatus t = .ok ())
    (hdel : ∀ t p, env.Delete t p = .ok ()) :
    (applyNWait env updateRevision pod waitLimit tr).1 = .ok () ∧
    deletes (applyNWait env updateRevision pod waitLimit tr).2.2
      = (if pod.Labels.get "controller-revision-hash" = updateRevision then [] else [pod]) := by
  by_cases hrev : pod.Labels.get "controller-revision-hash" = updateRevision
  · have h := applyNWait_current env updateRevision pod waitLimit tr hw hrev hget hupd
    rw [if_pos hrev]
    exact ⟨h.1, deletes_of_all _ h.2.1⟩
  · rw [if_neg hrev]
    obtain ⟨p, hp, hs⟩ := hget
      (tr ++ [Event.applyNWaitCall pod updateRevision waitLimit] ++
        [Event.Delete pod (.ok ())] ++ [Event.Sleep]) pod.Name pod.Namespace
    have hw1 := waitPodRestart_first_poll env updateRevision pod p waitLimit
      (tr ++ [Event.applyNWaitCall pod updateRevision waitLimit] ++
        [Event.Delete pod (.ok ())]) hw hp (hupd _) hs
    simp only [applyNWait, applyNWaitBody, hrev, if_false, hdel, hw1]
    simp [deletes, deleteOf, wrapResult]

/-- The loop of `smartUpdate` under collaborators that succeed, `P` being the
pod that answers "primary": it ends with `P` as the primary when `P` is among
the pods, and deletes the pods other than `P` that are not at the target revision. -/
theorem smartUpdateLoop_coop (env : Env) (sfs : StatefulSet) (waitLimit : Int) (P : Pod)
    (pods : List Pod)
    (hrole : ∀ tr, ∀ p ∈ pods, (isPodPrimary env p tr).1 = .ok (decide (p = P)))
    (hnoarb : ∀ p ∈ pods, p.Labels.get "app.kubernetes.io/component" ≠ "arbiter")
    (happ : ∀ tr, ∀ p ∈ pods,
      (applyNWait env sfs.Status.UpdateRevision p waitLimit tr).1 = .ok () ∧
      deletes (applyNWait env sfs.Status.UpdateRevision p waitLimit tr).2.2
        = (if p.Labels.get "controller-revision-hash" = sfs.Status.UpdateRevision then [] else [p]))
    (primaryPod : Pod) (tr : Trace) :
    (smartUpdateLoop env sfs waitLimit pods primaryPod tr).1
      = .ok (if P ∈ pods then P else primaryPod) ∧
    deletes (smartUpdateLoop env sfs waitLimit pods primaryPod tr).2
      = pods.filter (fun p => decide (p ≠ P) &&
          decide (p.Labels.get "controller-revision-hash" ≠ sfs.Status.UpdateRevision)) := by
  induction pods generalizing primaryPod tr with
  | nil => exact ⟨rfl, rfl⟩
  | cons pod rest ih =>
    have ih2 := ih (fun t p hp => hrole t p (List.mem_cons_of_mem _ hp))
      (fun p hp => hnoarb p (List.mem_cons_of_mem _ hp))
      (fun t p hp => happ t p (List.mem_cons_of_mem _ hp))
    have h1 := hrole tr pod (List.mem_cons_self _ _)
    obtain ⟨_, _, _, r4, _⟩ := isPodPrimary_obs env pod tr
    unfold smartUpdateLoop
    simp only []
    by_cases hpP : pod = P
    · rw [decide_eq_true hpP] at h1
      simp only [h1, after, deletes_append, r4, List.nil_append]
      obtain ⟨i1, i2⟩ := ih2 pod (tr ++ (isPodPrimary env pod tr).2)
      rw [i1, i2]
      subst hpP
      simp
    · rw [decide_eq_false hpP] at h1
      simp only [h1]
      rcases secondaryRevision_cases env sfs pod
          (tr ++ ((isPodPrimary env pod tr).2 ++
            [Event.log "apply changes to secondary pod" [("pod", pod.Name)]])) with
        ⟨_, hs⟩ | ⟨ha, _⟩ | ⟨ha, _⟩
      · simp only [hs, List.append_nil]
        obtain ⟨a1, a2⟩ := happ
          (tr ++ ((isPodPrimary env pod tr).2 ++
            [Event.log "apply changes to secondary pod" [("pod", pod.Name)]])) pod
          (List.mem_cons_self _ _)
        simp only [a1, after, deletes_append, r4, a2, List.nil_append]
        obtain ⟨i1, i2⟩ := ih2 primaryPod
          (tr ++ ((isPodPrimary env pod tr).2 ++
            [Event.log "apply changes to secondary pod" [("pod", pod.Name)]] ++
            (applyNWait env sfs.Status.UpdateRevision pod waitLimit
              (tr ++ ((isPodPrimary env pod tr).2 ++
                [Event.log "apply changes to secondary pod" [("pod", pod.Name)]]))).2.2))
        rw [i1, i2]
        have hPne : P ≠ pod := fun h => hpP h.symm
        constructor
        · simp [List.mem_cons, hPne]
        · by_cases hrev : pod.Labels.get "controller-revision-hash" = sfs.Status.UpdateRevision
          · simp [List.filter_cons, hpP, hrev, deletes, deleteOf]
          · simp [List.filter_cons, hpP, hrev, deletes, deleteOf]
      · exact absurd ha (hnoarb pod (List.mem_cons_self _ _))
      · exact absurd ha (hnoarb pod (List.mem_cons_self _ _))

/-- The step-down and the restart of the primary under collaborators that
succeed, in a voting group: nil, one step-down request, and the deletions of the
`applyNWait` on the primary. -/
theorem primaryStep_coop (env : Env) (sfs : StatefulSet) (replset : ReplsetSpec) (waitLimit : Int)
    (P : Pod) (tr : Trace) (hc : hasLocalPrimary sfs P)
    (hclient : ∀ t, env.mongoClientWithRole t = .ok ())
    (hstep : ∀ t f, env.StepDown t f = .ok ())
    (happ : ∀ t, (applyNWait env sfs.Status.UpdateRevision P waitLimit t).1 = .ok ()) :
    (primaryStep env sfs replset waitLimit P tr).1 = .ok () ∧
    stepDowns (primaryStep env sfs replset waitLimit P tr).2 = [decide (replset.Size = 1)] ∧
    deletes (primaryStep env sfs replset waitLimit P tr).2
      = deletes (applyNWait env sfs.Status.UpdateRevision P waitLimit
          (tr ++ beforePrimary replset P)).2.2 := by
  have hsd : stepDowns (applyNWait env sfs.Status.UpdateRevision P waitLimit
      (tr ++ beforePrimary replset P)).2.2 = [] :=
    stepDowns_of_forall _ (fun e he => stepDownOf_inApply P e (applyNWait_inApply _ _ _ _ _ e he))
  have hcl : ∀ d : Trace, (∀ x ∈ d, isCleanup x = true) → stepDowns d = [] ∧ deletes d = [] :=
    fun d hd => ⟨stepDowns_of_forall _ (fun e he => (obs_isCleanup e (hd e he)).1),
      filterMap_none _ _ (fun e he => (obs_isCleanup e (hd e he)).2.2.1)⟩
  have hc2 : sfs.Labels.get "app.kubernetes.io/component" ≠ "nonVoting" ∧ P.Name ≠ "" := hc
  have hbp : tr ++ beforePrimary replset P
      = tr ++ ([Event.log "doing step down..." [("force", toString (decide (replset.Size = 1)))]] ++
        [Event.mongoClientWithRole (Except.ok ())] ++
        [Event.StepDown (decide (replset.Size = 1)) (Except.ok ())] ++
        [Event.log "apply changes to primary pod" [("pod", P.Name)]]) := by
    simp [beforePrimary, stepDownLog, primaryLog]
  rw [hbp] at hsd ⊢
  unfold primaryStep
  rw [if_pos hc2]
  simp only [hclient, hstep]
  rcases ha : applyNWait env sfs.Status.UpdateRevision P waitLimit
      (tr ++ ([Event.log "doing step down..." [("force", toString (decide (replset.Size = 1)))]] ++
        [Event.mongoClientWithRole (Except.ok ())] ++
        [Event.StepDown (decide (replset.Size = 1)) (Except.ok ())] ++
        [Event.log "apply changes to primary pod" [("pod", P.Name)]])) with ⟨r, pod1, ev4⟩
  have hr := happ (tr ++ ([Event.log "doing step down..." [("force", toString (decide (replset.Size = 1)))]] ++
        [Event.mongoClientWithRole (Except.ok ())] ++
        [Event.StepDown (decide (replset.Size = 1)) (Except.ok ())] ++
        [Event.log "apply changes to primary pod" [("pod", P.Name)]]))
  rw [ha] at hr hsd
  simp only at hr hsd
  subst hr
  simp only []
  obtain ⟨c1, c2⟩ := hcl _ (deferredDisconnect_isCleanup env
    (tr ++ ([Event.log "doing step down..." [("force", toString (decide (replset.Size = 1)))]] ++
        [Event.mongoClientWithRole (Except.ok ())] ++
        [Event.StepDown (decide (replset.Size = 1)) (Except.ok ())] ++
        [Event.log "apply changes to primary pod" [("pod", P.Name)]] ++ ev4 ++
        [Event.log "smart update finished for statefulset" [("statefulset", sfs.Name)]])))
  refine ⟨trivial, ?_, ?_⟩
  · simp only [stepDowns_append, hsd, c1, List.append_nil]
    simp [stepDowns, stepDownOf]
  · simp only [deletes_append, c2, List.append_nil]
    simp [deletes, deleteOf]

theorem filter_unique (l : List Pod) (S : Pod) (pred : Pod → Bool) (hnodup : l.Nodup) (hS : S ∈ l)
    (hpred : ∀ p ∈ l, (pred p = true ↔ p = S)) : l.filter pred = [S] := by
  induction l with
  | nil => cases hS
  | cons a rest ih =>
    obtain ⟨ha, hrest⟩ := List.nodup_cons.1 hnodup
    by_cases haS : a = S
    · subst haS
      have h1 : pred a = true := (hpred a (List.mem_cons_self _ _)).2 rfl
      have h2 : rest.filter pred = [] := by
        rw [List.filter_eq_nil_iff]
        intro p hp hpp
        have := (hpred p (List.mem_cons_of_mem _ hp)).1 hpp
        subst this
        exact ha hp
      rw [List.filter_cons, if_pos h1, h2]
    · have h1 : ¬ pred a = true := fun h => haS ((hpred a (List.mem_cons_self _ _)).1 h)
      have hS2 : S ∈ rest := by
        rcases List.mem_cons.1 hS with h | h
        · exact absurd h.symm haS
        · exact h
      rw [List.filter_cons, if_neg h1]
      exact ih hrest hS2 (fun p hp => hpred p (List.mem_cons_of_mem _ hp))

/-- The restarts (lines 117-181) when exactly the member `S` is stale, another
member `P` answers "primary" and the collaborators succeed. -/
theorem smartUpdateRestart_one_stale (env : Env) (sfs : StatefulSet) (replset : ReplsetSpec)
    (items : List Pod) (S P : Pod) (tr : Trace)
    (hnodup : items.Nodup) (hS : S ∈ items) (hP : P ∈ items) (hSP : S ≠ P) (hname : P.Name ≠ "")
    (hstale : S.Labels.get "controller-revision-hash" ≠ sfs.Status.UpdateRevision)
    (hcurrent : ∀ p ∈ items, p ≠ S →
      p.Labels.get "controller-revision-hash" = sfs.Status.UpdateRevision)
    (hnoarb : ∀ p ∈ items, p.Labels.get "app.kubernetes.io/component" ≠ "arbiter")
    (hrole : ∀ t, ∀ p ∈ items, (isPodPrimary env p t).1 = .ok (decide (p = P)))
    (hw : 1 ≤ replset.LivenessProbe.InitialDelaySeconds)
    (hget : ∀ t name ns, ∃ p, env.GetPod t name ns = .found p ∧
      podStarted sfs.Status.UpdateRevision p = true)
    (hupd : ∀ t, env.updateStatus t = .ok ())
    (hdel : ∀ t p, env.Delete t p = .ok ())
    (hclient : ∀ t, env.mongoClientWithRole t = .ok ())
    (hstep : ∀ t f, env.StepDown t f = .ok ()) :
    (smartUpdateRestart env sfs replset items tr).1 = .ok () ∧
    deletes (smartUpdateRestart env sfs replset items tr).2 = [S] ∧
    stepDowns (smartUpdateRestart env sfs replset items tr).2
      = (if sfs.Labels.get "app.kubernetes.io/component" = "nonVoting" then []
         else [decide (replset.Size = 1)]) := by
  have hperm := sortPods_perm items
  have happ := fun t p => applyNWait_coop env sfs.Status.UpdateRevision p
    replset.LivenessProbe.InitialDelaySeconds t hw hget hupd hdel
  obtain ⟨l1, l2⟩ := smartUpdateLoop_coop env sfs replset.LivenessProbe.InitialDelaySeconds P
    (sortPods items) (fun t p hp => hrole t p (hperm.mem_iff.1 hp))
    (fun p hp => hnoarb p (hperm.mem_iff.1 hp)) (fun t p _ => happ t p) zeroPod tr
  rw [if_pos (hperm.mem_iff.2 hP)] at l1
  have hfilter : (sortPods items).filter (fun p => decide (p ≠ P) &&
      decide (p.Labels.get "controller-revision-hash" ≠ sfs.Status.UpdateRevision)) = [S] := by
    apply filter_unique _ _ _ (hperm.nodup_iff.2 hnodup) (hperm.mem_iff.2 hS)
    intro p hp
    simp only [Bool.and_eq_true, decide_eq_true_eq]
    constructor
    · rintro ⟨_, h2⟩
      by_contra hne
      exact h2 (hcurrent p (hperm.mem_iff.1 hp) hne)
    · rintro rfl
      exact ⟨hSP, hstale⟩
  rw [hfilter] at l2
  have hls := (restartLoop_stepDowns env sfs replset items tr).1
  change (restartLoop env sfs replset items tr).1 = .ok P at l1
  change deletes (restartLoop env sfs replset items tr).2 = [S] at l2
  unfold smartUpdateRestart
  simp only [l1, after, deletes_append, stepDowns_append, l2, hls]
  by_cases hv : sfs.Labels.get "app.kubernetes.io/component" = "nonVoting"
  · have hps : primaryStep env sfs replset replset.LivenessProbe.InitialDelaySeconds P
        (tr ++ (restartLoop env sfs replset items tr).2) = (.ok (), [finishedLog sfs]) := by
      unfold primaryStep
      rw [if_neg (fun h => h.1 hv)]
      rfl
    rw [hps, if_pos hv]
    exact ⟨rfl, rfl, rfl⟩
  · obtain ⟨p1, p2, p3⟩ := primaryStep_coop env sfs replset replset.LivenessProbe.InitialDelaySeconds P
      (tr ++ (restartLoop env sfs replset items tr).2) ⟨hv, hname⟩ hclient hstep
      (fun t => (happ t P).1)
    have hPcur : P.Labels.get "controller-revision-hash" = sfs.Status.UpdateRevision :=
      hcurrent P hP (fun h => hSP h.symm)
    rw [(happ _ P).2, if_pos hPcur] at p3
    rw [p1, p2, p3, if_neg hv]
    exact ⟨rfl, rfl, rfl⟩

/-- C9 (amended): a pass of `smartUpdate` on a group of size 3 with all replicas
ready, no running backup and no active jobs, in which exactly one listed member
`S` is stale and does not report primary, the others are at the target revision
and one of them, `P`, reports primary, under collaborators that succeed (the pod
list is read, every read pod is started at the target revision, status update,
deletion, client connection and step-down succeed, the wait limit is at least 1):
exactly one pod Delete is issued, for `S`; one step-down is requested, with
force false, unless the component label of the StatefulSet is `nonVoting`; and
the pass returns nil. -/
theorem C9_one_stale_member (env : Env) (cr : PerconaServerMongoDB) (sfs : StatefulSet)
    (replset : ReplsetSpec) (items : List Pod) (S P : Pod)
    (hsize : replset.Size = 3)
    (hsmart : cr.Spec.UpdateStrategy = env.SmartUpdateStatefulSetStrategyType)
    (hversion : 0 ≤ env.CompareVersion cr "1.4.0")
    (hshard : cr.Spec.Sharding.Enabled = false)
    (hnotcfg : sfs.Name ≠ configSfsName env cr)
    (hlist : env.ListPods [] cr.Namespace (matchLabels cr sfs replset) = .ok items)
    (hnodup : items.Nodup) (hS : S ∈ items) (hP : P ∈ items) (hSP : S ≠ P) (hname : P.Name ≠ "")
    (hrev : sfs.Status.UpdateRevision ≠ "")
    (hcomp : S.Labels.get "app.kubernetes.io/component" = sfs.Labels.get "app.kubernetes.io/component")
    (hstale : S.Labels.get "controller-revision-hash" ≠ sfs.Status.UpdateRevision)
    (hcurrent : ∀ p ∈ items, p ≠ S →
      p.Labels.get "controller-revision-hash" = sfs.Status.UpdateRevision)
    (hnoarb : ∀ p ∈ items, p.Labels.get "app.kubernetes.io/component" ≠ "arbiter")
    (hready : ¬ sfs.Status.ReadyReplicas < sfs.Status.Replicas)
    (hbackup : ∀ t, env.isBackupRunning t = .ok false)
    (hjobs : ∀ t, env.HasActiveJobs t = .ok false)
    (hrole : ∀ t, ∀ p ∈ items, (isPodPrimary env p t).1 = .ok (decide (p = P)))
    (hw : 1 ≤ replset.LivenessProbe.InitialDelaySeconds)
    (hget : ∀ t name ns, ∃ p, env.GetPod t name ns = .found p ∧
      podStarted sfs.Status.UpdateRevision p = true)
    (hupd : ∀ t, env.updateStatus t = .ok ())
    (hdel : ∀ t p, env.Delete t p = .ok ())
    (hclient : ∀ t, env.mongoClientWithRole t = .ok ())
    (hstep : ∀ t f, env.StepDown t f = .ok ()) :
    (smartUpdate env cr sfs replset).1 = .ok () ∧
    deletes (smartUpdate env cr sfs replset).2 = [S] ∧
    stepDowns (smartUpdate env cr sfs replset).2
      = (if sfs.Labels.get "app.kubernetes.io/component" = "nonVoting" then [] else [false]) := by
  have hR := fun t => smartUpdateRestart_one_stale env sfs replset items S P t hnodup hS hP hSP hname
    hstale hcurrent hnoarb hrole hw hget hupd hdel hclient hstep
  have hforce : decide (replset.Size = 1) = false := by
    rw [hsize]
    rfl
  have hst : isSfsChanged sfs items = true := by
    unfold isSfsChanged
    rw [if_neg hrev]
    exact (isSfsChangedLoop_iff sfs items).2 ⟨S, hS, hcomp, hstale⟩
  have hcfg : ∀ t, configCheck env cr sfs t = (.ok false, []) := by
    intro t
    unfold configCheck
    rw [if_neg]
    rw [hshard]
    simp
  have hg : ∀ t, safetyGates env sfs t
      = (.ok true, [startingLog sfs, Event.isBackupRunning (.ok false), Event.HasActiveJobs (.ok false)]) := by
    intro t
    simp [safetyGates, hready, hbackup, hjobs, startingLog]
  have hb : ∀ t, balancerStep env cr sfs t = (.ok (), []) := by
    intro t
    unfold balancerStep
    rw [if_neg hnotcfg]
  have h0 : ¬ replset.Size = 0 := by
    rw [hsize]
    decide
  unfold smartUpdate
  rw [if_neg h0, if_neg (not_not.2 hsmart)]
  simp only [hlist]
  unfold smartUpdateListed
  rw [if_neg (by rw [hst]; decide), if_neg (not_lt.2 hversion)]
  simp only [hcfg]
  unfold smartUpdateGated
  have hR1 := fun t => (hR t).1
  have hR2 := fun t => (hR t).2.1
  have hR3 := fun t => (hR t).2.2
  simp only [hg, hb, after, deletes_append, stepDowns_append, hR1, hR2, hR3, hforce]
  refine ⟨trivial, ?_, ?_⟩
  · simp [deletes, deleteOf, startingLog]
  · simp [stepDowns, stepDownOf, startingLog]

theorem C9_one_stale_member_witness :
    (examplePod "rs0-2" "mongod" "rev-1" "Running" true ∈ oneStalePods ∧
      examplePod "rs0-1" "mongod" "rev-2" "Running" true ∈ oneStalePods ∧
      (1 : Int) ≤ exampleReplset.LivenessProbe.InitialDelaySeconds) ∧
    (smartUpdate (rsEnv oneStalePods "rs0-1") (exampleCr false) exampleSfs exampleReplset).1 = .ok () ∧
    deletes (smartUpdate (rsEnv oneStalePods "rs0-1") (exampleCr false) exampleSfs exampleReplset).2
      = [examplePod "rs0-2" "mongod" "rev-1" "Running" true] ∧
    stepDowns (smartUpdate (rsEnv oneStalePods "rs0-1") (exampleCr false) exampleSfs exampleReplset).2
      = (if exampleSfs.Labels.get "app.kubernetes.io/component" = "nonVoting" then [] else [false]) :=
  ⟨⟨by decide, by decide, by decide⟩,
    C9_one_stale_member (rsEnv oneStalePods "rs0-1") (exampleCr false) exampleSfs exampleReplset
      oneStalePods (examplePod "rs0-2" "mongod" "rev-1" "Running" true)
      (examplePod "rs0-1" "mongod" "rev-2" "Running" true)
      rfl rfl (by decide) rfl (by decide) rfl (by decide) (by decide) (by decide) (by decide)
      (by decide) (by decide) (by decide) (by decide) (by decide) (by decide) (by decide)
      (fun _ => rfl) (fun _ => rfl)
      (fun _ p hp => by
        simp only [oneStalePods, List.mem_cons, List.mem_singleton, List.not_mem_nil, or_false] at hp
        rcases hp with rfl | rfl | rfl <;> rfl)
      (by decide) (fun _ _ _ => ⟨_, rfl, rfl⟩) (fun _ => rfl) (fun _ _ => rfl) (fun _ => rfl)
      (fun _ _ => rfl)⟩

/-- C9 as stated fails: in the scenario of the claim (size 3, all replicas
ready, no backup, no active jobs, `rs0-2` the only stale member and not primary,
`rs0-0` and `rs0-1` started at the target revision, `rs0-1` reporting primary)
the pass deletes `rs0-2` only and returns nil, but it does request a step-down:
line 151 tests only that some pod reported primary, not that the primary is stale. -/
theorem C9_counterexample_step_down_requested :
    exampleReplset.Size = 3 ∧
    exampleSfs.Status.ReadyReplicas = exampleSfs.Status.Replicas ∧
    Event.isBackupRunning (.ok false)
      ∈ (smartUpdate (rsEnv oneStalePods "rs0-1") (exampleCr false) exampleSfs exampleReplset).2 ∧
    Event.HasActiveJobs (.ok false)
      ∈ (smartUpdate (rsEnv oneStalePods "rs0-1") (exampleCr false) exampleSfs exampleReplset).2 ∧
    oneStalePods.filter
        (fun p => decide (p.Labels.get "controller-revision-hash" ≠ exampleSfs.Status.UpdateRevision))
      = [examplePod "rs0-2" "mongod" "rev-1" "Running" true] ∧
    (∀ p ∈ oneStalePods, p ≠ examplePod "rs0-2" "mongod" "rev-1" "Running" true →
      podStarted exampleSfs.Status.UpdateRevision p = true) ∧
    roleAnswers (smartUpdate (rsEnv oneStalePods "rs0-1") (exampleCr false) exampleSfs exampleReplset).2
      = [ (examplePod "rs0-2" "mongod" "rev-1" "Running" true, .ok false),
          (examplePod "rs0-1" "mongod" "rev-2" "Running" true, .ok true),
          (examplePod "rs0-0" "mongod" "rev-2" "Running" true, .ok false) ] ∧
    (smartUpdate (rsEnv oneStalePods "rs0-1") (exampleCr false) exampleSfs exampleReplset).1 = .ok () ∧
    deletes (smartUpdate (rsEnv oneStalePods "rs0-1") (exampleCr false) exampleSfs exampleReplset).2
      = [examplePod "rs0-2" "mongod" "rev-1" "Running" true] ∧
    stepDowns (smartUpdate (rsEnv oneStalePods "rs0-1") (exampleCr false) exampleSfs exampleReplset).2
      = [false] :=
  ⟨by decide, by decide, by decide, by decide, by decide, by decide, by decide, by decide, by decide,
    by decide⟩

end perconaservermongodb
